import Mathlib

/-!
# OHCI USB controller (`src/mame/includes/xbox_usb.h`)

A shallow embedding of `xbox_usb.h`: the register indices, the bit masks of
the registers, the completion codes, the layout of the USB records and the
three descriptor records.  An enumerator of a C `enum` without an initialiser
is the previous enumerator plus one; the definitions below are written that
way, in declaration order.

The header only declares the descriptor codec (`usb_ohci_read_*_descriptor`,
`usb_ohci_writeback_*_descriptor`) and the register file (`read`, `write`,
`device_reset`); their bodies are not in the sources.  They are modelled from
the spec, and every such definition says so in its doc comment.
-/

namespace xbox_usb

/-! ## `enum OHCIRegisters` (word indices into `hc_regs`) -/

def HcRevision : Nat := 0
def HcControl : Nat := HcRevision + 1
def HcCommandStatus : Nat := HcControl + 1
def HcInterruptStatus : Nat := HcCommandStatus + 1
def HcInterruptEnable : Nat := HcInterruptStatus + 1
def HcInterruptDisable : Nat := HcInterruptEnable + 1
def HcHCCA : Nat := HcInterruptDisable + 1
def HcPeriodCurrentED : Nat := HcHCCA + 1
def HcControlHeadED : Nat := HcPeriodCurrentED + 1
def HcControlCurrentED : Nat := HcControlHeadED + 1
def HcBulkHeadED : Nat := HcControlCurrentED + 1
def HcBulkCurrentED : Nat := HcBulkHeadED + 1
def HcDoneHead : Nat := HcBulkCurrentED + 1
def HcFmInterval : Nat := HcDoneHead + 1
def HcFmRemaining : Nat := HcFmInterval + 1
def HcFmNumber : Nat := HcFmRemaining + 1
def HcPeriodicStart : Nat := HcFmNumber + 1
def HcLSThreshold : Nat := HcPeriodicStart + 1
def HcRhDescriptorA : Nat := HcLSThreshold + 1
def HcRhDescriptorB : Nat := HcRhDescriptorA + 1
def HcRhStatus : Nat := HcRhDescriptorB + 1
def HcRhPortStatus1 : Nat := HcRhStatus + 1

/-- The registers are 32 bits wide: the byte offset of a register is four
times its word index in `hc_regs`. -/
def byteOffset (index : Nat) : Nat := 4 * index

/-- Word index of the status register of port `n` (ports are numbered from 1;
entry 0 of `ohcist.ports[4 + 1]` is not used). -/
def portStatusIndex (n : Nat) : Nat := HcRhPortStatus1 + (n - 1)

/-! ## `enum HcControlBits` -/

def CBSR : Nat := 3 <<< 0
def PLE : Nat := 1 <<< 2
def IE : Nat := 1 <<< 3
def CLE : Nat := 1 <<< 4
def BLE : Nat := 1 <<< 5
def HCFS : Nat := 3 <<< 6
def IR : Nat := 1 <<< 8
def RWC : Nat := 1 <<< 9
def RWE : Nat := 1 <<< 10

/-! ## `enum HcCommandStatusBits` -/

def HCR : Nat := 1 <<< 0
def CLF : Nat := 1 <<< 1
def BLF : Nat := 1 <<< 2
def OCR : Nat := 1 <<< 3
def SOC : Nat := 3 <<< 16

/-! ## `enum HcRhPortStatusBits` -/

def CCS : Nat := 1 <<< 0
def PES : Nat := 1 <<< 1
def PSS : Nat := 1 <<< 2
def POCI : Nat := 1 <<< 3
def PRS : Nat := 1 <<< 4
def PPS : Nat := 1 <<< 8
def LSDA : Nat := 1 <<< 9
def CSC : Nat := 1 <<< 16
def PESC : Nat := 1 <<< 17
def PSSC : Nat := 1 <<< 18
def POCIC : Nat := 1 <<< 19
def PRSC : Nat := 1 <<< 20

/-! ## `enum OHCIHostControllerFunctionalState` -/

def UsbReset : Nat := 0
def UsbResume : Nat := UsbReset + 1
def UsbOperational : Nat := UsbResume + 1
def UsbSuspend : Nat := UsbOperational + 1

/-! ## `enum OHCICompletionCode` -/

def NoError : Nat := 0
def CRC : Nat := NoError + 1
def BitStuffing : Nat := CRC + 1
def DataToggleMismatch : Nat := BitStuffing + 1
def Stall : Nat := DataToggleMismatch + 1
def DeviceNotResponding : Nat := Stall + 1
def PIDCheckFailure : Nat := DeviceNotResponding + 1
def UnexpectedPID : Nat := PIDCheckFailure + 1
def DataOverrun : Nat := UnexpectedPID + 1
def DataUnderrun : Nat := DataOverrun + 1
def BufferOverrun : Nat := 12
def BufferUnderrun : Nat := BufferOverrun + 1
def NotAccessed : Nat := 14

/-- The enumerators of `OHCICompletionCode` with their names, in declaration
order. -/
def OHCICompletionCode : List (String × Nat) :=
  [("NoError", NoError), ("CRC", CRC), ("BitStuffing", BitStuffing),
   ("DataToggleMismatch", DataToggleMismatch), ("Stall", Stall),
   ("DeviceNotResponding", DeviceNotResponding), ("PIDCheckFailure", PIDCheckFailure),
   ("UnexpectedPID", UnexpectedPID), ("DataOverrun", DataOverrun),
   ("DataUnderrun", DataUnderrun), ("BufferOverrun", BufferOverrun),
   ("BufferUnderrun", BufferUnderrun), ("NotAccessed", NotAccessed)]

/-! ## The USB records: fields in declaration order with their types -/

/-- The two scalar types the USB records use. -/
inductive CType
  | UINT8
  | UINT16
  deriving DecidableEq, Repr

/-- Width of a scalar in bytes. -/
def CType.width : CType → Nat
  | .UINT8 => 1
  | .UINT16 => 2

/-- A record declaration: the fields in declaration order. -/
abbrev StructDecl := List (String × CType)

def USBSetupPacket : StructDecl :=
  [("bmRequestType", .UINT8), ("bRequest", .UINT8), ("wValue", .UINT16),
   ("wIndex", .UINT16), ("wLength", .UINT16)]

def USBStandardDeviceDescriptor : StructDecl :=
  [("bLength", .UINT8), ("bDescriptorType", .UINT8), ("bcdUSB", .UINT16),
   ("bDeviceClass", .UINT8), ("bDeviceSubClass", .UINT8), ("bDeviceProtocol", .UINT8),
   ("bMaxPacketSize0", .UINT8), ("idVendor", .UINT16), ("idProduct", .UINT16),
   ("bcdDevice", .UINT16), ("iManufacturer", .UINT8), ("iProduct", .UINT8),
   ("iSerialNumber", .UINT8), ("bNumConfigurations", .UINT8)]

def USBStandardConfigurationDescriptor : StructDecl :=
  [("bLength", .UINT8), ("bDescriptorType", .UINT8), ("wTotalLength", .UINT16),
   ("bNumInterfaces", .UINT8), ("bConfigurationValue", .UINT8), ("iConfiguration", .UINT8),
   ("bmAttributes", .UINT8), ("MaxPower", .UINT8)]

def USBStandardInterfaceDescriptor : StructDecl :=
  [("bLength", .UINT8), ("bDescriptorType", .UINT8), ("bInterfaceNumber", .UINT8),
   ("bAlternateSetting", .UINT8), ("bNumEndpoints", .UINT8), ("bInterfaceClass", .UINT8),
   ("bInterfaceSubClass", .UINT8), ("bInterfaceProtocol", .UINT8), ("iInterface", .UINT8)]

def USBStandardEndpointDescriptor : StructDecl :=
  [("bLength", .UINT8), ("bDescriptorType", .UINT8), ("bEndpointAddress", .UINT8),
   ("bmAttributes", .UINT8), ("wMaxPacketSize", .UINT16), ("bInterval", .UINT8)]

/-- Sum of the declared widths of the fields. -/
def fieldWidthTotal (s : StructDecl) : Nat := (s.map fun f => f.2.width).sum

/-- Byte ranges `(name, first byte, width)` of the fields when they are laid
out one after another from offset `start`, as on the wire. -/
def fieldRanges : StructDecl → Nat → List (String × Nat × Nat)
  | [], _ => []
  | (name, ty) :: rest, start => (name, start, ty.width) :: fieldRanges rest (start + ty.width)

/-- Byte ranges of the fields when every field is placed at the next multiple
of its own width (the natural alignment of a scalar). -/
def alignedRanges : StructDecl → Nat → List (String × Nat × Nat)
  | [], _ => []
  | (name, ty) :: rest, start =>
    let off := (start + ty.width - 1) / ty.width * ty.width
    (name, off, ty.width) :: alignedRanges rest (off + ty.width)

/-- Two byte ranges, the first declared before the second, do not overlap:
the first ends at or before the start of the second. -/
def rangeBefore (a b : String × Nat × Nat) : Prop := a.2.1 + a.2.2 ≤ b.2.1

instance (a b : String × Nat × Nat) : Decidable (rangeBefore a b) := by
  unfold rangeBefore; infer_instance

/-! ## The descriptor records (`struct OHCIEndpointDescriptor`, ...)

The `int` fields hold unsigned bit fields of a descriptor word and the
`UINT32` fields hold 32-bit words; both are represented by natural numbers. -/

structure OHCIEndpointDescriptor where
  mps : Nat
  f : Nat
  k : Nat
  s : Nat
  d : Nat
  en : Nat
  fa : Nat
  tailp : Nat
  headp : Nat
  nexted : Nat
  c : Nat
  h : Nat
  word0 : Nat
  deriving DecidableEq, Repr

structure OHCITransferDescriptor where
  cc : Nat
  ec : Nat
  t : Nat
  di : Nat
  dp : Nat
  r : Nat
  cbp : Nat
  nexttd : Nat
  be : Nat
  word0 : Nat
  deriving DecidableEq, Repr

structure OHCIIsochronousTransferDescriptor where
  cc : Nat
  fc : Nat
  di : Nat
  sf : Nat
  bp0 : Nat
  nexttd : Nat
  be : Nat
  offset : Fin 8 → Nat
  word0 : Nat
  word1 : Nat

/-! ## The memory bus -/

/-- Truncation of a value to `UINT32`. -/
def UINT32 (x : Nat) : Nat := x % 2 ^ 32

/-- Modelled from the spec: the memory bus (`ohcist.space`, an
`address_space` whose code is not in the sources) is the "byte-addressable
memory-bus abstraction" of the spec, with 32-bit addresses: which addresses
are inside the "mapped range", and the byte stored at each address. -/
structure Bus where
  mapped : Nat → Bool
  bytes : Nat → Nat

/-- Modelled from the spec: the failure of a bus access, "bus read/write
errors (e.g. address outside mapped range) propagate as a `BusFault`". -/
inductive BusFault
  | fault
  deriving DecidableEq, Repr

/-- The `n` bytes from `address` on are inside the mapped range (addresses
wrap at 2^32). -/
def Bus.maps (space : Bus) (address n : Nat) : Prop :=
  ∀ i, i < n → space.mapped (UINT32 (address + i)) = true

instance (space : Bus) (address n : Nat) : Decidable (space.maps address n) := by
  unfold Bus.maps; infer_instance

/-- The 32-bit little-endian value of the four bytes at `address`,
`address + 1`, `address + 2` and `address + 3` (addresses wrap at 2^32). -/
def load_dword (bytes : Nat → Nat) (address : Nat) : Nat :=
  (bytes (UINT32 address) % 256)
    ||| ((bytes (UINT32 (address + 1)) % 256) <<< 8)
    ||| ((bytes (UINT32 (address + 2)) % 256) <<< 16)
    ||| ((bytes (UINT32 (address + 3)) % 256) <<< 24)

/-- The bytes after `data` was stored, little-endian, in the four bytes
starting at `address`. -/
def store_dword (bytes : Nat → Nat) (address data : Nat) : Nat → Nat := fun a =>
  if a = UINT32 address then data &&& 0xff
  else if a = UINT32 (address + 1) then (data >>> 8) &&& 0xff
  else if a = UINT32 (address + 2) then (data >>> 16) &&& 0xff
  else if a = UINT32 (address + 3) then (data >>> 24) &&& 0xff
  else bytes a

/-- Modelled from the spec: `address_space::read_dword`, a 32-bit
little-endian read of four bytes; a `BusFault` when one of them is outside the
mapped range. -/
def read_dword (space : Bus) (address : Nat) : Except BusFault Nat :=
  if space.maps address 4 then .ok (load_dword space.bytes address) else .error .fault

/-- Modelled from the spec: `address_space::write_dword`, a 32-bit
little-endian write of four bytes; a `BusFault`, with nothing written, when one
of them is outside the mapped range. -/
def write_dword (space : Bus) (address data : Nat) : Except BusFault Bus :=
  if space.maps address 4 then
    .ok { space with bytes := store_dword space.bytes address data }
  else .error .fault

/-! ## The descriptor codec

The bodies of `usb_ohci_read_*_descriptor` and
`usb_ohci_writeback_*_descriptor` are not in the sources (the header only
declares them).  They are modelled from the descriptor layouts of the spec
("bit-exact, matching the OHCI 1.0a specification"): "each performs a fixed
sequence of bus word reads/writes at the documented field bit offsets; no
validation is performed here", and a `BusFault` of a bus access is passed on.
The member functions work on the record held in `ohcist`; here the reader
returns the record and the writer takes it. -/

/-- Modelled from the spec: the ED that the four words of the ED layout
hold.  "ED is 4 words (word0 packs MPS/F/K/S/D/EN/FA; word1 TailP; word2 HeadP
with 2 low control bits; word3 NextED)"; in word 0 FA is bits 0-6, EN bits
7-10, D bits 11-12, S bit 13, K bit 14, F bit 15 and MPS bits 16-26; in word 2
bit 0 is halted and bit 1 is toggleCarry.  `word0` keeps the raw word. -/
def endpoint_descriptor_of_words (w0 w1 w2 w3 : Nat) : OHCIEndpointDescriptor :=
  { word0 := w0
    fa := w0 &&& 0x7f
    en := (w0 >>> 7) &&& 15
    d := (w0 >>> 11) &&& 3
    s := (w0 >>> 13) &&& 1
    k := (w0 >>> 14) &&& 1
    f := (w0 >>> 15) &&& 1
    mps := (w0 >>> 16) &&& 0x7ff
    tailp := w1
    headp := w2 &&& 0xfffffffc
    c := (w2 >>> 1) &&& 1
    h := w2 &&& 1
    nexted := w3 }

/-- Modelled from the spec: word 0 of the ED layout, packed from the fields
of the record.  The bits that carry no field (27-31, which OHCI 1.0a leaves to
the driver and the controller must not modify) come from the raw copy
`word0`. -/
def endpoint_descriptor_word0 (ed : OHCIEndpointDescriptor) : Nat :=
  UINT32 ((ed.word0 &&& 0xf8000000) ||| (ed.mps <<< 16) ||| (ed.f <<< 15)
    ||| (ed.k <<< 14) ||| (ed.s <<< 13) ||| (ed.d <<< 11) ||| (ed.en <<< 7) ||| ed.fa)

/-- Modelled from the spec: word 2 of the ED layout, `HeadP` with the halted
and toggleCarry bits. -/
def endpoint_descriptor_word2 (ed : OHCIEndpointDescriptor) : Nat :=
  UINT32 (ed.headp ||| (ed.c <<< 1) ||| ed.h)

/-- Modelled from the spec: `usb_ohci_read_endpoint_descriptor`, which is
missing from the sources: the four words of the ED layout are read from the
bus and unpacked. -/
def usb_ohci_read_endpoint_descriptor (space : Bus) (address : Nat) :
    Except BusFault OHCIEndpointDescriptor := do
  let w0 ← read_dword space address
  let w1 ← read_dword space (address + 4)
  let w2 ← read_dword space (address + 8)
  let w3 ← read_dword space (address + 12)
  pure (endpoint_descriptor_of_words w0 w1 w2 w3)

/-- Modelled from the spec: `usb_ohci_writeback_endpoint_descriptor`, which is
missing from the sources: the four words of the ED layout are packed from the
record and written to the bus. -/
def usb_ohci_writeback_endpoint_descriptor (space : Bus) (address : Nat)
    (ed : OHCIEndpointDescriptor) : Except BusFault Bus := do
  let space ← write_dword space address (endpoint_descriptor_word0 ed)
  let space ← write_dword space (address + 4) (UINT32 ed.tailp)
  let space ← write_dword space (address + 8) (endpoint_descriptor_word2 ed)
  write_dword space (address + 12) (UINT32 ed.nexted)

/-- Modelled from the spec: the TD that the four words of the TD layout
hold.  "TD is 4 words (word0 packs CC/EC/T/DI/DP/R; word1 CBP; word2 NextTD;
word3 BE)"; in word 0 R is bit 18, DP bits 19-20, DI bits 21-23, T bits 24-25,
EC bits 26-27 and CC bits 28-31. -/
def transfer_descriptor_of_words (w0 w1 w2 w3 : Nat) : OHCITransferDescriptor :=
  { word0 := w0
    cc := (w0 >>> 28) &&& 15
    ec := (w0 >>> 26) &&& 3
    t := (w0 >>> 24) &&& 3
    di := (w0 >>> 21) &&& 7
    dp := (w0 >>> 19) &&& 3
    r := (w0 >>> 18) &&& 1
    cbp := w1
    nexttd := w2
    be := w3 }

/-- Modelled from the spec: word 0 of the TD layout, packed from the fields
of the record.  The bits that carry no field (0-17) come from `word0`. -/
def transfer_descriptor_word0 (td : OHCITransferDescriptor) : Nat :=
  UINT32 ((td.word0 &&& 0x0003ffff) ||| (td.cc <<< 28) ||| (td.ec <<< 26)
    ||| (td.t <<< 24) ||| (td.di <<< 21) ||| (td.dp <<< 19) ||| (td.r <<< 18))

/-- Modelled from the spec: `usb_ohci_read_transfer_descriptor`, which is
missing from the sources. -/
def usb_ohci_read_transfer_descriptor (space : Bus) (address : Nat) :
    Except BusFault OHCITransferDescriptor := do
  let w0 ← read_dword space address
  let w1 ← read_dword space (address + 4)
  let w2 ← read_dword space (address + 8)
  let w3 ← read_dword space (address + 12)
  pure (transfer_descriptor_of_words w0 w1 w2 w3)

/-- Modelled from the spec: `usb_ohci_writeback_transfer_descriptor`, which is
missing from the sources. -/
def usb_ohci_writeback_transfer_descriptor (space : Bus) (address : Nat)
    (td : OHCITransferDescriptor) : Except BusFault Bus := do
  let space ← write_dword space address (transfer_descriptor_word0 td)
  let space ← write_dword space (address + 4) (UINT32 td.cbp)
  let space ← write_dword space (address + 8) (UINT32 td.nexttd)
  write_dword space (address + 12) (UINT32 td.be)

/-- Modelled from the spec: the ITD that the eight words of the ITD layout
hold.  "ITD is 8 words (word0 packs SF/DI/FC/CC; word1 BP0; word2 NextTD; word3
BE; words4-7 eight 16-bit offset/status pairs)"; in word 0 SF is bits 0-15, DI
bits 21-23, FC bits 24-26 and CC bits 28-31; BP0 is the page part (bits 12-31)
of word 1; offset `2 * j` is the low and offset `2 * j + 1` the high half of
word `4 + j`, which is `offsets j` here. -/
def isochronous_transfer_descriptor_of_words (w0 w1 w2 w3 : Nat) (offsets : Nat → Nat) :
    OHCIIsochronousTransferDescriptor :=
  { word0 := w0
    word1 := w1
    cc := (w0 >>> 28) &&& 15
    fc := (w0 >>> 24) &&& 7
    di := (w0 >>> 21) &&& 7
    sf := w0 &&& 0xffff
    bp0 := w1 &&& 0xfffff000
    nexttd := w2
    be := w3
    offset := fun i =>
      if i.val % 2 = 0 then offsets (i.val / 2) &&& 0xffff
      else (offsets (i.val / 2) >>> 16) &&& 0xffff }

/-- Modelled from the spec: word 0 of the ITD layout, packed from the fields
of the record.  The bits that carry no field (16-20 and 27) come from
`word0`. -/
def isochronous_transfer_descriptor_word0 (itd : OHCIIsochronousTransferDescriptor) : Nat :=
  UINT32 ((itd.word0 &&& 0x081f0000) ||| (itd.cc <<< 28) ||| (itd.fc <<< 24)
    ||| (itd.di <<< 21) ||| itd.sf)

/-- Modelled from the spec: word 1 of the ITD layout, `BP0` with the low 12
bits of the raw copy `word1`. -/
def isochronous_transfer_descriptor_word1 (itd : OHCIIsochronousTransferDescriptor) : Nat :=
  UINT32 ((itd.word1 &&& 0x00000fff) ||| itd.bp0)

/-- Modelled from the spec: `usb_ohci_read_isochronous_transfer_descriptor`,
which is missing from the sources. -/
def usb_ohci_read_isochronous_transfer_descriptor (space : Bus) (address : Nat) :
    Except BusFault OHCIIsochronousTransferDescriptor := do
  let w0 ← read_dword space address
  let w1 ← read_dword space (address + 4)
  let w2 ← read_dword space (address + 8)
  let w3 ← read_dword space (address + 12)
  let w4 ← read_dword space (address + 16)
  let w5 ← read_dword space (address + 20)
  let w6 ← read_dword space (address + 24)
  let w7 ← read_dword space (address + 28)
  pure (isochronous_transfer_descriptor_of_words w0 w1 w2 w3
    fun j => if j = 0 then w4 else if j = 1 then w5 else if j = 2 then w6 else w7)

/-- Modelled from the spec: `usb_ohci_writeback_isochronous_transfer_descriptor`,
which is missing from the sources. -/
def usb_ohci_writeback_isochronous_transfer_descriptor (space : Bus) (address : Nat)
    (itd : OHCIIsochronousTransferDescriptor) : Except BusFault Bus := do
  let space ← write_dword space address (isochronous_transfer_descriptor_word0 itd)
  let space ← write_dword space (address + 4) (isochronous_transfer_descriptor_word1 itd)
  let space ← write_dword space (address + 8) (UINT32 itd.nexttd)
  let space ← write_dword space (address + 12) (UINT32 itd.be)
  let space ← write_dword space (address + 16) (UINT32 ((itd.offset 1 <<< 16) ||| itd.offset 0))
  let space ← write_dword space (address + 20) (UINT32 ((itd.offset 3 <<< 16) ||| itd.offset 2))
  let space ← write_dword space (address + 24) (UINT32 ((itd.offset 5 <<< 16) ||| itd.offset 4))
  write_dword space (address + 28) (UINT32 ((itd.offset 7 <<< 16) ||| itd.offset 6))

/-- Every field of an ED fits the bit field that carries it: the fields of
word 0 are within their widths, the pointers are 32-bit words, `headp` has its
two low bits clear and `c`, `h` are single bits. -/
def OHCIEndpointDescriptor.fits (ed : OHCIEndpointDescriptor) : Prop :=
  ed.fa < 2 ^ 7 ∧ ed.en < 2 ^ 4 ∧ ed.d < 2 ^ 2 ∧ ed.s < 2 ∧ ed.k < 2 ∧ ed.f < 2
    ∧ ed.mps < 2 ^ 11
    ∧ ed.tailp < 2 ^ 32 ∧ ed.nexted < 2 ^ 32
    ∧ ed.headp < 2 ^ 32 ∧ ed.headp &&& 3 = 0 ∧ ed.c < 2 ∧ ed.h < 2

instance (ed : OHCIEndpointDescriptor) : Decidable ed.fits := by
  unfold OHCIEndpointDescriptor.fits; infer_instance

/-- The decoded fields of an ED agree with the raw copy `word0` (so each lies
within its bit field), the pointers are 32-bit words, `headp` has its two low
bits clear and `c`, `h` are single bits.  Every record the reader returns is
of this kind. -/
def OHCIEndpointDescriptor.wf (ed : OHCIEndpointDescriptor) : Prop :=
  ed.word0 < 2 ^ 32 ∧ ed.fa = ed.word0 &&& 0x7f ∧ ed.en = (ed.word0 >>> 7) &&& 15
    ∧ ed.d = (ed.word0 >>> 11) &&& 3 ∧ ed.s = (ed.word0 >>> 13) &&& 1
    ∧ ed.k = (ed.word0 >>> 14) &&& 1 ∧ ed.f = (ed.word0 >>> 15) &&& 1
    ∧ ed.mps = (ed.word0 >>> 16) &&& 0x7ff
    ∧ ed.tailp < 2 ^ 32 ∧ ed.nexted < 2 ^ 32
    ∧ ed.headp < 2 ^ 32 ∧ ed.headp &&& 3 = 0 ∧ ed.c < 2 ∧ ed.h < 2

instance (ed : OHCIEndpointDescriptor) : Decidable ed.wf := by
  unfold OHCIEndpointDescriptor.wf; infer_instance

/-- Every field of a TD fits the bit field that carries it, and the pointers
are 32-bit words. -/
def OHCITransferDescriptor.fits (td : OHCITransferDescriptor) : Prop :=
  td.cc < 2 ^ 4 ∧ td.ec < 2 ^ 2 ∧ td.t < 2 ^ 2 ∧ td.di < 2 ^ 3 ∧ td.dp < 2 ^ 2 ∧ td.r < 2
    ∧ td.cbp < 2 ^ 32 ∧ td.nexttd < 2 ^ 32 ∧ td.be < 2 ^ 32

instance (td : OHCITransferDescriptor) : Decidable td.fits := by
  unfold OHCITransferDescriptor.fits; infer_instance

/-- The decoded fields of a TD agree with the raw copy `word0` and the
pointers are 32-bit words. -/
def OHCITransferDescriptor.wf (td : OHCITransferDescriptor) : Prop :=
  td.word0 < 2 ^ 32 ∧ td.cc = (td.word0 >>> 28) &&& 15 ∧ td.ec = (td.word0 >>> 26) &&& 3
    ∧ td.t = (td.word0 >>> 24) &&& 3 ∧ td.di = (td.word0 >>> 21) &&& 7
    ∧ td.dp = (td.word0 >>> 19) &&& 3 ∧ td.r = (td.word0 >>> 18) &&& 1
    ∧ td.cbp < 2 ^ 32 ∧ td.nexttd < 2 ^ 32 ∧ td.be < 2 ^ 32

instance (td : OHCITransferDescriptor) : Decidable td.wf := by
  unfold OHCITransferDescriptor.wf; infer_instance

/-- Every field of an ITD fits the bit field that carries it: the fields of
word 0 are within their widths, `bp0` is a 32-bit word with its low 12 bits
clear, the pointers are 32-bit words and the eight offsets are 16-bit
values. -/
def OHCIIsochronousTransferDescriptor.fits (itd : OHCIIsochronousTransferDescriptor) : Prop :=
  itd.cc < 2 ^ 4 ∧ itd.fc < 2 ^ 3 ∧ itd.di < 2 ^ 3 ∧ itd.sf < 2 ^ 16
    ∧ itd.bp0 < 2 ^ 32 ∧ itd.bp0 &&& 0xfff = 0
    ∧ itd.nexttd < 2 ^ 32 ∧ itd.be < 2 ^ 32 ∧ ∀ i : Fin 8, itd.offset i < 2 ^ 16

instance (itd : OHCIIsochronousTransferDescriptor) : Decidable itd.fits := by
  unfold OHCIIsochronousTransferDescriptor.fits; infer_instance

/-- The decoded fields of an ITD agree with the raw copies `word0` and
`word1`, the pointers are 32-bit words and the eight offsets are 16-bit
values. -/
def OHCIIsochronousTransferDescriptor.wf (itd : OHCIIsochronousTransferDescriptor) : Prop :=
  itd.word0 < 2 ^ 32 ∧ itd.word1 < 2 ^ 32
    ∧ itd.cc = (itd.word0 >>> 28) &&& 15 ∧ itd.fc = (itd.word0 >>> 24) &&& 7
    ∧ itd.di = (itd.word0 >>> 21) &&& 7 ∧ itd.sf = itd.word0 &&& 0xffff
    ∧ itd.bp0 = itd.word1 &&& 0xfffff000
    ∧ itd.nexttd < 2 ^ 32 ∧ itd.be < 2 ^ 32 ∧ ∀ i : Fin 8, itd.offset i < 2 ^ 16

instance (itd : OHCIIsochronousTransferDescriptor) : Decidable itd.wf := by
  unfold OHCIIsochronousTransferDescriptor.wf; infer_instance

/-! ## The register file

`DECLARE_READ32_MEMBER(read)`, `DECLARE_WRITE32_MEMBER(write)` and
`device_reset` are only declared in the header; their bodies are modelled from
section 4.2 of the spec.  `offset` is the word index of a register (an
`OHCIRegisters` value). -/

/-- The part of `ohcist` the register file works on: `hc_regs[256]` and the
`delay` of each entry of `ports[4 + 1]`. -/
structure ohcist_t where
  hc_regs : Nat → Nat
  ports_delay : Nat → Nat

/-- Modelled from the spec: the constants the spec leaves open, namely the
"documented power-on value" of each register and the "fixed settle delay" of
a port reset. -/
structure ohci_config where
  poweron : Nat → Nat
  settle_delay : Nat

/-- Complement of a mask within 32 bits (`~mask` on `UINT32`). -/
def not32 (mask : Nat) : Nat := 0xffffffff ^^^ (mask &&& 0xffffffff)

/-- Assignment `regs[index] = value`. -/
def set_reg (regs : Nat → Nat) (index value : Nat) : Nat → Nat :=
  fun i => if i = index then value else regs i

/-- Modelled from the spec: `ohci_usb_controller::device_reset`, missing from
the sources: every register takes its power-on value. -/
def device_reset (cfg : ohci_config) (st : ohcist_t) : ohcist_t :=
  { st with hc_regs := cfg.poweron }

/-- Modelled from the spec: `ohci_usb_controller::read`, missing from the
sources: "status bits are read normally", a read returns the register. -/
def read (st : ohcist_t) (offset : Nat) : Nat := st.hc_regs offset

/-- The change bits of a root-hub status register. -/
def changeBits : Nat := CSC ||| PESC ||| PSSC ||| POCIC ||| PRSC

/-- Modelled from the spec: `ohci_usb_controller::write`, missing from the
sources.
* "`HcCommandStatus.HCR=1`: synchronously reinitializes all registers to
  power-on defaults and clears `HCR`";
* "interrupt-status bits require a write-1-to-clear from software";
* "`HcRhStatus`/`HcRhPortStatus[n]`: ... the corresponding Change bits
  (`CSC,PESC,PSSC,POCIC,PRSC`) are cleared only by a write with that bit set
  (write-1-to-clear); writing `PRS=1` starts a port reset sequence completed
  asynchronously by the Root Hub component; writing `PPS` controls per-port
  power";
* any other write stores the value. -/
def write (cfg : ohci_config) (st : ohcist_t) (offset data : Nat) : ohcist_t :=
  let data := UINT32 data
  if offset = HcCommandStatus then
    if data &&& HCR ≠ 0 then
      let st := device_reset cfg st
      { st with hc_regs :=
          set_reg st.hc_regs HcCommandStatus (st.hc_regs HcCommandStatus &&& not32 HCR) }
    else
      { st with hc_regs := set_reg st.hc_regs offset data }
  else if offset = HcInterruptStatus then
    { st with hc_regs := set_reg st.hc_regs offset (st.hc_regs offset &&& not32 data) }
  else if offset = HcRhStatus then
    { st with hc_regs :=
        set_reg st.hc_regs offset (st.hc_regs offset &&& not32 (data &&& changeBits)) }
  else if HcRhPortStatus1 ≤ offset ∧ offset < HcRhPortStatus1 + 4 then
    let port := offset - HcRhPortStatus1 + 1
    let v := st.hc_regs offset &&& not32 (data &&& changeBits)
    let v := (v &&& not32 PPS) ||| (data &&& PPS)
    if data &&& PRS ≠ 0 then
      { hc_regs := set_reg st.hc_regs offset (v ||| PRS)
        ports_delay := set_reg st.ports_delay port cfg.settle_delay }
    else
      { st with hc_regs := set_reg st.hc_regs offset v }
  else
    { st with hc_regs := set_reg st.hc_regs offset data }

/-- The enumerators of `OHCIRegisters` with their names, in declaration
order. -/
def OHCIRegisters : List (String × Nat) :=
  [("HcRevision", HcRevision), ("HcControl", HcControl), ("HcCommandStatus", HcCommandStatus),
   ("HcInterruptStatus", HcInterruptStatus), ("HcInterruptEnable", HcInterruptEnable),
   ("HcInterruptDisable", HcInterruptDisable), ("HcHCCA", HcHCCA),
   ("HcPeriodCurrentED", HcPeriodCurrentED), ("HcControlHeadED", HcControlHeadED),
   ("HcControlCurrentED", HcControlCurrentED), ("HcBulkHeadED", HcBulkHeadED),
   ("HcBulkCurrentED", HcBulkCurrentED), ("HcDoneHead", HcDoneHead),
   ("HcFmInterval", HcFmInterval), ("HcFmRemaining", HcFmRemaining),
   ("HcFmNumber", HcFmNumber), ("HcPeriodicStart", HcPeriodicStart),
   ("HcLSThreshold", HcLSThreshold), ("HcRhDescriptorA", HcRhDescriptorA),
   ("HcRhDescriptorB", HcRhDescriptorB), ("HcRhStatus", HcRhStatus),
   ("HcRhPortStatus1", HcRhPortStatus1)]

/-- The register map as the spec words it, up to `RhStatus`: byte offset and
register name (without the `Hc` the enumerators carry). -/
def specRegisterMap : List (Nat × String) :=
  [(0x00, "Revision"), (0x04, "Control"), (0x08, "CommandStatus"), (0x0C, "InterruptStatus"),
   (0x10, "InterruptEnable"), (0x14, "InterruptDisable"), (0x18, "HCCA"),
   (0x1C, "PeriodCurrentED"), (0x20, "ControlHeadED"), (0x24, "ControlCurrentED"),
   (0x28, "BulkHeadED"), (0x2C, "BulkCurrentED"), (0x30, "DoneHead"), (0x34, "FmInterval"),
   (0x38, "FmRemaining"), (0x3C, "FmNumber"), (0x40, "PeriodicStart"), (0x44, "LSThreshold"),
   (0x48, "RhDescriptorA"), (0x4C, "RhDescriptorB"), (0x50, "RhStatus")]

/-- The byte offset the spec words for the status register of port `n`:
"0x54+4n RhPortStatus[n] for n=1..4". -/
def specPortStatusOffset (n : Nat) : Nat := 0x54 + 4 * n

/-- The error taxonomy as the spec names it, in the spec's order. -/
def specErrorTaxonomy : List String :=
  ["NoError", "CRC", "BitStuffing", "DataToggleMismatch", "Stall", "DeviceNotResponding",
   "PIDCheckFailure", "UnexpectedPID", "DataOverrun", "DataUnderrun", "BufferOverrun",
   "BufferUnderrun", "NotAccessed"]

/-! ## Concrete inputs -/

/-- A bus on which every address is mapped and every byte is zero. -/
def zeroBus : Bus := { mapped := fun _ => true, bytes := fun _ => 0 }

/-- A bus with 64 KiB of memory at address 0 and nothing mapped above it. -/
def smallBus : Bus := { mapped := fun a => decide (a < 0x10000), bytes := fun _ => 0 }

/-- An ED for a 64-byte IN endpoint 1 of function 5, halted with toggle carry. -/
def sampleED : OHCIEndpointDescriptor :=
  { mps := 64, f := 0, k := 0, s := 0, d := 2, en := 1, fa := 5, tailp := 0x2040,
    headp := 0x2000, nexted := 0x5000, c := 1, h := 1, word0 := 0x00401085 }

/-- An ED whose `mps` needs twelve bits; everything else is zero. -/
def oversizedED : OHCIEndpointDescriptor :=
  { mps := 0x800, f := 0, k := 0, s := 0, d := 0, en := 0, fa := 0, tailp := 0,
    headp := 0, nexted := 0, c := 0, h := 0, word0 := 0 }

/-- An ED whose function address was changed to 1 while the raw copy `word0`
still holds the old word 0. -/
def staleED : OHCIEndpointDescriptor :=
  { mps := 0, f := 0, k := 0, s := 0, d := 0, en := 0, fa := 1, tailp := 0,
    headp := 0, nexted := 0, c := 0, h := 0, word0 := 0 }

/-- The TD `sampleTD` below after it was retired with the completion code
`Stall`: `cc` was changed from 14 to 4 and the raw copy `word0` still holds the
word that was read. -/
def retiredTD : OHCITransferDescriptor :=
  { cc := 4, ec := 0, t := 2, di := 7, dp := 2, r := 1, cbp := 0x3000, nexttd := 0x4000,
    be := 0x3fff, word0 := 0xE2F40000 }

/-- A TD that was not accessed yet. -/
def sampleTD : OHCITransferDescriptor :=
  { cc := 14, ec := 0, t := 2, di := 7, dp := 2, r := 1, cbp := 0x3000, nexttd := 0x4000,
    be := 0x3fff, word0 := 0xE2F40000 }

/-- An ITD of eight packets starting at frame 0x1234. -/
def sampleITD : OHCIIsochronousTransferDescriptor :=
  { cc := 14, fc := 7, di := 0, sf := 0x1234, bp0 := 0x00345000, nexttd := 0x2000,
    be := 0x00345fff, offset := fun i => 0x100 * i.val, word0 := 0xE7001234,
    word1 := 0x00345000 }

/-- A power-on image (revision 1.0, frame interval 0x2edf, four ports) and a
settle delay of ten ticks. -/
def sampleConfig : ohci_config :=
  { poweron := fun i =>
      if i = HcRevision then 0x10
      else if i = HcFmInterval then 0x2edf
      else if i = HcRhDescriptorA then 4
      else 0
    settle_delay := 10 }

/-- A register file with every bit of every register set. -/
def allOnes : ohcist_t :=
  { hc_regs := fun _ => 0xffffffff, ports_delay := fun _ => 0 }

/-! ## `class ohci_function_device`: the default request and pid handlers -/

/-- A value of `struct USBSetupPacket` (the declaration above gives its
layout). -/
structure USBSetupPacket_value where
  bmRequestType : Nat
  bRequest : Nat
  wValue : Nat
  wIndex : Nat
  wLength : Nat
  deriving DecidableEq, Repr

/-- One entry of `ohci_function_device::endpoints[256]`; `position` is the
offset of the I/O cursor in the staging buffer. -/
structure function_endpoint where
  type : Int
  controldirection : Int
  controltype : Int
  controlrecipient : Int
  remain : Int
  position : Nat
  buffer : List Nat
  deriving DecidableEq, Repr

/-- The data members of `class ohci_function_device` (the descriptor tree
and the pointer to the bus manager, which no default handler touches, are
left out). -/
structure ohci_function_device where
  endpoints : List function_endpoint
  state : Int
  settingaddress : Bool
  newaddress : Int
  address : Int
  configurationvalue : Int
  descriptors_pos : Int
  wantstatuscallback : Bool
  deriving DecidableEq, Repr

/-- The outcome of a virtual handler: the `int` it returns, the buffer it was
given and the device, both as the handler leaves them. -/
structure handler_result where
  result : Int
  buffer : List Nat
  device : ohci_function_device
  deriving DecidableEq, Repr

/-- The `ohci_function_device::handle_nonstandard_request` of the base class:
`{ return -1; }`. -/
def handle_nonstandard_request (dev : ohci_function_device) (endpoint : Int)
    (setup : USBSetupPacket_value) : Int × ohci_function_device :=
  let _ := endpoint
  let _ := setup
  (-1, dev)

/-- The `ohci_function_device::handle_bulk_pid` of the base class:
`{ return 0; }`. -/
def handle_bulk_pid (dev : ohci_function_device) (endpoint pid : Int) (buffer : List Nat)
    (size : Int) : handler_result :=
  let _ := (endpoint, pid, size)
  { result := 0, buffer := buffer, device := dev }

/-- The `ohci_function_device::handle_interrupt_pid` of the base class:
`{ return 0; }`. -/
def handle_interrupt_pid (dev : ohci_function_device) (endpoint pid : Int) (buffer : List Nat)
    (size : Int) : handler_result :=
  let _ := (endpoint, pid, size)
  { result := 0, buffer := buffer, device := dev }

/-- The `ohci_function_device::handle_isochronous_pid` of the base class:
`{ return 0; }`. -/
def handle_isochronous_pid (dev : ohci_function_device) (endpoint pid : Int)
    (buffer : List Nat) (size : Int) : handler_result :=
  let _ := (endpoint, pid, size)
  { result := 0, buffer := buffer, device := dev }

/-- Modelled from the spec: the treatment of a forwarded request by
`execute_transfer`, whose body is not in the sources: "returning a negative
result causes the transfer to stall", the completion code of the transfer is
then `Stall`. -/
def forwarded_request_completion (result : Int) : Option Nat :=
  if result < 0 then some Stall else none


end xbox_usb


/-!
# VGM player (`src/mame/drivers/vgmplay.cpp`)

The player engine `vgmplay_device` reads the commands of a VGM file through
the address space `m_file` and writes to the sound chips through `m_io` and
`m_io16`.  Both spaces are little-endian with 32-bit addresses; `m_file` is 8
bits wide and every address of it is mapped to `vgmplay_state::file_r`
(`file_map`), so a word or dword read is assembled from byte reads at
consecutive addresses.  The writes through `m_io` and `m_io16` are recorded in
the order in which they are made.
-/

namespace vgmplay

/-- Truncation to `UINT8`. -/
def UINT8 (x : Nat) : Nat := x % 2 ^ 8

/-- Truncation to `UINT16`. -/
def UINT16 (x : Nat) : Nat := x % 2 ^ 16

/-- Truncation to `UINT32` (also `offs_t`). -/
def UINT32 (x : Nat) : Nat := x % 2 ^ 32

/-! ## `enum io8_t`, `enum io16_t` -/

def REG_SIZE : Nat := 0x00000000
def A_YM2612 : Nat := 0x00000010
def A_YM2151 : Nat := 0x00000020
def A_YM2413 : Nat := 0x00000030
def A_YM2203A : Nat := 0x00000040
def A_YM2203B : Nat := 0x00000050
def A_YM3526 : Nat := 0x00000060
def A_YM3812 : Nat := 0x00000070
def A_AY8910A : Nat := 0x00000080
def A_AY8910B : Nat := 0x00000090
def A_SN76496 : Nat := 0x000000a0
def A_K053260 : Nat := 0x000000b0
def A_C6280 : Nat := 0x000000e0
def A_OKIM6295 : Nat := 0x000000f0
def A_SEGAPCM : Nat := 0x00001000
def A_GAMEBOY : Nat := 0x00002000
def A_NESAPU : Nat := 0x00002030
def A_NESRAM : Nat := 0x00003000
def A_MULTIPCMA : Nat := 0x00013000
def A_MULTIPCMB : Nat := 0x00013010
def A_POKEYA : Nat := 0x00013020
def A_POKEYB : Nat := 0x00013030
def A_C352 : Nat := 0x00000000

/-! ## The file (`vgmplay_state::m_file_data`) and its address space -/

/-- The `vgmplay_state::file_r` handler: the byte of the file at `offset`, 0
past the end of the file. -/
def file_r (m_file_data : List Nat) (offset : Nat) : Nat :=
  if offset < m_file_data.length then UINT8 (m_file_data.getD offset 0) else 0

/-- The `vgmplay_state::file_size_r` handler: byte `offset` of the 32-bit
file size. -/
def file_size_r (m_file_data : List Nat) (offset : Nat) : Nat :=
  UINT8 (UINT32 m_file_data.length >>> (8 * offset))

/-- The call `m_file->read_byte(address)`. -/
def read_byte (m_file_data : List Nat) (address : Nat) : Nat :=
  file_r m_file_data (UINT32 address)

/-- The call `m_file->read_word(address)`, little-endian. -/
def read_word (m_file_data : List Nat) (address : Nat) : Nat :=
  read_byte m_file_data address ||| (read_byte m_file_data (address + 1) <<< 8)

/-- The call `m_file->read_dword(address)`, little-endian. -/
def read_dword (m_file_data : List Nat) (address : Nat) : Nat :=
  read_byte m_file_data address ||| (read_byte m_file_data (address + 1) <<< 8)
    ||| (read_byte m_file_data (address + 2) <<< 16)
    ||| (read_byte m_file_data (address + 3) <<< 24)

/-- The call `m_io->read_dword(REG_SIZE)`: `soundchips_map` maps
`REG_SIZE .. REG_SIZE+3` to `file_size_r`. -/
def read_REG_SIZE (m_file_data : List Nat) : Nat :=
  file_size_r m_file_data 0 ||| (file_size_r m_file_data 1 <<< 8)
    ||| (file_size_r m_file_data 2 <<< 16) ||| (file_size_r m_file_data 3 <<< 24)

/-! ## `class vgmplay_device` -/

/-- The anonymous `enum { RESET, RUN, DONE }`. -/
inductive run_state
  | RESET
  | RUN
  | DONE
  deriving DecidableEq, Repr

/-- The `struct rom_block`; `data_size` is the number of bytes allocated for
`data` (the argument of `std::make_unique<UINT8[]>`). -/
structure rom_block where
  start_address : Nat
  end_address : Nat
  data_size : Nat
  data : Nat → Nat

/-- The data members of `vgmplay_device` that `execute_run` works on, with
the writes made through `m_io` and `m_io16` as `(address, data)` pairs.
`m_rom_blocks chip i` is `m_rom_blocks[chip][i]`. -/
structure vgmplay_device where
  m_icount : Int
  m_state : run_state
  m_pc : Nat
  m_rom_blocks : Nat → Nat → List rom_block
  m_data_streams : Nat → List Nat
  m_data_stream_starts : Nat → List Nat
  m_ym2612_stream_offset : Nat
  io : List (Nat × Nat)
  io16 : List (Nat × Nat)

/-- The call `m_io->write_byte(address, data)`. -/
def io_write_byte (d : vgmplay_device) (address data : Nat) : vgmplay_device :=
  { d with io := d.io ++ [(UINT32 address, UINT8 data)] }

/-- The call `m_io16->write_word(address, data)`. -/
def io16_write_word (d : vgmplay_device) (address data : Nat) : vgmplay_device :=
  { d with io16 := d.io16 ++ [(UINT32 address, UINT16 data)] }

/-- Assignment `table[index] = value` in an array of lists. -/
def set_at {α : Type} (table : Nat → α) (index : Nat) (value : α) : Nat → α :=
  fun i => if i = index then value else table i

/-- The function `vgmplay_device::handle_data_block`: the device after the
block at `m_pc` was recorded, and the returned length `7+size`.  The
subtractions `size - 8`, `size - 2` and `start+size-9` are `UINT32`
subtractions, which wrap. -/
def handle_data_block (m_file_data : List Nat) (d : vgmplay_device) :
    vgmplay_device × Nat :=
  let size0 := read_dword m_file_data (d.m_pc + 3)
  let second := if size0 &&& 0x80000000 ≠ 0 then 1 else 0
  let size := size0 &&& 0x7fffffff
  let type := read_byte m_file_data (d.m_pc + 2)
  let d :=
    if type < 0x40 then
      let start := UINT32 (d.m_data_streams type).length
      { d with
        m_data_stream_starts := set_at d.m_data_stream_starts type
          (d.m_data_stream_starts type ++ [start])
        m_data_streams := set_at d.m_data_streams type
          (d.m_data_streams type
            ++ (List.range size).map (fun i => read_byte m_file_data (d.m_pc + 7 + i))) }
    else if type < 0x7f then d
    else if type < 0x80 then d
    else if type < 0xc0 then
      let start := read_dword m_file_data (d.m_pc + 11)
      let block : rom_block :=
        { start_address := start
          end_address := UINT32 (start + size + 2 ^ 32 - 9)
          data_size := UINT32 (size + 2 ^ 32 - 8)
          data := fun i => read_byte m_file_data (d.m_pc + 15 + i) }
      { d with
        m_rom_blocks := set_at d.m_rom_blocks second
          (set_at (d.m_rom_blocks second) (type - 0x80)
            (block :: d.m_rom_blocks second (type - 0x80))) }
    else if type = 0xc2 then
      let start := read_word m_file_data (d.m_pc + 7)
      let data_size := UINT32 (size + 2 ^ 32 - 2)
      { d with
        io := d.io ++ (List.range data_size).map (fun i =>
          (UINT32 (A_NESRAM + start + i), read_byte m_file_data (d.m_pc + 9 + i))) }
    else d
  (d, 7 + size)

/-- The `switch(code)` of the `RUN` state of `vgmplay_device::execute_run`,
for the command byte `code` read at `m_pc`. -/
def execute_command (m_file_data : List Nat) (d : vgmplay_device) (code : Nat) :
    vgmplay_device :=
  let b1 := read_byte m_file_data (d.m_pc + 1)
  let b2 := read_byte m_file_data (d.m_pc + 2)
  let b3 := read_byte m_file_data (d.m_pc + 3)
  let b4 := read_byte m_file_data (d.m_pc + 4)
  if code = 0x4f then
    { io_write_byte d (A_SN76496 + 0) b1 with m_pc := UINT32 (d.m_pc + 2) }
  else if code = 0x50 then
    { io_write_byte d (A_SN76496 + 1) b1 with m_pc := UINT32 (d.m_pc + 2) }
  else if code = 0x51 then
    { io_write_byte (io_write_byte d (A_YM2413 + 0) b1) (A_YM2413 + 1) b2 with
      m_pc := UINT32 (d.m_pc + 3) }
  else if code = 0x52 then
    { io_write_byte (io_write_byte d (A_YM2612 + 0) b1) (A_YM2612 + 1) b2 with
      m_pc := UINT32 (d.m_pc + 3) }
  else if code = 0x53 then
    { io_write_byte (io_write_byte d (A_YM2612 + 2) b1) (A_YM2612 + 3) b2 with
      m_pc := UINT32 (d.m_pc + 3) }
  else if code = 0x54 then
    { io_write_byte (io_write_byte d (A_YM2151 + 0) b1) (A_YM2151 + 1) b2 with
      m_pc := UINT32 (d.m_pc + 3) }
  else if code = 0x55 then
    { io_write_byte (io_write_byte d (A_YM2203A + 0) b1) (A_YM2203A + 1) b2 with
      m_pc := UINT32 (d.m_pc + 3) }
  else if code = 0xA5 then
    { io_write_byte (io_write_byte d (A_YM2203B + 0) b1) (A_YM2203B + 1) b2 with
      m_pc := UINT32 (d.m_pc + 3) }
  else if code = 0x5a then
    { io_write_byte (io_write_byte d (A_YM3812 + 0) b1) (A_YM3812 + 1) b2 with
      m_pc := UINT32 (d.m_pc + 3) }
  else if code = 0x5b then
    { io_write_byte (io_write_byte d (A_YM3526 + 0) b1) (A_YM3526 + 1) b2 with
      m_pc := UINT32 (d.m_pc + 3) }
  else if code = 0x61 then
    let duration := read_word m_file_data (d.m_pc + 1)
    { d with m_icount := d.m_icount - duration, m_pc := UINT32 (d.m_pc + 3) }
  else if code = 0x62 then
    { d with m_icount := d.m_icount - 735, m_pc := UINT32 (d.m_pc + 1) }
  else if code = 0x63 then
    { d with m_icount := d.m_icount - 882, m_pc := UINT32 (d.m_pc + 1) }
  else if code = 0x66 then
    let loop_offset := read_dword m_file_data 0x1c
    if loop_offset = 0 then
      { d with m_state := .DONE }
    else
      { d with m_pc := UINT32 (0x1c + loop_offset) }
  else if code = 0x67 then
    let r := handle_data_block m_file_data d
    { r.1 with m_pc := UINT32 (d.m_pc + r.2) }
  else if 0x70 ≤ code ∧ code ≤ 0x7f then
    { d with m_icount := d.m_icount - (1 + (code &&& 0xf) : Nat), m_pc := UINT32 (d.m_pc + 1) }
  else if 0x80 ≤ code ∧ code ≤ 0x8f then
    let d1 :=
      if d.m_data_streams 0 ≠ [] then
        let off :=
          if d.m_ym2612_stream_offset ≥ (d.m_data_streams 0).length then 0
          else d.m_ym2612_stream_offset
        { io_write_byte (io_write_byte d (A_YM2612 + 0) 0x2a) (A_YM2612 + 1)
            ((d.m_data_streams 0).getD off 0) with
          m_ym2612_stream_offset := UINT32 (off + 1) }
      else d
    { d1 with m_pc := UINT32 (d.m_pc + 1), m_icount := d.m_icount - (code &&& 0xf : Nat) }
  else if code = 0xa0 then
    let reg := b1
    let d1 :=
      if reg &&& 0x80 ≠ 0 then
        io_write_byte (io_write_byte d (A_AY8910A + 1) (reg &&& 0x7f)) (A_AY8910A + 0) b2
      else
        io_write_byte (io_write_byte d (A_AY8910B + 1) (reg &&& 0x7f)) (A_AY8910B + 0) b2
    { d1 with m_pc := UINT32 (d.m_pc + 3) }
  else if code = 0xb3 then
    { io_write_byte d (A_GAMEBOY + b1) b2 with m_pc := UINT32 (d.m_pc + 3) }
  else if code = 0xc0 then
    { io_write_byte d (A_SEGAPCM + (read_word m_file_data (d.m_pc + 1) &&& 0x7ff)) b3 with
      m_pc := UINT32 (d.m_pc + 4) }
  else if code = 0xb4 then
    { io_write_byte d (A_NESAPU + b1) b2 with m_pc := UINT32 (d.m_pc + 3) }
  else if code = 0xb5 then
    let offset := b1
    let d1 :=
      if offset &&& 0x80 ≠ 0 then io_write_byte d (A_MULTIPCMB + (offset &&& 0x7f)) b2
      else io_write_byte d (A_MULTIPCMA + (offset &&& 0x7f)) b2
    { d1 with m_pc := UINT32 (d.m_pc + 3) }
  else if code = 0xb8 then
    { io_write_byte d (A_OKIM6295 + b1) b2 with m_pc := UINT32 (d.m_pc + 3) }
  else if code = 0xb9 then
    { io_write_byte d (A_C6280 + b1) b2 with m_pc := UINT32 (d.m_pc + 3) }
  else if code = 0xba then
    { io_write_byte d (A_K053260 + b1) b2 with m_pc := UINT32 (d.m_pc + 3) }
  else if code = 0xbb then
    let offset := b1
    let d1 :=
      if offset &&& 0x80 ≠ 0 then io_write_byte d (A_POKEYA + (offset &&& 0x7f)) b2
      else io_write_byte d (A_POKEYB + (offset &&& 0x7f)) b2
    { d1 with m_pc := UINT32 (d.m_pc + 3) }
  else if code = 0xc3 then
    let offset := b1
    let d1 :=
      if offset &&& 0x80 ≠ 0 then
        io_write_byte (io_write_byte d (A_MULTIPCMB + 4 + (offset &&& 0x7f)) b3)
          (A_MULTIPCMB + 8 + (offset &&& 0x7f)) b2
      else
        io_write_byte (io_write_byte d (A_MULTIPCMA + 4 + (offset &&& 0x7f)) b3)
          (A_MULTIPCMA + 8 + (offset &&& 0x7f)) b2
    { d1 with m_pc := UINT32 (d.m_pc + 4) }
  else if code = 0xe0 then
    { d with
      m_ym2612_stream_offset := read_dword m_file_data (d.m_pc + 1)
      m_pc := UINT32 (d.m_pc + 5) }
  else if code = 0xe1 then
    let addr := (b1 <<< 8) ||| b2
    let data := UINT16 ((b3 <<< 8) ||| b4)
    { io16_write_word d (A_C352 + (addr <<< 1)) data with m_pc := UINT32 (d.m_pc + 5) }
  else
    { d with m_state := .DONE, m_icount := 0 }

/-- One pass through the body of the loop `while(m_icount > 0)` of
`vgmplay_device::execute_run`. -/
def execute_step (m_file_data : List Nat) (d : vgmplay_device) : vgmplay_device :=
  match d.m_state with
  | .RESET =>
    let size := read_REG_SIZE m_file_data
    if size = 0 then
      { d with m_pc := 0, m_state := .DONE }
    else
      let version := read_dword m_file_data 8
      { d with
        m_pc := if version < 0x150 then 0x40 else UINT32 (0x34 + read_dword m_file_data 0x34)
        m_state := .RUN }
  | .RUN =>
    execute_command m_file_data d (read_byte m_file_data d.m_pc)
  | .DONE =>
    { d with m_icount := 0 }

/-- The device as `device_reset` leaves it, with the cycle budget `icount`
the scheduler hands to `execute_run`. -/
def device_reset (icount : Int) : vgmplay_device :=
  { m_icount := icount, m_state := .RESET, m_pc := 0, m_rom_blocks := fun _ _ => [],
    m_data_streams := fun _ => [], m_data_stream_starts := fun _ => [],
    m_ym2612_stream_offset := 0, io := [], io16 := [] }

/-- The byte `b.data[index]`, `none` when `index` is outside the `data_size`
bytes allocated for the block. -/
def rom_block.read (b : rom_block) (index : Nat) : Option Nat :=
  if index < b.data_size then some (b.data index) else none

/-- The loop of `vgmplay_device::rom_r` over one list of blocks. -/
def rom_r_blocks : List rom_block → Nat → Option Nat
  | [], _ => some 0
  | b :: rest, offset =>
    if offset ≥ b.start_address ∧ offset ≤ b.end_address then b.read (offset - b.start_address)
    else rom_r_blocks rest offset

/-- The function `vgmplay_device::rom_r`; `none` stands for a read outside
the allocated data of the block that accepts `offset`. -/
def rom_r (d : vgmplay_device) (chip type offset : Nat) : Option Nat :=
  rom_r_blocks (d.m_rom_blocks chip (type - 0x80)) offset

/-- The value `disasm_disassemble` prints for the bank of a MultiPCM bank
command (`case 0xc3`, second argument of the `sprintf`). -/
def disasm_multipcm_bank (oprom : Nat → Nat) : Nat := oprom 2 ||| (oprom 3 <<< 8)

/-- The bytes `oprom[0]`, `oprom[1]`, ... the disassembler is given for the
command at `pc`. -/
def oprom_at (m_file_data : List Nat) (pc : Nat) : Nat → Nat :=
  fun i => read_byte m_file_data (pc + i)

/-- Length and cycles of the command `code` at `pc`, for the commands that
advance `m_pc` (all handled opcodes but 0x66). -/
def command_info (m_file_data : List Nat) (pc code : Nat) : Option (Nat × Nat) :=
  if code = 0x4f ∨ code = 0x50 then some (2, 0)
  else if (0x51 ≤ code ∧ code ≤ 0x55) ∨ code = 0xA5 ∨ code = 0x5a ∨ code = 0x5b then some (3, 0)
  else if code = 0x61 then some (3, read_word m_file_data (pc + 1))
  else if code = 0x62 then some (1, 735)
  else if code = 0x63 then some (1, 882)
  else if code = 0x67 then some (7 + (read_dword m_file_data (pc + 3) &&& 0x7fffffff), 0)
  else if 0x70 ≤ code ∧ code ≤ 0x7f then some (1, 1 + (code &&& 0xf))
  else if 0x80 ≤ code ∧ code ≤ 0x8f then some (1, code &&& 0xf)
  else if code = 0xa0 ∨ code = 0xb3 ∨ code = 0xb4 ∨ code = 0xb5 ∨ code = 0xb8 ∨ code = 0xb9
      ∨ code = 0xba ∨ code = 0xbb then some (3, 0)
  else if code = 0xc0 ∨ code = 0xc3 then some (4, 0)
  else if code = 0xe0 ∨ code = 0xe1 then some (5, 0)
  else none

/-- Length and cycles of the command at `pc`. -/
def command_length_wait (m_file_data : List Nat) (pc : Nat) : Option (Nat × Nat) :=
  command_info m_file_data pc (read_byte m_file_data pc)

/-- The address a 0x66 command with a non-zero loop offset jumps to. -/
def loop_target (m_file_data : List Nat) : Nat := UINT32 (0x1c + read_dword m_file_data 0x1c)

/-- State, program counter and cycle count after the command `code` was run
at `pc` with `ic` cycles left. -/
def control_command (m_file_data : List Nat) (pc : Nat) (ic : Int) (code : Nat) :
    run_state × Nat × Int :=
  if code = 0x66 then
    if read_dword m_file_data 0x1c = 0 then (.DONE, pc, ic)
    else (.RUN, loop_target m_file_data, ic)
  else
    match command_info m_file_data pc code with
    | some (len, w) => (.RUN, UINT32 (pc + len), ic - w)
    | none => (.DONE, pc, 0)

/-- State, program counter and cycle count after one pass of the loop. -/
def control_step (m_file_data : List Nat) :
    run_state × Nat × Int → run_state × Nat × Int
  | (.RESET, _, ic) =>
    if read_REG_SIZE m_file_data = 0 then (.DONE, 0, ic)
    else
      (.RUN, if read_dword m_file_data 8 < 0x150 then 0x40
        else UINT32 (0x34 + read_dword m_file_data 0x34), ic)
  | (.RUN, pc, ic) => control_command m_file_data pc ic (read_byte m_file_data pc)
  | (.DONE, pc, _) => (.DONE, pc, 0)

/-- State, program counter and cycle count of a device. -/
def control (d : vgmplay_device) : run_state × Nat × Int := (d.m_state, d.m_pc, d.m_icount)

/-- The function `vgmplay_state::r32`. -/
def r32 (m_file_data : List Nat) (off : Nat) : Nat :=
  if off + 3 < m_file_data.length then
    UINT32 (file_r m_file_data off ||| (file_r m_file_data (off + 1) <<< 8)
      ||| (file_r m_file_data (off + 2) <<< 16) ||| (file_r m_file_data (off + 3) <<< 24))
  else 0

/-- The local `data_start` of `vgmplay_state::machine_start` for the
(decompressed) file content; `none` when the file is rejected ("Not a vgm/vgz
file"). -/
def machine_start_data_start (m_file_data : List Nat) : Option Nat :=
  if m_file_data.length < 0x40 ∨ r32 m_file_data 0 ≠ 0x206d6756 then none
  else
    let version := r32 m_file_data 8
    let header_size :=
      if version < 0x151 then 0x40
      else if version < 0x161 then 0x80
      else if version < 0x171 then 0xc0
      else 0x100
    let data_start := header_size
    let data_start :=
      if version ≥ 0x150 ∧ r32 m_file_data 0x34 ≠ 0 then UINT32 (r32 m_file_data 0x34 + 0x34)
      else data_start
    some data_start

/-- The bank registers of `vgmplay_state` and the arguments of the last
`set_bank` call on each MultiPCM chip. -/
structure vgmplay_state where
  m_multipcma_bank_l : Nat
  m_multipcma_bank_r : Nat
  m_multipcmb_bank_l : Nat
  m_multipcmb_bank_r : Nat
  multipcma_set_bank : Option (Nat × Nat)
  multipcmb_set_bank : Option (Nat × Nat)
  deriving DecidableEq, Repr

/-- The handler `vgmplay_state::multipcm_bank_hi_a_w`. -/
def multipcm_bank_hi_a_w (st : vgmplay_state) (offset data : Nat) : vgmplay_state :=
  let data := UINT8 data
  let st :=
    if offset &&& 1 ≠ 0 then
      { st with m_multipcma_bank_l := UINT32 ((st.m_multipcma_bank_l &&& 0xff) ||| (data <<< 16)) }
    else st
  if offset &&& 2 ≠ 0 then
    { st with m_multipcma_bank_r := UINT32 ((st.m_multipcma_bank_r &&& 0xff) ||| (data <<< 16)) }
  else st

/-- The handler `vgmplay_state::multipcm_bank_lo_a_w`. -/
def multipcm_bank_lo_a_w (st : vgmplay_state) (offset data : Nat) : vgmplay_state :=
  let data := UINT8 data
  let st :=
    if offset &&& 1 ≠ 0 then
      { st with m_multipcma_bank_l := UINT32 ((st.m_multipcma_bank_l &&& 0xff00) ||| data) }
    else st
  let st :=
    if offset &&& 2 ≠ 0 then
      { st with m_multipcma_bank_r := UINT32 ((st.m_multipcma_bank_r &&& 0xff00) ||| data) }
    else st
  { st with
    multipcma_set_bank :=
      some (UINT32 (st.m_multipcma_bank_l <<< 16), UINT32 (st.m_multipcma_bank_r <<< 16)) }

/-- The handler `vgmplay_state::multipcm_bank_hi_b_w`. -/
def multipcm_bank_hi_b_w (st : vgmplay_state) (offset data : Nat) : vgmplay_state :=
  let data := UINT8 data
  let st :=
    if offset &&& 1 ≠ 0 then
      { st with m_multipcmb_bank_l := UINT32 ((st.m_multipcmb_bank_l &&& 0xff) ||| (data <<< 16)) }
    else st
  if offset &&& 2 ≠ 0 then
    { st with m_multipcmb_bank_r := UINT32 ((st.m_multipcmb_bank_r &&& 0xff) ||| (data <<< 16)) }
  else st

/-- The handler `vgmplay_state::multipcm_bank_lo_b_w`. -/
def multipcm_bank_lo_b_w (st : vgmplay_state) (offset data : Nat) : vgmplay_state :=
  let data := UINT8 data
  let st :=
    if offset &&& 1 ≠ 0 then
      { st with m_multipcmb_bank_l := UINT32 ((st.m_multipcmb_bank_l &&& 0xff00) ||| data) }
    else st
  let st :=
    if offset &&& 2 ≠ 0 then
      { st with m_multipcmb_bank_r := UINT32 ((st.m_multipcmb_bank_r &&& 0xff00) ||| data) }
    else st
  { st with
    multipcmb_set_bank :=
      some (UINT32 (st.m_multipcmb_bank_l <<< 16), UINT32 (st.m_multipcmb_bank_r <<< 16)) }

/-- The entries of `soundchips_map` for the four bank handlers: a byte write
to `address` in `m_io`; a handler receives the offset of the address within
its range.  A write to any other address leaves the bank registers alone. -/
def soundchips_map_bank_write (st : vgmplay_state) (address data : Nat) : vgmplay_state :=
  if A_MULTIPCMA + 4 ≤ address ∧ address ≤ A_MULTIPCMA + 7 then
    multipcm_bank_hi_a_w st (address - (A_MULTIPCMA + 4)) data
  else if A_MULTIPCMA + 8 ≤ address ∧ address ≤ A_MULTIPCMA + 11 then
    multipcm_bank_lo_a_w st (address - (A_MULTIPCMA + 8)) data
  else if A_MULTIPCMB + 4 ≤ address ∧ address ≤ A_MULTIPCMB + 7 then
    multipcm_bank_hi_b_w st (address - (A_MULTIPCMB + 4)) data
  else if A_MULTIPCMB + 8 ≤ address ∧ address ≤ A_MULTIPCMB + 11 then
    multipcm_bank_lo_b_w st (address - (A_MULTIPCMB + 8)) data
  else st

/-! ## Concrete inputs -/

/-- Byte `i` of the little-endian dword `v`. -/
def dword_byte (v i : Nat) : Nat := (v >>> (8 * i)) % 256

/-- A 0x40-byte VGM header: the magic `Vgm `, the version at 0x08, the loop
offset at 0x1c and the data offset at 0x34; every other byte is 0. -/
def vgm_header (version loop_offset data_offset : Nat) : List Nat :=
  (List.range 0x40).map fun i =>
    if i < 4 then dword_byte 0x206d6756 i
    else if 8 ≤ i ∧ i < 12 then dword_byte version (i - 8)
    else if 0x1c ≤ i ∧ i < 0x20 then dword_byte loop_offset (i - 0x1c)
    else if 0x34 ≤ i ∧ i < 0x38 then dword_byte data_offset (i - 0x34)
    else 0

/-- A version 1.50 header whose data offset field is 0, followed by the
command 0x66. -/
def zeroOffsetFile : List Nat := vgm_header 0x150 0 0 ++ [0x66]

/-- A version 1.00 file with one data block of type 0x80 (sega pcm rom) whose
size field is 8, that is a ROM image of 0 bytes, for start address 0: `0x67
0x66 0x80`, size 8, rom size 0, start 0; then 0x66. -/
def emptyRomFile : List Nat :=
  vgm_header 0x100 0 0 ++ [0x67, 0x66, 0x80, 8, 0, 0, 0, 0, 0, 0, 0, 0, 0, 0, 0, 0x66]

/-- Bank registers all zero, no `set_bank` call made. -/
def zeroBanks : vgmplay_state :=
  { m_multipcma_bank_l := 0, m_multipcma_bank_r := 0, m_multipcmb_bank_l := 0,
    m_multipcmb_bank_r := 0, multipcma_set_bank := none, multipcmb_set_bank := none }

/-- The device about to run the first command of a version 1.00 file, at
0x40, with one cycle left. -/
def atCommand : vgmplay_device := { device_reset 1 with m_state := .RUN, m_pc := 0x40 }

/-- A file whose first command sets the bank of the left channel of MultiPCM
chip A to 0x1234: `0xc3 0x01 0x34 0x12`. -/
def bankFile : List Nat := vgm_header 0x100 0 0 ++ [0xc3, 0x01, 0x34, 0x12, 0x66]

end vgmplay

/-!
# Configuration file I/O (`src/emu/config.cpp`)

`configuration_manager::load_xml` and the difficulty customisation
(`set_difficulty`, `config_customize_difficulty`).  The XML tree, the driver
list and the input port fields are classes declared outside the sources; they
are represented by the data the functions read from them.
-/

namespace config

/-! ## `configuration_manager::load_xml` -/

/-- The `enum class config_type` (declared in `config.h`). -/
inductive config_type
  | CONFIG_TYPE_INIT
  | CONFIG_TYPE_CONTROLLER
  | CONFIG_TYPE_DEFAULT
  | CONFIG_TYPE_GAME
  | CONFIG_TYPE_FINAL
  deriving DecidableEq, Repr

/-- A child of a `<system>` node: its tag and a number that identifies the
node. -/
structure xml_child where
  name : String
  id : Nat
  deriving DecidableEq, Repr

/-- A child of the `<mameconfig>` node: its tag, its `name` attribute if it
has one, and its children. -/
structure xml_data_node where
  name : String
  attr_name : Option String
  child : List xml_child
  deriving DecidableEq, Repr

/-- The system being run (`machine().system()`) and the driver list:
`clone i` is `driver_list::clone` (the index of the parent, -1 when there is
none) and `driver_name i` is `driver_list::driver(i).name`; `system` is the
index of the system itself. -/
structure machine_info where
  name : String
  source_file : String
  system : Int
  clone : Int → Int
  driver_name : Int → String

/-- The C function `strrchr`: the rest of the string from the last
occurrence of `c` on, `none` when `c` does not occur. -/
def strrchr : List Char → Char → Option (List Char)
  | [], _ => none
  | x :: xs, c =>
    match strrchr xs c with
    | some r => some r
    | none => if x = c then some (x :: xs) else none

/-- The local `srcfile` of `load_xml`: "strip off all the path crap from the
source filename". -/
def srcfile (source_file : String) : String :=
  match strrchr source_file.toList '/' with
  | some r => String.mk r.tail
  | none =>
    match strrchr source_file.toList '\\' with
    | some r => String.mk r.tail
    | none =>
      match strrchr source_file.toList ':' with
      | some r => String.mk r.tail
      | none => source_file

/-- The `switch (which_type)` of `load_xml`: `true` when the node named
`name` is processed, `false` when the loop takes `continue`.  In the
`CONFIG_TYPE_CONTROLLER` case `clone_of` is first the parent and then, in the
last operand of the `&&` chain, the parent's parent. -/
def system_matches (which_type : config_type) (m : machine_info) (name : String) : Bool :=
  match which_type with
  | .CONFIG_TYPE_GAME => decide (name = m.name)
  | .CONFIG_TYPE_DEFAULT => decide (name = "default")
  | .CONFIG_TYPE_CONTROLLER =>
    let clone_of := m.clone m.system
    let clone_of2 := m.clone clone_of
    !(decide (name ≠ "default") && decide (name ≠ m.name)
      && decide (name ≠ srcfile m.source_file)
      && (decide (clone_of = -1) || decide (name ≠ m.driver_name clone_of))
      && (decide (clone_of = -1) || decide (clone_of2 = -1)
          || decide (name ≠ m.driver_name clone_of2)))
  | _ => true

/-- The call `xml_get_sibling(node->child, name)`: the first child with the
tag `name`, if there is one (`xml_get_sibling` is declared outside the
sources). -/
def xml_get_sibling (children : List xml_child) (name : String) : Option xml_child :=
  children.find? fun c => c.name = name

/-- One call `type.load(which_type, node)`: the registrant, the system node it
is called for and the child it is given (`none` for a null pointer). -/
structure load_call where
  registrant : String
  systemnode : xml_data_node
  node : Option xml_child
  deriving DecidableEq, Repr

/-- The loop "over all system nodes in the file" of `load_xml`: the load
calls made, in order, and the final `count`.  `children` are the children of
the `<mameconfig>` node and `typelist` the names of the registrants. -/
def load_xml_systems (which_type : config_type) (m : machine_info) (typelist : List String) :
    List xml_data_node → List load_call × Nat
  | [] => ([], 0)
  | systemnode :: rest =>
    let r := load_xml_systems which_type m typelist rest
    if systemnode.name = "system" then
      let name := systemnode.attr_name.getD ""
      if system_matches which_type m name then
        (typelist.map (fun t =>
            { registrant := t, systemnode := systemnode,
              node := xml_get_sibling systemnode.child t }) ++ r.1,
          r.2 + 1)
      else r
    else r

/-- The function `configuration_manager::load_xml` on a file that was read:
`confignode` is the `<mameconfig>` node (`none` when the file cannot be read
or has no such node) with its `version` attribute and its children; the
result is the calls made and the value returned.  The constant
`CONFIG_VERSION` is declared outside the sources. -/
def load_xml (CONFIG_VERSION : Int) (m : machine_info) (typelist : List String)
    (confignode : Option (Int × List xml_data_node)) (which_type : config_type) :
    List load_call × Int :=
  match confignode with
  | none => ([], 0)
  | some (version, children) =>
    if version ≠ CONFIG_VERSION then ([], 0)
    else
      let r := load_xml_systems which_type m typelist children
      if r.2 = 0 then (r.1, 0) else (r.1, 1)

/-- The separator at which "the basename of the source file" is cut: `/` if
the path has one, otherwise a backslash if it has one, otherwise `:` if it has
one. -/
def path_separator (path : List Char) : Option Char :=
  if '/' ∈ path then some '/'
  else if '\\' ∈ path then some '\\'
  else if ':' ∈ path then some ':'
  else none

/-- The string `base` is the basename of `path`: the whole path when it has
no separator, otherwise what follows the last separator (the separator
followed by `base` ends the path, and `base` holds no separator). -/
def is_basename (path base : String) : Prop :=
  match path_separator path.data with
  | none => base = path
  | some sep => sep ∉ base.data ∧ (sep :: base.data) <:+ path.data

instance (path base : String) : Decidable (is_basename path base) := by
  unfold is_basename
  split <;> infer_instance

/-- The condition of the claim, and of the comment "match on: default, game
name, source file name, parent name, grandparent name": the name is "default",
the game's name, the basename of the game's source file, the name of the
game's parent when it has one, or the name of that parent's parent when it has
one. -/
def controller_match (m : machine_info) (name : String) : Prop :=
  name = "default" ∨ name = m.name ∨ is_basename m.source_file name
    ∨ (m.clone m.system ≠ -1 ∧ name = m.driver_name (m.clone m.system))
    ∨ (m.clone m.system ≠ -1 ∧ m.clone (m.clone m.system) ≠ -1
        ∧ name = m.driver_name (m.clone (m.clone m.system)))

instance (m : machine_info) (name : String) : Decidable (controller_match m name) := by
  unfold controller_match; infer_instance

/-- The system nodes that the claim says are processed, in file order. -/
def controller_nodes (m : machine_info) (children : List xml_data_node) : List xml_data_node :=
  children.filter fun n =>
    decide (n.name = "system" ∧ controller_match m (n.attr_name.getD ""))

/-- The load calls for a list of nodes: for each node, in order, one call per
registrant, in the order of the registrants. -/
def load_calls (typelist : List String) (nodes : List xml_data_node) : List load_call :=
  (nodes.map fun n => typelist.map fun t =>
    ({ registrant := t, systemnode := n, node := xml_get_sibling n.child t } : load_call)).flatten

/-! ## The difficulty customisation -/

def DIFFICULTY_NONE : Int := -1
def DIFFICULTY_EASIEST : Int := 0
def DIFFICULTY_EASY : Int := 1
def DIFFICULTY_MEDIUM : Int := 2
def DIFFICULTY_HARD : Int := 3
def DIFFICULTY_HARDEST : Int := 4

def NAME_EASIEST : List String := ["Easiest", "Very Easy"]
def NAME_EASY : List String := ["Easy", "Easier", "Easy?"]
def NAME_MEDIUM : List String := ["Medium", "Normal", "Normal?"]
def NAME_HARD : List String := ["Hard", "Harder", "Difficult", "Hard?"]
def NAME_HARDEST : List String := ["Hardest", "Very Hard", "Very Difficult"]

/-- An `ioport_setting`: its name and its value. -/
structure ioport_setting where
  name : String
  value : Nat
  deriving DecidableEq, Repr

/-- What the difficulty code reads and writes of an `ioport_field`:
`is_dipswitch` is `type() == IPT_DIPSWITCH`, `name` is `none` for a null
name, `user_value` is the `value` of the user settings. -/
structure ioport_field where
  is_dipswitch : Bool
  name : Option String
  defvalue : Nat
  settings : List ioport_setting
  user_value : Nat
  deriving DecidableEq, Repr

/-- Conversion of an `ioport_value` (`UINT32`) to `int`. -/
def to_int (v : Nat) : Int :=
  if v % 2 ^ 32 < 2 ^ 31 then (v % 2 ^ 32 : Nat) else (v % 2 ^ 32 : Nat) - 2 ^ 32

/-- Conversion of an `int` to `ioport_value` (`UINT32`). -/
def to_uint32 (i : Int) : Nat := (i % 2 ^ 32).toNat

/-- The two nested loops that search a match: for each name of the list, as
long as `level == -1`, the settings are searched for that name and `level`
becomes the value of the first setting that bears it. -/
def search_names : List String → List ioport_setting → Int
  | [], _ => -1
  | nm :: rest, settings =>
    match settings.find? (fun iop => iop.name = nm) with
    | some iop =>
      let level := to_int iop.value
      if level = -1 then search_names rest settings else level
    | none => search_names rest settings

/-- The last loop of `set_difficulty`: `if(!level--) { level = iop.value();
break; }` over the settings. -/
def pick_setting : List ioport_setting → Int → Int
  | [], level => level
  | iop :: rest, level =>
    if level = 0 then to_int iop.value else pick_setting rest (level - 1)

/-- The function `set_difficulty`; `none` stands for a `misc_difficulty`
outside -1..4, for which `names` is not initialised. -/
def set_difficulty (misc_difficulty : Int) (found : ioport_field) (steps : Int) :
    Option ioport_field :=
  if misc_difficulty = DIFFICULTY_NONE then some found
  else
    let names : Option (List String × Option (List String)) :=
      if misc_difficulty = DIFFICULTY_EASIEST then some (NAME_EASIEST, some NAME_EASY)
      else if misc_difficulty = DIFFICULTY_EASY then some (NAME_EASY, none)
      else if misc_difficulty = DIFFICULTY_MEDIUM then some (NAME_MEDIUM, some NAME_EASY)
      else if misc_difficulty = DIFFICULTY_HARD then some (NAME_HARD, none)
      else if misc_difficulty = DIFFICULTY_HARDEST then some (NAME_HARDEST, some NAME_HARD)
      else none
    match names with
    | none => none
    | some (names, names_secondary) =>
      let level := search_names names found.settings
      let level :=
        match names_secondary with
        | some secondary => if level = -1 then search_names secondary found.settings else level
        | none => level
      let level :=
        if level = -1 then
          let level : Int :=
            if misc_difficulty = DIFFICULTY_EASIEST then 0
            else if misc_difficulty = DIFFICULTY_EASY then Int.tdiv (steps * 1) 4
            else if misc_difficulty = DIFFICULTY_MEDIUM then
              let level := Int.tdiv (steps * 2) 4
              if to_uint32 level < found.defvalue % 2 ^ 32 then to_int found.defvalue else level
            else if misc_difficulty = DIFFICULTY_HARD then Int.tdiv (steps * 3) 4
            else 0xff
          pick_setting found.settings level
        else level
      some { found with user_value := to_uint32 level }

/-- The function `core_stricmp(a, b) == 0`: equality without regard to
case. -/
def stricmp_eq (a b : String) : Bool :=
  a.toList.map Char.toLower = b.toList.map Char.toLower

/-- The first dip switch named "Difficulty" among the fields, with the
fields before it and after it. -/
def find_difficulty : List ioport_field →
    Option (List ioport_field × ioport_field × List ioport_field)
  | [] => none
  | field :: rest =>
    if field.is_dipswitch ∧ field.name = some "Difficulty" then some ([], field, rest)
    else
      match find_difficulty rest with
      | some (before, found, after) => some (field :: before, found, after)
      | none => none

/-- The function `configuration_manager::config_customize_difficulty` on the
fields of all ports, in the order of the two loops: the fields afterwards
(`none` as for `set_difficulty`). -/
def config_customize_difficulty (name_difficulty : String) (fields : List ioport_field) :
    Option (List ioport_field) :=
  let misc_difficulty :=
    if stricmp_eq name_difficulty "easiest" then DIFFICULTY_EASIEST
    else if stricmp_eq name_difficulty "easy" then DIFFICULTY_EASY
    else if stricmp_eq name_difficulty "medium" then DIFFICULTY_MEDIUM
    else if stricmp_eq name_difficulty "hard" then DIFFICULTY_HARD
    else if stricmp_eq name_difficulty "hardest" then DIFFICULTY_HARDEST
    else DIFFICULTY_NONE
  if misc_difficulty = DIFFICULTY_NONE then some fields
  else
    match find_difficulty fields with
    | none => some fields
    | some (before, field, after) =>
      let steps : Int := (field.settings.length : Int) - 1
      match set_difficulty misc_difficulty field steps with
      | some field => some (before ++ field :: after)
      | none => none

/-! ## Concrete inputs -/

/-- The clone `pacmanjp` of `puckman` from `pacman.cpp`; driver 0 is
`puckman`, driver 1 `pacmanjp`, and nothing else has a parent. -/
def sampleMachine : machine_info :=
  { name := "pacmanjp", source_file := "src/mame/drivers/pacman.cpp", system := 1,
    clone := fun i => if i = 1 then 0 else -1,
    driver_name := fun i => if i = 0 then "puckman" else if i = 1 then "pacmanjp" else "" }

/-- The children of the `<mameconfig>` node of a controller file: a node for
the source file, a node for another game, a node that is not a system node and
a default node. -/
def sampleNodes : List xml_data_node :=
  [{ name := "system", attr_name := some "pacman.cpp", child := [{ name := "input", id := 1 }] },
   { name := "system", attr_name := some "galaga", child := [{ name := "input", id := 2 }] },
   { name := "other", attr_name := some "default", child := [] },
   { name := "system", attr_name := some "default", child := [{ name := "video", id := 3 }] }]

/-- A "Difficulty" dip switch with the two settings "A" = 0 and "B" = 1,
neither of which bears a name of the name lists. -/
def sampleDifficulty : ioport_field :=
  { is_dipswitch := true, name := some "Difficulty", defvalue := 0,
    settings := [{ name := "A", value := 0 }, { name := "B", value := 1 }], user_value := 0 }

/-- A "Difficulty" dip switch with four settings whose values are the bits
of the mask 0x30, and the default value 0x30. -/
def maskedDifficulty : ioport_field :=
  { is_dipswitch := true, name := some "Difficulty", defvalue := 0x30,
    settings := [{ name := "1", value := 0x30 }, { name := "2", value := 0x20 },
      { name := "3", value := 0x10 }, { name := "4", value := 0x00 }], user_value := 0x30 }

end config

/-!
# Dynamic modules on Windows (`src/osd/modules/lib/osdlib_win32.cpp`)

The class `osd::dynamic_module_win32_impl`.  The Windows functions it calls
are parameters: `load_library` gives the module handle of a library that
loads (`none` for `nullptr`) and `GetProcAddress` the address of a symbol that
a module exports (`none` for `nullptr`); both give the same answer each time
they are asked.
-/

namespace osd

/-- The Windows loader as the class sees it. -/
structure win32 where
  load_library : String → Option Nat
  GetProcAddress : Nat → String → Option Nat

/-- The data members of `dynamic_module_win32_impl`; `m_module` is `none`
for `nullptr`. -/
structure dynamic_module_win32_impl where
  m_libraries : List String
  m_module : Option Nat
  deriving DecidableEq, Repr

/-- The constructor: `m_module(nullptr)`, `m_libraries = libraries`. -/
def dynamic_module_win32_impl.open (libraries : List String) : dynamic_module_win32_impl :=
  { m_libraries := libraries, m_module := none }

/-- The `for` loop of `get_symbol_address` over the libraries: the module
and the address of the first library that loads and exports `symbol`. -/
def search_libraries (os : win32) (symbol : String) : List String → Option (Nat × Nat)
  | [] => none
  | library :: rest =>
    match os.load_library library with
    | some module =>
      match os.GetProcAddress module symbol with
      | some function => some (module, function)
      | none => search_libraries os symbol rest
    | none => search_libraries os symbol rest

/-- The function `dynamic_module_win32_impl::get_symbol_address`: the address
returned (`none` for `nullptr`) and the object afterwards. -/
def get_symbol_address (os : win32) (self : dynamic_module_win32_impl) (symbol : String) :
    Option Nat × dynamic_module_win32_impl :=
  match self.m_module with
  | some module => (os.GetProcAddress module symbol, self)
  | none =>
    match search_libraries os symbol self.m_libraries with
    | some (module, function) => (some function, { self with m_module := some module })
    | none => (none, self)

/-- A sequence of `get_symbol_address` calls: the addresses returned, in
order, and the object afterwards. -/
def get_symbol_addresses (os : win32) (self : dynamic_module_win32_impl) :
    List String → List (Option Nat) × dynamic_module_win32_impl
  | [] => ([], self)
  | symbol :: rest =>
    let r := get_symbol_address os self symbol
    let rs := get_symbol_addresses os r.2 rest
    (r.1 :: rs.1, rs.2)

/-- The library `library` loads as `module` and exports `symbol` at
`function`. -/
def provides (os : win32) (library symbol : String) (module function : Nat) : Prop :=
  os.load_library library = some module ∧ os.GetProcAddress module symbol = some function

/-- No library of the list loads and exports `symbol`. -/
def none_provides (os : win32) (libraries : List String) (symbol : String) : Prop :=
  ∀ library ∈ libraries, ∀ module function, ¬ provides os library symbol module function

/-! ## Concrete inputs -/

/-- Two libraries: `a.dll` (module 1) exports `f` at 10, `b.dll` (module 2)
exports `f` at 20 and `g` at 21; `c.dll` does not load. -/
def sampleWin32 : win32 :=
  { load_library := fun l => if l = "a.dll" then some 1 else if l = "b.dll" then some 2 else none
    GetProcAddress := fun m s =>
      if m = 1 ∧ s = "f" then some 10
      else if m = 2 ∧ s = "f" then some 20
      else if m = 2 ∧ s = "g" then some 21
      else none }

end osd

/-!
# SwitchRes on SDL (`src/osd/sdl/switchres_sdl.cpp`)

The function `switchres_modeline_setup`.  The types `modeline` and
`mode_result`, the constants `R_V_FREQ_OFF`, `R_RES_STRETCH` and
`MODE_DISABLED`, the option names, the functions `switchres_get_video_mode`
and `switchres_set_options` and the options object are declared outside the
sources: the constants, the results of the outside functions and the values
the option getters return are parameters, and every call that leaves the
function (`set_option_osd`, which passes its arguments on to
`options.set_value`, the two `xrandr` wrappers, `switchres_set_options`,
`extract_video_config`) is recorded, in order, in a list of calls.
-/

namespace switchres_sdl

/-- The members of `mode_result` that `switchres_modeline_setup` reads;
`weight` is a set of flag bits. -/
structure mode_result where
  weight : Nat
  v_scale : Int
  deriving DecidableEq, Repr

/-- The members of `modeline` that `switchres_modeline_setup` reads or
writes. -/
structure modeline where
  width : Int
  vfreq : ℚ
  interlace : Int
  type : Nat
  result : mode_result
  deriving DecidableEq, Repr

/-- The constants of the SwitchRes headers that the function uses, and the
comparison `memcmp(a, b, sizeof(modeline) - sizeof(mode_result)) == 0` of two
modes, which depends on the layout of `modeline`. -/
structure switchres_h where
  R_V_FREQ_OFF : Nat
  R_RES_STRETCH : Nat
  MODE_DISABLED : Nat
  memcmp_eq : modeline → modeline → Bool

/-- The option names passed to `set_option_osd`, as written in the source. -/
inductive option_ID
  | OSDOPTION_SWITCHRES
  | OPTION_BLACK_FRAME_INSERTION
  | OPTION_SYNCREFRESH
  | OSDOPTION_WAITVSYNC
  | OPTION_KEEPASPECT
  | OPTION_UNEVENSTRETCH
  | OPTION_UNEVENSTRETCHX
  | OSDOPTION_FILTER
  deriving DecidableEq, Repr

/-- The values the option getters return where the function reads them:
`modeline_generation()` before `switchres_set_options`, the others after
it. -/
structure sdl_options where
  modeline_generation : Bool
  black_frame_insertion : Bool
  autosync : Bool
  sync_refresh : Bool
  wait_vsync : Bool
  super_width : Int
  deriving DecidableEq, Repr

/-- A call that leaves `switchres_modeline_setup`. -/
inductive call
  | set_option_osd (id : option_ID) (state : Bool)
  | add_custom_video_mode (mode : modeline) (connector : String)
  | set_custom_video_mode (mode : modeline) (connector : String)
  | switchres_set_options
  | extract_video_config
  deriving DecidableEq, Repr

/-- The part of the machine and of the file's variables that the function
works on: `machine.switchres.best_mode`, `machine.switchres.video_modes`,
`machine.switchres.cs.connector`, the global `mode_count`, and the calls made
so far. -/
structure switchres_state where
  best_mode : modeline
  video_modes : Nat → modeline
  connector : String
  mode_count : Nat
  calls : List call

/-- The function `set_option_osd(machine, option_ID, state)`. -/
def set_option_osd (machine : switchres_state) (id : option_ID) (state : Bool) :
    switchres_state :=
  { machine with calls := machine.calls ++ [call.set_option_osd id state] }

/-- The function `add_custom_video_mode(mode, connector)`. -/
def add_custom_video_mode (machine : switchres_state) (mode : modeline) (connector : String) :
    switchres_state :=
  { machine with calls := machine.calls ++ [call.add_custom_video_mode mode connector] }

/-- The function `set_custom_video_mode(mode, connector)`. -/
def set_custom_video_mode (machine : switchres_state) (mode : modeline) (connector : String) :
    switchres_state :=
  { machine with calls := machine.calls ++ [call.set_custom_video_mode mode connector] }

/-- The block `if (machine.options().modeline_generation())` of
`switchres_modeline_setup`: lock the mode, look for it in the table from index
2 to `mode_count`, store and add it when it is not there, and switch to it. -/
def make_mode_available (h : switchres_h) (machine : switchres_state) : switchres_state :=
  let machine := { machine with
    best_mode := { machine.best_mode with type := machine.best_mode.type ||| h.MODE_DISABLED } }
  let found := (List.range' 2 (machine.mode_count - 1)).any fun i =>
    h.memcmp_eq (machine.video_modes i) machine.best_mode
  let machine :=
    if !found then
      let mode_count := machine.mode_count + 1
      let machine := { machine with
        mode_count := mode_count
        video_modes := fun i => if i = mode_count then machine.best_mode
          else machine.video_modes i }
      add_custom_video_mode machine machine.best_mode machine.connector
    else machine
  set_custom_video_mode machine machine.best_mode machine.connector

/-- The local `black_frame_insertion` of `switchres_modeline_setup`. -/
def black_frame_insertion (options : sdl_options) (best_mode : modeline) : Bool :=
  options.black_frame_insertion && decide (best_mode.result.v_scale > 1)
    && decide (best_mode.vfreq > 100)

/-- The local `sync_refresh_effective` of `switchres_modeline_setup`. -/
def sync_refresh_effective (h : switchres_h) (fd : Int) (black_frame_insertion : Bool)
    (best_mode : modeline) : Bool :=
  black_frame_insertion
    || !(decide (fd = 0) || decide (best_mode.result.weight &&& h.R_V_FREQ_OFF ≠ 0)
          || decide (best_mode.result.v_scale > 1))

/-- The function `switchres_modeline_setup`: its return value and the state
afterwards.  `switchres_get_video_mode` is the result of the call of that
name: its return value and `best_mode` as it leaves it; `fd` is the global of
that name. -/
def switchres_modeline_setup (h : switchres_h) (fd : Int) (options : sdl_options)
    (switchres_get_video_mode : Bool × modeline) (machine : switchres_state) :
    Bool × switchres_state :=
  let machine := { machine with best_mode := switchres_get_video_mode.2 }
  if !switchres_get_video_mode.1 then
    (false, set_option_osd machine .OSDOPTION_SWITCHRES false)
  else
    let machine := if options.modeline_generation then make_mode_available h machine else machine
    let machine := { machine with calls := machine.calls ++ [call.switchres_set_options] }
    let best_mode := machine.best_mode
    let black_frame_insertion := black_frame_insertion options best_mode
    let machine := set_option_osd machine .OPTION_BLACK_FRAME_INSERTION black_frame_insertion
    let sync_refresh_effective := sync_refresh_effective h fd black_frame_insertion best_mode
    let machine := set_option_osd machine .OPTION_SYNCREFRESH
      (if options.autosync then sync_refresh_effective else options.sync_refresh)
    let machine := set_option_osd machine .OSDOPTION_WAITVSYNC
      (if options.autosync then sync_refresh_effective else options.wait_vsync)
    let machine := set_option_osd machine .OPTION_KEEPASPECT true
    let machine := set_option_osd machine .OPTION_UNEVENSTRETCH
      (decide (best_mode.result.weight &&& h.R_RES_STRETCH ≠ 0))
    let machine := set_option_osd machine .OPTION_UNEVENSTRETCHX
      (!(decide (best_mode.result.weight &&& h.R_RES_STRETCH ≠ 0))
        && decide (best_mode.width ≥ options.super_width))
    let machine := set_option_osd machine .OSDOPTION_FILTER
      (decide (best_mode.result.weight &&& h.R_RES_STRETCH ≠ 0)
        || decide (best_mode.interlace ≠ 0))
    (true, { machine with calls := machine.calls ++ [call.extract_video_config] })

/-- The states `set_option_osd` was called with for the option `id`, in the
order of the calls. -/
def states_set (calls : List call) (id : option_ID) : List Bool :=
  calls.filterMap fun c =>
    match c with
    | .set_option_osd i state => if i = id then some state else none
    | _ => none

/-! ## Concrete inputs -/

/-- Values for the constants of the headers, chosen for the examples (three
different flag bits), with a comparison of all members of a mode but
`result`. -/
def sampleConstants : switchres_h :=
  { R_V_FREQ_OFF := 2, R_RES_STRETCH := 4, MODE_DISABLED := 8,
    memcmp_eq := fun a b => decide (a.width = b.width ∧ a.vfreq = b.vfreq
      ∧ a.interlace = b.interlace ∧ a.type = b.type) }

/-- A state before the first mode is created: the mode table holds the mode
`m` everywhere, `mode_count` is 1 and no call has been made. -/
def freshState (m : modeline) : switchres_state :=
  { best_mode := m, video_modes := fun _ => m, connector := "VGA-0", mode_count := 1,
    calls := [] }

/-- A mode of 120 Hz whose vertical frequency is scaled by 2 and has no
weight flag set. -/
def doubledMode : modeline :=
  { width := 640, vfreq := 120, interlace := 0, type := 0,
    result := { weight := 0, v_scale := 2 } }

/-- A mode of 60 Hz whose vertical frequency is scaled by 2. -/
def scaledMode : modeline :=
  { width := 640, vfreq := 60, interlace := 0, type := 0,
    result := { weight := 0, v_scale := 2 } }

/-- Options with autosync and black frame insertion on. -/
def bfiOptions : sdl_options :=
  { modeline_generation := false, black_frame_insertion := true, autosync := true,
    sync_refresh := false, wait_vsync := false, super_width := 2560 }

end switchres_sdl

namespace xbox_usb

/-! ## Lemmas on the bus and on the packing of words -/

theorem testBit32_ext {x y : Nat} (hx : x < 2 ^ 32) (hy : y < 2 ^ 32)
    (h : ∀ i, i < 32 → x.testBit i = y.testBit i) : x = y := by
  apply Nat.eq_of_testBit_eq
  intro i
  by_cases hi : i < 32
  · exact h i hi
  · have h32 : 2 ^ 32 ≤ 2 ^ i := Nat.pow_le_pow_right (by decide) (by omega)
    rw [Nat.testBit_lt_two_pow (lt_of_lt_of_le hx h32),
      Nat.testBit_lt_two_pow (lt_of_lt_of_le hy h32)]

theorem UINT32_lt (x : Nat) : UINT32 x < 2 ^ 32 := Nat.mod_lt _ (by decide)

theorem UINT32_of_lt {x : Nat} (h : x < 2 ^ 32) : UINT32 x = x := Nat.mod_eq_of_lt h

theorem load_dword_lt (space : Nat → Nat) (a : Nat) : load_dword space a < 2 ^ 32 := by
  unfold load_dword
  have h0 : space (UINT32 a) % 256 < 2 ^ 8 := Nat.mod_lt _ (by decide)
  have h1 : space (UINT32 (a + 1)) % 256 < 2 ^ 8 := Nat.mod_lt _ (by decide)
  have h2 : space (UINT32 (a + 2)) % 256 < 2 ^ 8 := Nat.mod_lt _ (by decide)
  have h3 : space (UINT32 (a + 3)) % 256 < 2 ^ 8 := Nat.mod_lt _ (by decide)
  refine Nat.or_lt_two_pow (Nat.or_lt_two_pow (Nat.or_lt_two_pow ?_ ?_) ?_) ?_
  · omega
  · rw [Nat.shiftLeft_eq]; omega
  · rw [Nat.shiftLeft_eq]; omega
  · rw [Nat.shiftLeft_eq]; omega

/-- A dword that was written is read back, truncated to 32 bits. -/
theorem load_store_dword_same (space : Nat → Nat) (a v : Nat) :
    load_dword (store_dword space a v) a = UINT32 v := by
  have e1 : UINT32 (a + 1) ≠ UINT32 a := by unfold UINT32; omega
  have e2 : UINT32 (a + 2) ≠ UINT32 a := by unfold UINT32; omega
  have e3 : UINT32 (a + 3) ≠ UINT32 a := by unfold UINT32; omega
  have e21 : UINT32 (a + 2) ≠ UINT32 (a + 1) := by unfold UINT32; omega
  have e31 : UINT32 (a + 3) ≠ UINT32 (a + 1) := by unfold UINT32; omega
  have e32 : UINT32 (a + 3) ≠ UINT32 (a + 2) := by unfold UINT32; omega
  simp only [load_dword, store_dword, if_true, e1, e2, e3, e21, e31, e32, if_false]
  refine testBit32_ext ?_ (UINT32_lt v) ?_
  · have := load_dword_lt (store_dword space a v) a
    simpa only [load_dword, store_dword, if_true, e1, e2, e3, e21, e31, e32, if_false] using this
  · intro i hi
    simp only [UINT32, Nat.testBit_mod_two_pow, Nat.testBit_or, Nat.testBit_and,
      Nat.testBit_shiftLeft, Nat.testBit_shiftRight,
      show (256 : Nat) = 2 ^ 8 from rfl]
    interval_cases i <;> simp [Nat.testBit]

/-- A dword write leaves a dword at a disjoint place unchanged. -/
theorem load_store_dword_other (space : Nat → Nat) (a b v : Nat)
    (h : ∀ i j, i < 4 → j < 4 → UINT32 (b + i) ≠ UINT32 (a + j)) :
    load_dword (store_dword space a v) b = load_dword space b := by
  have h00 := h 0 0 (by decide) (by decide)
  have h01 := h 0 1 (by decide) (by decide)
  have h02 := h 0 2 (by decide) (by decide)
  have h03 := h 0 3 (by decide) (by decide)
  have h10 := h 1 0 (by decide) (by decide)
  have h11 := h 1 1 (by decide) (by decide)
  have h12 := h 1 2 (by decide) (by decide)
  have h13 := h 1 3 (by decide) (by decide)
  have h20 := h 2 0 (by decide) (by decide)
  have h21 := h 2 1 (by decide) (by decide)
  have h22 := h 2 2 (by decide) (by decide)
  have h23 := h 2 3 (by decide) (by decide)
  have h30 := h 3 0 (by decide) (by decide)
  have h31 := h 3 1 (by decide) (by decide)
  have h32 := h 3 2 (by decide) (by decide)
  have h33 := h 3 3 (by decide) (by decide)
  simp only [Nat.add_zero] at h00 h01 h02 h03 h10 h20 h30
  simp only [load_dword, store_dword, h00, h01, h02, h03, h10, h11, h12, h13, h20, h21, h22,
    h23, h30, h31, h32, h33, if_false]

/-- Two words of one descriptor (word offsets below 32 bytes) do not overlap. -/
theorem word_apart (a c₁ c₂ : Nat) (h₁ : c₁ < 32) (h₂ : c₂ < 32)
    (hd : c₁ + 4 ≤ c₂ ∨ c₂ + 4 ≤ c₁) :
    ∀ i j, i < 4 → j < 4 → UINT32 (a + c₂ + i) ≠ UINT32 (a + c₁ + j) := by
  intro i j hi hj
  unfold UINT32
  omega

theorem load_store_dword_off (space : Nat → Nat) (a c₁ c₂ v : Nat) (h₁ : c₁ < 32) (h₂ : c₂ < 32)
    (hd : c₁ + 4 ≤ c₂ ∨ c₂ + 4 ≤ c₁) :
    load_dword (store_dword space (a + c₁) v) (a + c₂) = load_dword space (a + c₂) :=
  load_store_dword_other _ _ _ _ (word_apart a c₁ c₂ h₁ h₂ hd)

theorem load_store_dword_off_left (space : Nat → Nat) (a c₂ v : Nat) (h₂ : c₂ < 32) (hd : 4 ≤ c₂) :
    load_dword (store_dword space a v) (a + c₂) = load_dword space (a + c₂) := by
  have := load_store_dword_off space a 0 c₂ v (by decide) h₂ (by omega)
  simpa using this

theorem load_store_dword_off_right (space : Nat → Nat) (a c₁ v : Nat) (h₁ : c₁ < 32) (hd : 4 ≤ c₁) :
    load_dword (store_dword space (a + c₁) v) a = load_dword space a := by
  have := load_store_dword_off space a c₁ 0 v h₁ (by decide) (by omega)
  simpa using this

theorem ed_word0_pack (w : Nat) (hw : w < 2 ^ 32) :
    UINT32 ((w &&& 0xf8000000) ||| (((w >>> 16) &&& 0x7ff) <<< 16) ||| (((w >>> 15) &&& 1) <<< 15)
      ||| (((w >>> 14) &&& 1) <<< 14) ||| (((w >>> 13) &&& 1) <<< 13)
      ||| (((w >>> 11) &&& 3) <<< 11) ||| (((w >>> 7) &&& 15) <<< 7) ||| (w &&& 0x7f)) = w := by
  refine testBit32_ext (UINT32_lt _) hw ?_
  intro i hi
  simp only [UINT32, Nat.testBit_mod_two_pow, Nat.testBit_or, Nat.testBit_and,
    Nat.testBit_shiftLeft, Nat.testBit_shiftRight]
  interval_cases i <;> simp [Nat.testBit]

theorem and_lt_32 (x m : Nat) (hm : m < 2 ^ 32) : x &&& m < 2 ^ 32 :=
  lt_of_le_of_lt Nat.and_le_right hm

theorem ed_word2_unpack (p c h : Nat) (hp : p < 2 ^ 32) (hp3 : p &&& 3 = 0) (hc : c < 2)
    (hh : h < 2) :
    UINT32 (p ||| (c <<< 1) ||| h) &&& 0xfffffffc = p
      ∧ (UINT32 (p ||| (c <<< 1) ||| h) >>> 1) &&& 1 = c
      ∧ UINT32 (p ||| (c <<< 1) ||| h) &&& 1 = h := by
  have hp4 : p % 4 = 0 := by
    have := Nat.and_pow_two_sub_one_eq_mod p 2
    simpa [hp3] using this.symm
  have hp0 : p % 2 = 0 := by omega
  have hp1 : p >>> 1 % 2 = 0 := by
    rw [Nat.shiftRight_eq_div_pow]; omega
  have hc1 : c < 2 ^ 32 := by omega
  have hh1 : h < 2 ^ 32 := by omega
  refine ⟨?_, ?_, ?_⟩
  · refine testBit32_ext (and_lt_32 _ _ (by decide)) hp ?_
    intro i hi
    simp only [UINT32, Nat.testBit_mod_two_pow, Nat.testBit_or, Nat.testBit_and,
      Nat.testBit_shiftLeft, Nat.testBit_shiftRight]
    interval_cases c <;> interval_cases h <;> interval_cases i <;> simp [Nat.testBit, hp0, hp1]
  · refine testBit32_ext (and_lt_32 _ _ (by decide)) hc1 ?_
    intro i hi
    simp only [UINT32, Nat.testBit_mod_two_pow, Nat.testBit_or, Nat.testBit_and,
      Nat.testBit_shiftLeft, Nat.testBit_shiftRight]
    interval_cases c <;> interval_cases h <;> interval_cases i <;> simp [Nat.testBit, hp0, hp1]
  · refine testBit32_ext (and_lt_32 _ _ (by decide)) hh1 ?_
    intro i hi
    simp only [UINT32, Nat.testBit_mod_two_pow, Nat.testBit_or, Nat.testBit_and,
      Nat.testBit_shiftLeft, Nat.testBit_shiftRight]
    interval_cases c <;> interval_cases h <;> interval_cases i <;> simp [Nat.testBit, hp0, hp1]

theorem UINT32_idem (x : Nat) : UINT32 (UINT32 x) = UINT32 x := UINT32_of_lt (UINT32_lt x)

/-- Reading back the four words of a descriptor written at `a`. -/
theorem load_four_words (space : Nat → Nat) (a v0 v1 v2 v3 : Nat) :
    load_dword (store_dword (store_dword (store_dword (store_dword space a v0)
        (a + 4) v1) (a + 8) v2) (a + 12) v3) a = UINT32 v0
    ∧ load_dword (store_dword (store_dword (store_dword (store_dword space a v0)
        (a + 4) v1) (a + 8) v2) (a + 12) v3) (a + 4) = UINT32 v1
    ∧ load_dword (store_dword (store_dword (store_dword (store_dword space a v0)
        (a + 4) v1) (a + 8) v2) (a + 12) v3) (a + 8) = UINT32 v2
    ∧ load_dword (store_dword (store_dword (store_dword (store_dword space a v0)
        (a + 4) v1) (a + 8) v2) (a + 12) v3) (a + 12) = UINT32 v3 := by
  refine ⟨?_, ?_, ?_, ?_⟩
  · rw [load_store_dword_off_right _ _ _ _ (by decide) (by decide),
      load_store_dword_off_right _ _ _ _ (by decide) (by decide),
      load_store_dword_off_right _ _ _ _ (by decide) (by decide), load_store_dword_same]
  · rw [load_store_dword_off _ _ _ _ _ (by decide) (by decide) (by decide),
      load_store_dword_off _ _ _ _ _ (by decide) (by decide) (by decide), load_store_dword_same]
  · rw [load_store_dword_off _ _ _ _ _ (by decide) (by decide) (by decide), load_store_dword_same]
  · rw [load_store_dword_same]

theorem td_word0_pack (w : Nat) (hw : w < 2 ^ 32) :
    UINT32 ((w &&& 0x0003ffff) ||| (((w >>> 28) &&& 15) <<< 28) ||| (((w >>> 26) &&& 3) <<< 26)
      ||| (((w >>> 24) &&& 3) <<< 24) ||| (((w >>> 21) &&& 7) <<< 21)
      ||| (((w >>> 19) &&& 3) <<< 19) ||| (((w >>> 18) &&& 1) <<< 18)) = w := by
  refine testBit32_ext (UINT32_lt _) hw ?_
  intro i hi
  simp only [UINT32, Nat.testBit_mod_two_pow, Nat.testBit_or, Nat.testBit_and,
    Nat.testBit_shiftLeft, Nat.testBit_shiftRight]
  interval_cases i <;> simp [Nat.testBit]

theorem itd_word0_pack (w : Nat) (hw : w < 2 ^ 32) :
    UINT32 ((w &&& 0x081f0000) ||| (((w >>> 28) &&& 15) <<< 28) ||| (((w >>> 24) &&& 7) <<< 24)
      ||| (((w >>> 21) &&& 7) <<< 21) ||| (w &&& 0xffff)) = w := by
  refine testBit32_ext (UINT32_lt _) hw ?_
  intro i hi
  simp only [UINT32, Nat.testBit_mod_two_pow, Nat.testBit_or, Nat.testBit_and,
    Nat.testBit_shiftLeft, Nat.testBit_shiftRight]
  interval_cases i <;> simp [Nat.testBit]

theorem itd_word1_pack (w : Nat) (hw : w < 2 ^ 32) :
    UINT32 ((w &&& 0x00000fff) ||| (w &&& 0xfffff000)) = w := by
  refine testBit32_ext (UINT32_lt _) hw ?_
  intro i hi
  simp only [UINT32, Nat.testBit_mod_two_pow, Nat.testBit_or, Nat.testBit_and]
  interval_cases i <;> simp [Nat.testBit]

/-- Two 16-bit halves packed into a word are read back from it. -/
theorem offset_pair (lo hi : Nat) (hlo : lo < 2 ^ 16) (hhi : hi < 2 ^ 16) :
    UINT32 ((hi <<< 16) ||| lo) &&& 0xffff = lo
      ∧ (UINT32 ((hi <<< 16) ||| lo) >>> 16) &&& 0xffff = hi := by
  have e : (hi <<< 16) ||| lo = 2 ^ 16 * hi + lo := by
    rw [Nat.shiftLeft_eq, Nat.mul_comm, Nat.mul_add_lt_is_or hlo]
  have m : ∀ x : Nat, x &&& 0xffff = x % 2 ^ 16 := fun x => Nat.and_pow_two_sub_one_eq_mod x 16
  rw [e, m, m, Nat.shiftRight_eq_div_pow]
  unfold UINT32
  constructor <;> omega

/-- Reading back the eight words of a descriptor written at `a`. -/
theorem load_eight_words (space : Nat → Nat) (a v0 v1 v2 v3 v4 v5 v6 v7 : Nat) :
    load_dword (store_dword (store_dword (store_dword (store_dword (store_dword (store_dword
      (store_dword (store_dword space a v0) (a + 4) v1) (a + 8) v2) (a + 12) v3) (a + 16) v4)
      (a + 20) v5) (a + 24) v6) (a + 28) v7) a = UINT32 v0
    ∧ load_dword (store_dword (store_dword (store_dword (store_dword (store_dword (store_dword
      (store_dword (store_dword space a v0) (a + 4) v1) (a + 8) v2) (a + 12) v3) (a + 16) v4)
      (a + 20) v5) (a + 24) v6) (a + 28) v7) (a + 4) = UINT32 v1
    ∧ load_dword (store_dword (store_dword (store_dword (store_dword (store_dword (store_dword
      (store_dword (store_dword space a v0) (a + 4) v1) (a + 8) v2) (a + 12) v3) (a + 16) v4)
      (a + 20) v5) (a + 24) v6) (a + 28) v7) (a + 8) = UINT32 v2
    ∧ load_dword (store_dword (store_dword (store_dword (store_dword (store_dword (store_dword
      (store_dword (store_dword space a v0) (a + 4) v1) (a + 8) v2) (a + 12) v3) (a + 16) v4)
      (a + 20) v5) (a + 24) v6) (a + 28) v7) (a + 12) = UINT32 v3
    ∧ load_dword (store_dword (store_dword (store_dword (store_dword (store_dword (store_dword
      (store_dword (store_dword space a v0) (a + 4) v1) (a + 8) v2) (a + 12) v3) (a + 16) v4)
      (a + 20) v5) (a + 24) v6) (a + 28) v7) (a + 16) = UINT32 v4
    ∧ load_dword (store_dword (store_dword (store_dword (store_dword (store_dword (store_dword
      (store_dword (store_dword space a v0) (a + 4) v1) (a + 8) v2) (a + 12) v3) (a + 16) v4)
      (a + 20) v5) (a + 24) v6) (a + 28) v7) (a + 20) = UINT32 v5
    ∧ load_dword (store_dword (store_dword (store_dword (store_dword (store_dword (store_dword
      (store_dword (store_dword space a v0) (a + 4) v1) (a + 8) v2) (a + 12) v3) (a + 16) v4)
      (a + 20) v5) (a + 24) v6) (a + 28) v7) (a + 24) = UINT32 v6
    ∧ load_dword (store_dword (store_dword (store_dword (store_dword (store_dword (store_dword
      (store_dword (store_dword space a v0) (a + 4) v1) (a + 8) v2) (a + 12) v3) (a + 16) v4)
      (a + 20) v5) (a + 24) v6) (a + 28) v7) (a + 28) = UINT32 v7 := by
  obtain ⟨q0, q1, q2, q3⟩ := load_four_words space a v0 v1 v2 v3
  refine ⟨?_, ?_, ?_, ?_, ?_, ?_, ?_, ?_⟩
  · rw [load_store_dword_off_right _ _ _ _ (by decide) (by decide),
      load_store_dword_off_right _ _ _ _ (by decide) (by decide),
      load_store_dword_off_right _ _ _ _ (by decide) (by decide),
      load_store_dword_off_right _ _ _ _ (by decide) (by decide), q0]
  · rw [load_store_dword_off _ _ _ _ _ (by decide) (by decide) (by decide),
      load_store_dword_off _ _ _ _ _ (by decide) (by decide) (by decide),
      load_store_dword_off _ _ _ _ _ (by decide) (by decide) (by decide),
      load_store_dword_off _ _ _ _ _ (by decide) (by decide) (by decide), q1]
  · rw [load_store_dword_off _ _ _ _ _ (by decide) (by decide) (by decide),
      load_store_dword_off _ _ _ _ _ (by decide) (by decide) (by decide),
      load_store_dword_off _ _ _ _ _ (by decide) (by decide) (by decide),
      load_store_dword_off _ _ _ _ _ (by decide) (by decide) (by decide), q2]
  · rw [load_store_dword_off _ _ _ _ _ (by decide) (by decide) (by decide),
      load_store_dword_off _ _ _ _ _ (by decide) (by decide) (by decide),
      load_store_dword_off _ _ _ _ _ (by decide) (by decide) (by decide),
      load_store_dword_off _ _ _ _ _ (by decide) (by decide) (by decide), q3]
  · rw [load_store_dword_off _ _ _ _ _ (by decide) (by decide) (by decide),
      load_store_dword_off _ _ _ _ _ (by decide) (by decide) (by decide),
      load_store_dword_off _ _ _ _ _ (by decide) (by decide) (by decide),
      load_store_dword_same]
  · rw [load_store_dword_off _ _ _ _ _ (by decide) (by decide) (by decide),
      load_store_dword_off _ _ _ _ _ (by decide) (by decide) (by decide),
      load_store_dword_same]
  · rw [load_store_dword_off _ _ _ _ _ (by decide) (by decide) (by decide),
      load_store_dword_same]
  · rw [load_store_dword_same]

/-! ## Lemmas on the bus: mapped ranges and faults -/

theorem maps_16 (space : Bus) (a : Nat) :
    space.maps a 16 ↔ space.maps a 4 ∧ space.maps (a + 4) 4 ∧ space.maps (a + 8) 4
      ∧ space.maps (a + 12) 4 := by
  unfold Bus.maps
  constructor
  · intro h
    refine ⟨fun i hi => h i (by omega), fun i hi => ?_, fun i hi => ?_, fun i hi => ?_⟩
    · have := h (4 + i) (by omega)
      rwa [← Nat.add_assoc] at this
    · have := h (8 + i) (by omega)
      rwa [← Nat.add_assoc] at this
    · have := h (12 + i) (by omega)
      rwa [← Nat.add_assoc] at this
  · rintro ⟨h0, h1, h2, h3⟩ i hi
    by_cases c0 : i < 4
    · exact h0 i c0
    · by_cases c1 : i < 8
      · have := h1 (i - 4) (by omega)
        have e : a + 4 + (i - 4) = a + i := by omega
        rwa [e] at this
      · by_cases c2 : i < 12
        · have := h2 (i - 8) (by omega)
          have e : a + 8 + (i - 8) = a + i := by omega
          rwa [e] at this
        · have := h3 (i - 12) (by omega)
          have e : a + 12 + (i - 12) = a + i := by omega
          rwa [e] at this

theorem maps_32 (space : Bus) (a : Nat) :
    space.maps a 32 ↔ space.maps a 16 ∧ space.maps (a + 16) 16 := by
  unfold Bus.maps
  constructor
  · intro h
    refine ⟨fun i hi => h i (by omega), fun i hi => ?_⟩
    have := h (16 + i) (by omega)
    rwa [← Nat.add_assoc] at this
  · rintro ⟨h0, h1⟩ i hi
    by_cases c0 : i < 16
    · exact h0 i c0
    · have := h1 (i - 16) (by omega)
      have e : a + 16 + (i - 16) = a + i := by omega
      rwa [e] at this

/-- A write does not change which addresses are mapped. -/
theorem maps_with_bytes (space : Bus) (bytes : Nat → Nat) (a n : Nat) :
    ({ space with bytes := bytes } : Bus).maps a n ↔ space.maps a n := Iff.rfl

/-- Four dword writes in a row succeed when the 16 bytes are mapped and
fault otherwise. -/
theorem write_four_words (space : Bus) (a v0 v1 v2 v3 : Nat) :
    (do
      let s ← write_dword space a v0
      let s ← write_dword s (a + 4) v1
      let s ← write_dword s (a + 8) v2
      write_dword s (a + 12) v3)
      = if space.maps a 16 then
          Except.ok { space with bytes := store_dword (store_dword (store_dword
            (store_dword space.bytes a v0) (a + 4) v1) (a + 8) v2) (a + 12) v3 }
        else Except.error BusFault.fault := by
  by_cases h0 : space.maps a 4 <;> by_cases h1 : space.maps (a + 4) 4
    <;> by_cases h2 : space.maps (a + 8) 4 <;> by_cases h3 : space.maps (a + 12) 4
    <;> simp [maps_16, write_dword, bind, Except.bind, maps_with_bytes, h0, h1, h2, h3]

/-- Four dword reads in a row succeed when the 16 bytes are mapped and fault
otherwise. -/
theorem read_four_words {α : Type} (space : Bus) (a : Nat) (f : Nat → Nat → Nat → Nat → α) :
    (do
      let w0 ← read_dword space a
      let w1 ← read_dword space (a + 4)
      let w2 ← read_dword space (a + 8)
      let w3 ← read_dword space (a + 12)
      pure (f w0 w1 w2 w3) : Except BusFault α)
      = if space.maps a 16 then
          Except.ok (f (load_dword space.bytes a) (load_dword space.bytes (a + 4))
            (load_dword space.bytes (a + 8)) (load_dword space.bytes (a + 12)))
        else Except.error BusFault.fault := by
  by_cases h0 : space.maps a 4 <;> by_cases h1 : space.maps (a + 4) 4
    <;> by_cases h2 : space.maps (a + 8) 4 <;> by_cases h3 : space.maps (a + 12) 4
    <;> simp [maps_16, read_dword, bind, Except.bind, pure, Except.pure, h0, h1, h2, h3]

/-! ## The Endpoint Descriptor -/

set_option maxHeartbeats 1600000 in
/-- The fields packed into word 0 of an ED are read back from it. -/
theorem ed_word0_fields (x mps f k s d en fa : Nat) :
    (UINT32 ((x &&& 0xf8000000) ||| ((mps % 2 ^ 11) <<< 16) ||| ((f % 2 ^ 1) <<< 15)
        ||| ((k % 2 ^ 1) <<< 14) ||| ((s % 2 ^ 1) <<< 13) ||| ((d % 2 ^ 2) <<< 11)
        ||| ((en % 2 ^ 4) <<< 7) ||| (fa % 2 ^ 7)) &&& 0x7f = fa % 2 ^ 7)
    ∧ ((UINT32 ((x &&& 0xf8000000) ||| ((mps % 2 ^ 11) <<< 16) ||| ((f % 2 ^ 1) <<< 15)
        ||| ((k % 2 ^ 1) <<< 14) ||| ((s % 2 ^ 1) <<< 13) ||| ((d % 2 ^ 2) <<< 11)
        ||| ((en % 2 ^ 4) <<< 7) ||| (fa % 2 ^ 7)) >>> 7) &&& 15 = en % 2 ^ 4)
    ∧ ((UINT32 ((x &&& 0xf8000000) ||| ((mps % 2 ^ 11) <<< 16) ||| ((f % 2 ^ 1) <<< 15)
        ||| ((k % 2 ^ 1) <<< 14) ||| ((s % 2 ^ 1) <<< 13) ||| ((d % 2 ^ 2) <<< 11)
        ||| ((en % 2 ^ 4) <<< 7) ||| (fa % 2 ^ 7)) >>> 11) &&& 3 = d % 2 ^ 2)
    ∧ ((UINT32 ((x &&& 0xf8000000) ||| ((mps % 2 ^ 11) <<< 16) ||| ((f % 2 ^ 1) <<< 15)
        ||| ((k % 2 ^ 1) <<< 14) ||| ((s % 2 ^ 1) <<< 13) ||| ((d % 2 ^ 2) <<< 11)
        ||| ((en % 2 ^ 4) <<< 7) ||| (fa % 2 ^ 7)) >>> 13) &&& 1 = s % 2 ^ 1)
    ∧ ((UINT32 ((x &&& 0xf8000000) ||| ((mps % 2 ^ 11) <<< 16) ||| ((f % 2 ^ 1) <<< 15)
        ||| ((k % 2 ^ 1) <<< 14) ||| ((s % 2 ^ 1) <<< 13) ||| ((d % 2 ^ 2) <<< 11)
        ||| ((en % 2 ^ 4) <<< 7) ||| (fa % 2 ^ 7)) >>> 14) &&& 1 = k % 2 ^ 1)
    ∧ ((UINT32 ((x &&& 0xf8000000) ||| ((mps % 2 ^ 11) <<< 16) ||| ((f % 2 ^ 1) <<< 15)
        ||| ((k % 2 ^ 1) <<< 14) ||| ((s % 2 ^ 1) <<< 13) ||| ((d % 2 ^ 2) <<< 11)
        ||| ((en % 2 ^ 4) <<< 7) ||| (fa % 2 ^ 7)) >>> 15) &&& 1 = f % 2 ^ 1)
    ∧ ((UINT32 ((x &&& 0xf8000000) ||| ((mps % 2 ^ 11) <<< 16) ||| ((f % 2 ^ 1) <<< 15)
        ||| ((k % 2 ^ 1) <<< 14) ||| ((s % 2 ^ 1) <<< 13) ||| ((d % 2 ^ 2) <<< 11)
        ||| ((en % 2 ^ 4) <<< 7) ||| (fa % 2 ^ 7)) >>> 16) &&& 0x7ff = mps % 2 ^ 11) := by
  refine ⟨?_, ?_, ?_, ?_, ?_, ?_, ?_⟩
  all_goals
    refine testBit32_ext (and_lt_32 _ _ (by decide))
      (lt_of_lt_of_le (Nat.mod_lt _ (by decide)) (by decide)) ?_
    intro i hi
    simp only [UINT32, Nat.testBit_mod_two_pow, Nat.testBit_or, Nat.testBit_and,
      Nat.testBit_shiftLeft, Nat.testBit_shiftRight]
    interval_cases i <;> simp [Nat.testBit]

/-- A record whose fields agree with its raw copy has fields that fit. -/
theorem ed_wf_fits (ed : OHCIEndpointDescriptor) (h : ed.wf) : ed.fits := by
  obtain ⟨_, hfa, hen, hd, hs, hk, hf, hmps, htail, hnext, hhead, hhead3, hc, hh⟩ := h
  refine ⟨?_, ?_, ?_, ?_, ?_, ?_, ?_, htail, hnext, hhead, hhead3, hc, hh⟩
  · rw [hfa]; exact lt_of_le_of_lt Nat.and_le_right (by decide)
  · rw [hen]; exact lt_of_le_of_lt Nat.and_le_right (by decide)
  · rw [hd]; exact lt_of_le_of_lt Nat.and_le_right (by decide)
  · rw [hs]; exact lt_of_le_of_lt Nat.and_le_right (by decide)
  · rw [hk]; exact lt_of_le_of_lt Nat.and_le_right (by decide)
  · rw [hf]; exact lt_of_le_of_lt Nat.and_le_right (by decide)
  · rw [hmps]; exact lt_of_le_of_lt Nat.and_le_right (by decide)

/-- For a record whose fields agree with its raw copy, word 0 packed from the
fields is the raw copy. -/
theorem ed_wf_word0 (ed : OHCIEndpointDescriptor) (h : ed.wf) :
    endpoint_descriptor_word0 ed = ed.word0 := by
  obtain ⟨mps, f, k, s, d, en, fa, tailp, headp, nexted, c, hh, word0⟩ := ed
  obtain ⟨hw, hfa, hen, hd, hs, hk, hf, hmps, -⟩ := h
  simp only at hw hfa hen hd hs hk hf hmps
  subst hfa hen hd hs hk hf hmps
  exact ed_word0_pack word0 hw

/-- Every ED unpacked from four 32-bit words has fields that agree with its
raw copy. -/
theorem ed_of_words_wf (w0 w1 w2 w3 : Nat) (h0 : w0 < 2 ^ 32) (h1 : w1 < 2 ^ 32)
    (h3 : w3 < 2 ^ 32) : (endpoint_descriptor_of_words w0 w1 w2 w3).wf := by
  unfold OHCIEndpointDescriptor.wf endpoint_descriptor_of_words
  refine ⟨h0, rfl, rfl, rfl, rfl, rfl, rfl, rfl, h1, h3, and_lt_32 _ _ (by decide), ?_, ?_, ?_⟩
  · show (w2 &&& 0xfffffffc) &&& 3 = 0
    rw [Nat.and_assoc]
    exact Nat.and_zero _
  · exact lt_of_le_of_lt Nat.and_le_right (by decide)
  · exact lt_of_le_of_lt Nat.and_le_right (by decide)

/-- Unpacking the words packed from an ED whose fields fit gives the fields
back; the raw copy is the packed word 0. -/
theorem ed_of_words_fits (ed : OHCIEndpointDescriptor) (h : ed.fits) :
    endpoint_descriptor_of_words (endpoint_descriptor_word0 ed) (UINT32 ed.tailp)
        (endpoint_descriptor_word2 ed) (UINT32 ed.nexted)
      = { ed with word0 := endpoint_descriptor_word0 ed } := by
  obtain ⟨mps, f, k, s, d, en, fa, tailp, headp, nexted, c, hh, word0⟩ := ed
  obtain ⟨hfa, hen, hd, hs, hk, hf, hmps, htail, hnext, hhead, hhead3, hc, hhh⟩ := h
  simp only at hfa hen hd hs hk hf hmps htail hnext hhead hhead3 hc hhh
  obtain ⟨u1, u2, u3⟩ := ed_word2_unpack headp c hh hhead hhead3 hc hhh
  have e := ed_word0_fields word0 mps f k s d en fa
  rw [Nat.mod_eq_of_lt hfa, Nat.mod_eq_of_lt hen, Nat.mod_eq_of_lt hd,
    Nat.mod_eq_of_lt (show s < 2 ^ 1 from hs), Nat.mod_eq_of_lt (show k < 2 ^ 1 from hk),
    Nat.mod_eq_of_lt (show f < 2 ^ 1 from hf), Nat.mod_eq_of_lt hmps] at e
  obtain ⟨e1, e2, e3, e4, e5, e6, e7⟩ := e
  simp only [endpoint_descriptor_of_words, endpoint_descriptor_word0, endpoint_descriptor_word2,
    e1, e2, e3, e4, e5, e6, e7, u1, u2, u3, UINT32_of_lt htail, UINT32_of_lt hnext]

/-- Writing an ED and reading it from the same mapped address gives the ED
unpacked from the words that were packed. -/
theorem ed_write_read (space : Bus) (address : Nat) (ed : OHCIEndpointDescriptor)
    (h : space.maps address 16) :
    (usb_ohci_writeback_endpoint_descriptor space address ed >>= fun s =>
        usb_ohci_read_endpoint_descriptor s address)
      = Except.ok (endpoint_descriptor_of_words (endpoint_descriptor_word0 ed)
          (UINT32 ed.tailp) (endpoint_descriptor_word2 ed) (UINT32 ed.nexted)) := by
  unfold usb_ohci_writeback_endpoint_descriptor usb_ohci_read_endpoint_descriptor
  rw [write_four_words, if_pos h]
  show (do
      let w0 ← read_dword _ address
      let w1 ← read_dword _ (address + 4)
      let w2 ← read_dword _ (address + 8)
      let w3 ← read_dword _ (address + 12)
      pure (endpoint_descriptor_of_words w0 w1 w2 w3) : Except BusFault _) = _
  rw [read_four_words, if_pos ((maps_with_bytes _ _ _ _).mpr h)]
  obtain ⟨r0, r1, r2, r3⟩ := load_four_words space.bytes address
    (endpoint_descriptor_word0 ed) (UINT32 ed.tailp) (endpoint_descriptor_word2 ed)
    (UINT32 ed.nexted)
  simp only [r0, r1, r2, r3, UINT32_idem]
  have i0 : UINT32 (endpoint_descriptor_word0 ed) = endpoint_descriptor_word0 ed :=
    UINT32_idem _
  have i2 : UINT32 (endpoint_descriptor_word2 ed) = endpoint_descriptor_word2 ed :=
    UINT32_idem _
  rw [i0, i2]

/-- Round trip of an Endpoint Descriptor through the codec. -/
theorem ed_roundtrip (space : Bus) (address : Nat) (ed : OHCIEndpointDescriptor)
    (h : space.maps address 16) :
    (ed.fits →
      (usb_ohci_writeback_endpoint_descriptor space address ed >>= fun s =>
          usb_ohci_read_endpoint_descriptor s address)
        = Except.ok { ed with word0 := endpoint_descriptor_word0 ed })
    ∧ ((usb_ohci_writeback_endpoint_descriptor space address ed >>= fun s =>
          usb_ohci_read_endpoint_descriptor s address) = Except.ok ed ↔ ed.wf) := by
  rw [ed_write_read space address ed h]
  constructor
  · intro hf
    rw [ed_of_words_fits ed hf]
  · constructor
    · intro e
      have e2 := Except.ok.inj e
      rw [← e2]
      exact ed_of_words_wf _ _ _ _ (UINT32_lt _) (UINT32_lt _) (UINT32_lt _)
    · intro hw
      rw [ed_of_words_fits ed (ed_wf_fits ed hw), ed_wf_word0 ed hw]

/-- A writeback to a place that is not wholly mapped faults. -/
theorem ed_write_fault (space : Bus) (address : Nat) (ed : OHCIEndpointDescriptor)
    (h : ¬ space.maps address 16) :
    usb_ohci_writeback_endpoint_descriptor space address ed = Except.error BusFault.fault := by
  unfold usb_ohci_writeback_endpoint_descriptor
  rw [write_four_words, if_neg h]

/-! ## The Transfer Descriptor -/

set_option maxHeartbeats 1600000 in
/-- The fields packed into word 0 of a TD are read back from it. -/
theorem td_word0_fields (x cc ec t di dp r : Nat) :
    ((UINT32 ((x &&& 0x0003ffff) ||| ((cc % 2 ^ 4) <<< 28) ||| ((ec % 2 ^ 2) <<< 26)
        ||| ((t % 2 ^ 2) <<< 24) ||| ((di % 2 ^ 3) <<< 21) ||| ((dp % 2 ^ 2) <<< 19)
        ||| ((r % 2 ^ 1) <<< 18)) >>> 28) &&& 15 = cc % 2 ^ 4)
    ∧ ((UINT32 ((x &&& 0x0003ffff) ||| ((cc % 2 ^ 4) <<< 28) ||| ((ec % 2 ^ 2) <<< 26)
        ||| ((t % 2 ^ 2) <<< 24) ||| ((di % 2 ^ 3) <<< 21) ||| ((dp % 2 ^ 2) <<< 19)
        ||| ((r % 2 ^ 1) <<< 18)) >>> 26) &&& 3 = ec % 2 ^ 2)
    ∧ ((UINT32 ((x &&& 0x0003ffff) ||| ((cc % 2 ^ 4) <<< 28) ||| ((ec % 2 ^ 2) <<< 26)
        ||| ((t % 2 ^ 2) <<< 24) ||| ((di % 2 ^ 3) <<< 21) ||| ((dp % 2 ^ 2) <<< 19)
        ||| ((r % 2 ^ 1) <<< 18)) >>> 24) &&& 3 = t % 2 ^ 2)
    ∧ ((UINT32 ((x &&& 0x0003ffff) ||| ((cc % 2 ^ 4) <<< 28) ||| ((ec % 2 ^ 2) <<< 26)
        ||| ((t % 2 ^ 2) <<< 24) ||| ((di % 2 ^ 3) <<< 21) ||| ((dp % 2 ^ 2) <<< 19)
        ||| ((r % 2 ^ 1) <<< 18)) >>> 21) &&& 7 = di % 2 ^ 3)
    ∧ ((UINT32 ((x &&& 0x0003ffff) ||| ((cc % 2 ^ 4) <<< 28) ||| ((ec % 2 ^ 2) <<< 26)
        ||| ((t % 2 ^ 2) <<< 24) ||| ((di % 2 ^ 3) <<< 21) ||| ((dp % 2 ^ 2) <<< 19)
        ||| ((r % 2 ^ 1) <<< 18)) >>> 19) &&& 3 = dp % 2 ^ 2)
    ∧ ((UINT32 ((x &&& 0x0003ffff) ||| ((cc % 2 ^ 4) <<< 28) ||| ((ec % 2 ^ 2) <<< 26)
        ||| ((t % 2 ^ 2) <<< 24) ||| ((di % 2 ^ 3) <<< 21) ||| ((dp % 2 ^ 2) <<< 19)
        ||| ((r % 2 ^ 1) <<< 18)) >>> 18) &&& 1 = r % 2 ^ 1) := by
  refine ⟨?_, ?_, ?_, ?_, ?_, ?_⟩
  all_goals
    refine testBit32_ext (and_lt_32 _ _ (by decide))
      (lt_of_lt_of_le (Nat.mod_lt _ (by decide)) (by decide)) ?_
    intro i hi
    simp only [UINT32, Nat.testBit_mod_two_pow, Nat.testBit_or, Nat.testBit_and,
      Nat.testBit_shiftLeft, Nat.testBit_shiftRight]
    interval_cases i <;> simp [Nat.testBit]

theorem td_wf_fits (td : OHCITransferDescriptor) (h : td.wf) : td.fits := by
  obtain ⟨_, hcc, hec, ht, hdi, hdp, hr, hcbp, hnext, hbe⟩ := h
  refine ⟨?_, ?_, ?_, ?_, ?_, ?_, hcbp, hnext, hbe⟩
  · rw [hcc]; exact lt_of_le_of_lt Nat.and_le_right (by decide)
  · rw [hec]; exact lt_of_le_of_lt Nat.and_le_right (by decide)
  · rw [ht]; exact lt_of_le_of_lt Nat.and_le_right (by decide)
  · rw [hdi]; exact lt_of_le_of_lt Nat.and_le_right (by decide)
  · rw [hdp]; exact lt_of_le_of_lt Nat.and_le_right (by decide)
  · rw [hr]; exact lt_of_le_of_lt Nat.and_le_right (by decide)

theorem td_wf_word0 (td : OHCITransferDescriptor) (h : td.wf) :
    transfer_descriptor_word0 td = td.word0 := by
  obtain ⟨cc, ec, t, di, dp, r, cbp, nexttd, be, word0⟩ := td
  obtain ⟨hw, hcc, hec, ht, hdi, hdp, hr, -⟩ := h
  simp only at hw hcc hec ht hdi hdp hr
  subst hcc hec ht hdi hdp hr
  exact td_word0_pack word0 hw

/-- Every TD unpacked from four 32-bit words has fields that agree with its
raw copy. -/
theorem td_of_words_wf (w0 w1 w2 w3 : Nat) (h0 : w0 < 2 ^ 32) (h1 : w1 < 2 ^ 32)
    (h2 : w2 < 2 ^ 32) (h3 : w3 < 2 ^ 32) : (transfer_descriptor_of_words w0 w1 w2 w3).wf :=
  ⟨h0, rfl, rfl, rfl, rfl, rfl, rfl, h1, h2, h3⟩

theorem td_of_words_fits (td : OHCITransferDescriptor) (h : td.fits) :
    transfer_descriptor_of_words (transfer_descriptor_word0 td) (UINT32 td.cbp)
        (UINT32 td.nexttd) (UINT32 td.be)
      = { td with word0 := transfer_descriptor_word0 td } := by
  obtain ⟨cc, ec, t, di, dp, r, cbp, nexttd, be, word0⟩ := td
  obtain ⟨hcc, hec, ht, hdi, hdp, hr, hcbp, hnext, hbe⟩ := h
  simp only at hcc hec ht hdi hdp hr hcbp hnext hbe
  have e := td_word0_fields word0 cc ec t di dp r
  rw [Nat.mod_eq_of_lt hcc, Nat.mod_eq_of_lt hec, Nat.mod_eq_of_lt ht, Nat.mod_eq_of_lt hdi,
    Nat.mod_eq_of_lt hdp, Nat.mod_eq_of_lt (show r < 2 ^ 1 from hr)] at e
  obtain ⟨e1, e2, e3, e4, e5, e6⟩ := e
  simp only [transfer_descriptor_of_words, transfer_descriptor_word0, e1, e2, e3, e4, e5, e6,
    UINT32_of_lt hcbp, UINT32_of_lt hnext, UINT32_of_lt hbe]

theorem td_write_read (space : Bus) (address : Nat) (td : OHCITransferDescriptor)
    (h : space.maps address 16) :
    (usb_ohci_writeback_transfer_descriptor space address td >>= fun s =>
        usb_ohci_read_transfer_descriptor s address)
      = Except.ok (transfer_descriptor_of_words (transfer_descriptor_word0 td)
          (UINT32 td.cbp) (UINT32 td.nexttd) (UINT32 td.be)) := by
  unfold usb_ohci_writeback_transfer_descriptor usb_ohci_read_transfer_descriptor
  rw [write_four_words, if_pos h]
  show (do
      let w0 ← read_dword _ address
      let w1 ← read_dword _ (address + 4)
      let w2 ← read_dword _ (address + 8)
      let w3 ← read_dword _ (address + 12)
      pure (transfer_descriptor_of_words w0 w1 w2 w3) : Except BusFault _) = _
  rw [read_four_words, if_pos ((maps_with_bytes _ _ _ _).mpr h)]
  obtain ⟨r0, r1, r2, r3⟩ := load_four_words space.bytes address
    (transfer_descriptor_word0 td) (UINT32 td.cbp) (UINT32 td.nexttd) (UINT32 td.be)
  simp only [r0, r1, r2, r3, UINT32_idem]
  have i0 : UINT32 (transfer_descriptor_word0 td) = transfer_descriptor_word0 td :=
    UINT32_idem _
  rw [i0]

/-- Round trip of a Transfer Descriptor through the codec. -/
theorem td_roundtrip (space : Bus) (address : Nat) (td : OHCITransferDescriptor)
    (h : space.maps address 16) :
    (td.fits →
      (usb_ohci_writeback_transfer_descriptor space address td >>= fun s =>
          usb_ohci_read_transfer_descriptor s address)
        = Except.ok { td with word0 := transfer_descriptor_word0 td })
    ∧ ((usb_ohci_writeback_transfer_descriptor space address td >>= fun s =>
          usb_ohci_read_transfer_descriptor s address) = Except.ok td ↔ td.wf) := by
  rw [td_write_read space address td h]
  constructor
  · intro hf
    rw [td_of_words_fits td hf]
  · constructor
    · intro e
      have e2 := Except.ok.inj e
      rw [← e2]
      exact td_of_words_wf _ _ _ _ (UINT32_lt _) (UINT32_lt _) (UINT32_lt _) (UINT32_lt _)
    · intro hw
      rw [td_of_words_fits td (td_wf_fits td hw), td_wf_word0 td hw]

theorem td_write_fault (space : Bus) (address : Nat) (td : OHCITransferDescriptor)
    (h : ¬ space.maps address 16) :
    usb_ohci_writeback_transfer_descriptor space address td = Except.error BusFault.fault := by
  unfold usb_ohci_writeback_transfer_descriptor
  rw [write_four_words, if_neg h]

/-! ## The Isochronous Transfer Descriptor -/

theorem maps_32_words (space : Bus) (a : Nat) :
    space.maps a 32 ↔ space.maps a 4 ∧ space.maps (a + 4) 4 ∧ space.maps (a + 8) 4
      ∧ space.maps (a + 12) 4 ∧ space.maps (a + 16) 4 ∧ space.maps (a + 20) 4
      ∧ space.maps (a + 24) 4 ∧ space.maps (a + 28) 4 := by
  have e1 : a + 16 + 4 = a + 20 := Nat.add_assoc a 16 4
  have e2 : a + 16 + 8 = a + 24 := Nat.add_assoc a 16 8
  have e3 : a + 16 + 12 = a + 28 := Nat.add_assoc a 16 12
  rw [maps_32, maps_16, maps_16 space (a + 16), e1, e2, e3]
  tauto

/-- Eight dword writes in a row succeed when the 32 bytes are mapped and
fault otherwise. -/
theorem write_eight_words (space : Bus) (a v0 v1 v2 v3 v4 v5 v6 v7 : Nat) :
    (do
      let s ← write_dword space a v0
      let s ← write_dword s (a + 4) v1
      let s ← write_dword s (a + 8) v2
      let s ← write_dword s (a + 12) v3
      let s ← write_dword s (a + 16) v4
      let s ← write_dword s (a + 20) v5
      let s ← write_dword s (a + 24) v6
      write_dword s (a + 28) v7)
      = if space.maps a 32 then
          Except.ok { space with bytes := store_dword (store_dword (store_dword (store_dword
            (store_dword (store_dword (store_dword (store_dword space.bytes a v0) (a + 4) v1)
            (a + 8) v2) (a + 12) v3) (a + 16) v4) (a + 20) v5) (a + 24) v6) (a + 28) v7 }
        else Except.error BusFault.fault := by
  by_cases h0 : space.maps a 4
  swap
  · simp [maps_32_words, write_dword, bind, Except.bind, h0]
  by_cases h1 : space.maps (a + 4) 4
  swap
  · simp [maps_32_words, write_dword, bind, Except.bind, maps_with_bytes, h0, h1]
  by_cases h2 : space.maps (a + 8) 4
  swap
  · simp [maps_32_words, write_dword, bind, Except.bind, maps_with_bytes, h0, h1, h2]
  by_cases h3 : space.maps (a + 12) 4
  swap
  · simp [maps_32_words, write_dword, bind, Except.bind, maps_with_bytes, h0, h1, h2, h3]
  by_cases h4 : space.maps (a + 16) 4
  swap
  · simp [maps_32_words, write_dword, bind, Except.bind, maps_with_bytes, h0, h1, h2, h3, h4]
  by_cases h5 : space.maps (a + 20) 4
  swap
  · simp [maps_32_words, write_dword, bind, Except.bind, maps_with_bytes, h0, h1, h2, h3, h4,
      h5]
  by_cases h6 : space.maps (a + 24) 4
  swap
  · simp [maps_32_words, write_dword, bind, Except.bind, maps_with_bytes, h0, h1, h2, h3, h4,
      h5, h6]
  by_cases h7 : space.maps (a + 28) 4
  swap
  · simp [maps_32_words, write_dword, bind, Except.bind, maps_with_bytes, h0, h1, h2, h3, h4,
      h5, h6, h7]
  simp [maps_32_words, write_dword, bind, Except.bind, maps_with_bytes, h0, h1, h2, h3, h4,
    h5, h6, h7]

/-- Eight dword reads in a row succeed when the 32 bytes are mapped and fault
otherwise. -/
theorem read_eight_words {α : Type} (space : Bus) (a : Nat)
    (f : Nat → Nat → Nat → Nat → Nat → Nat → Nat → Nat → α) :
    (do
      let w0 ← read_dword space a
      let w1 ← read_dword space (a + 4)
      let w2 ← read_dword space (a + 8)
      let w3 ← read_dword space (a + 12)
      let w4 ← read_dword space (a + 16)
      let w5 ← read_dword space (a + 20)
      let w6 ← read_dword space (a + 24)
      let w7 ← read_dword space (a + 28)
      pure (f w0 w1 w2 w3 w4 w5 w6 w7) : Except BusFault α)
      = if space.maps a 32 then
          Except.ok (f (load_dword space.bytes a) (load_dword space.bytes (a + 4))
            (load_dword space.bytes (a + 8)) (load_dword space.bytes (a + 12))
            (load_dword space.bytes (a + 16)) (load_dword space.bytes (a + 20))
            (load_dword space.bytes (a + 24)) (load_dword space.bytes (a + 28)))
        else Except.error BusFault.fault := by
  by_cases h0 : space.maps a 4
  swap
  · simp [maps_32_words, read_dword, bind, Except.bind, h0]
  by_cases h1 : space.maps (a + 4) 4
  swap
  · simp [maps_32_words, read_dword, bind, Except.bind, h0, h1]
  by_cases h2 : space.maps (a + 8) 4
  swap
  · simp [maps_32_words, read_dword, bind, Except.bind, h0, h1, h2]
  by_cases h3 : space.maps (a + 12) 4
  swap
  · simp [maps_32_words, read_dword, bind, Except.bind, h0, h1, h2, h3]
  by_cases h4 : space.maps (a + 16) 4
  swap
  · simp [maps_32_words, read_dword, bind, Except.bind, h0, h1, h2, h3, h4]
  by_cases h5 : space.maps (a + 20) 4
  swap
  · simp [maps_32_words, read_dword, bind, Except.bind, h0, h1, h2, h3, h4, h5]
  by_cases h6 : space.maps (a + 24) 4
  swap
  · simp [maps_32_words, read_dword, bind, Except.bind, h0, h1, h2, h3, h4, h5, h6]
  by_cases h7 : space.maps (a + 28) 4
  swap
  · simp [maps_32_words, read_dword, bind, Except.bind, h0, h1, h2, h3, h4, h5, h6, h7]
  simp [maps_32_words, read_dword, bind, Except.bind, pure, Except.pure, h0, h1, h2, h3, h4,
    h5, h6, h7]

set_option maxHeartbeats 1600000 in
/-- The fields packed into word 0 of an ITD are read back from it. -/
theorem itd_word0_fields (x cc fc di sf : Nat) :
    ((UINT32 ((x &&& 0x081f0000) ||| ((cc % 2 ^ 4) <<< 28) ||| ((fc % 2 ^ 3) <<< 24)
        ||| ((di % 2 ^ 3) <<< 21) ||| (sf % 2 ^ 16)) >>> 28) &&& 15 = cc % 2 ^ 4)
    ∧ ((UINT32 ((x &&& 0x081f0000) ||| ((cc % 2 ^ 4) <<< 28) ||| ((fc % 2 ^ 3) <<< 24)
        ||| ((di % 2 ^ 3) <<< 21) ||| (sf % 2 ^ 16)) >>> 24) &&& 7 = fc % 2 ^ 3)
    ∧ ((UINT32 ((x &&& 0x081f0000) ||| ((cc % 2 ^ 4) <<< 28) ||| ((fc % 2 ^ 3) <<< 24)
        ||| ((di % 2 ^ 3) <<< 21) ||| (sf % 2 ^ 16)) >>> 21) &&& 7 = di % 2 ^ 3)
    ∧ (UINT32 ((x &&& 0x081f0000) ||| ((cc % 2 ^ 4) <<< 28) ||| ((fc % 2 ^ 3) <<< 24)
        ||| ((di % 2 ^ 3) <<< 21) ||| (sf % 2 ^ 16)) &&& 0xffff = sf % 2 ^ 16) := by
  refine ⟨?_, ?_, ?_, ?_⟩
  all_goals
    refine testBit32_ext (and_lt_32 _ _ (by decide))
      (lt_of_lt_of_le (Nat.mod_lt _ (by decide)) (by decide)) ?_
    intro i hi
    simp only [UINT32, Nat.testBit_mod_two_pow, Nat.testBit_or, Nat.testBit_and,
      Nat.testBit_shiftLeft, Nat.testBit_shiftRight]
    interval_cases i <;> simp [Nat.testBit]

/-- The page address packed into word 1 of an ITD is read back from it. -/
theorem itd_word1_page (x b : Nat) :
    UINT32 ((x &&& 0x00000fff) ||| (b &&& 0xfffff000)) &&& 0xfffff000 = b &&& 0xfffff000 := by
  refine testBit32_ext (and_lt_32 _ _ (by decide)) (and_lt_32 _ _ (by decide)) ?_
  intro i hi
  simp only [UINT32, Nat.testBit_mod_two_pow, Nat.testBit_or, Nat.testBit_and]
  interval_cases i <;> simp [Nat.testBit]

/-- A 32-bit word with its low 12 bits clear is its own page part. -/
theorem page_of_aligned (b : Nat) (hb : b < 2 ^ 32) (h : b &&& 0xfff = 0) :
    b &&& 0xfffff000 = b := by
  have e := itd_word1_pack b hb
  rw [show (0x00000fff : Nat) = 0xfff from rfl, h, Nat.zero_or] at e
  rw [UINT32_of_lt (and_lt_32 _ _ (by decide))] at e
  exact e

theorem itd_wf_fits (itd : OHCIIsochronousTransferDescriptor) (h : itd.wf) : itd.fits := by
  obtain ⟨_, _, hcc, hfc, hdi, hsf, hbp0, hnext, hbe, hoff⟩ := h
  refine ⟨?_, ?_, ?_, ?_, ?_, ?_, hnext, hbe, hoff⟩
  · rw [hcc]; exact lt_of_le_of_lt Nat.and_le_right (by decide)
  · rw [hfc]; exact lt_of_le_of_lt Nat.and_le_right (by decide)
  · rw [hdi]; exact lt_of_le_of_lt Nat.and_le_right (by decide)
  · rw [hsf]; exact lt_of_le_of_lt Nat.and_le_right (by decide)
  · rw [hbp0]; exact lt_of_le_of_lt Nat.and_le_right (by decide)
  · rw [hbp0, Nat.and_assoc]
    exact Nat.and_zero _

theorem itd_wf_word0 (itd : OHCIIsochronousTransferDescriptor) (h : itd.wf) :
    isochronous_transfer_descriptor_word0 itd = itd.word0
    ∧ isochronous_transfer_descriptor_word1 itd = itd.word1 := by
  obtain ⟨cc, fc, di, sf, bp0, nexttd, be, offset, word0, word1⟩ := itd
  obtain ⟨hw0, hw1, hcc, hfc, hdi, hsf, hbp0, -⟩ := h
  simp only at hw0 hw1 hcc hfc hdi hsf hbp0
  subst hcc hfc hdi hsf hbp0
  exact ⟨itd_word0_pack word0 hw0, itd_word1_pack word1 hw1⟩

/-- The offsets of an ITD unpacked from words are 16-bit values, and its
fields agree with its raw copies. -/
theorem itd_of_words_wf (w0 w1 w2 w3 : Nat) (offsets : Nat → Nat) (h0 : w0 < 2 ^ 32)
    (h1 : w1 < 2 ^ 32) (h2 : w2 < 2 ^ 32) (h3 : w3 < 2 ^ 32) :
    (isochronous_transfer_descriptor_of_words w0 w1 w2 w3 offsets).wf := by
  refine ⟨h0, h1, rfl, rfl, rfl, rfl, rfl, h2, h3, ?_⟩
  intro i
  show (if i.val % 2 = 0 then _ else _) < 2 ^ 16
  split
  · exact lt_of_le_of_lt Nat.and_le_right (by decide)
  · exact lt_of_le_of_lt Nat.and_le_right (by decide)

theorem itd_of_words_fits (itd : OHCIIsochronousTransferDescriptor) (h : itd.fits) :
    isochronous_transfer_descriptor_of_words (isochronous_transfer_descriptor_word0 itd)
        (isochronous_transfer_descriptor_word1 itd) (UINT32 itd.nexttd) (UINT32 itd.be)
        (fun j =>
          if j = 0 then UINT32 ((itd.offset 1 <<< 16) ||| itd.offset 0)
          else if j = 1 then UINT32 ((itd.offset 3 <<< 16) ||| itd.offset 2)
          else if j = 2 then UINT32 ((itd.offset 5 <<< 16) ||| itd.offset 4)
          else UINT32 ((itd.offset 7 <<< 16) ||| itd.offset 6))
      = { itd with word0 := isochronous_transfer_descriptor_word0 itd
                   word1 := isochronous_transfer_descriptor_word1 itd } := by
  obtain ⟨cc, fc, di, sf, bp0, nexttd, be, offset, word0, word1⟩ := itd
  obtain ⟨hcc, hfc, hdi, hsf, hbp, hbp0, hnext, hbe, hoff⟩ := h
  simp only at hcc hfc hdi hsf hbp hbp0 hnext hbe hoff
  have e := itd_word0_fields word0 cc fc di sf
  rw [Nat.mod_eq_of_lt hcc, Nat.mod_eq_of_lt hfc, Nat.mod_eq_of_lt hdi,
    Nat.mod_eq_of_lt hsf] at e
  obtain ⟨e1, e2, e3, e4⟩ := e
  have e5 := itd_word1_page word1 bp0
  rw [page_of_aligned bp0 hbp hbp0] at e5
  obtain ⟨p0, p1⟩ := offset_pair (offset 0) (offset 1) (hoff 0) (hoff 1)
  obtain ⟨p2, p3⟩ := offset_pair (offset 2) (offset 3) (hoff 2) (hoff 3)
  obtain ⟨p4, p5⟩ := offset_pair (offset 4) (offset 5) (hoff 4) (hoff 5)
  obtain ⟨p6, p7⟩ := offset_pair (offset 6) (offset 7) (hoff 6) (hoff 7)
  simp only [isochronous_transfer_descriptor_of_words, isochronous_transfer_descriptor_word0,
    isochronous_transfer_descriptor_word1, e1, e2, e3, e4, e5, UINT32_of_lt hnext,
    UINT32_of_lt hbe]
  congr 1
  funext i
  fin_cases i
  · simpa using p0
  · simpa using p1
  · simpa using p2
  · simpa using p3
  · simpa using p4
  · simpa using p5
  · simpa using p6
  · simpa using p7

theorem itd_write_read (space : Bus) (address : Nat) (itd : OHCIIsochronousTransferDescriptor)
    (h : space.maps address 32) :
    (usb_ohci_writeback_isochronous_transfer_descriptor space address itd >>= fun s =>
        usb_ohci_read_isochronous_transfer_descriptor s address)
      = Except.ok (isochronous_transfer_descriptor_of_words
          (isochronous_transfer_descriptor_word0 itd)
          (isochronous_transfer_descriptor_word1 itd) (UINT32 itd.nexttd) (UINT32 itd.be)
          (fun j =>
            if j = 0 then UINT32 ((itd.offset 1 <<< 16) ||| itd.offset 0)
            else if j = 1 then UINT32 ((itd.offset 3 <<< 16) ||| itd.offset 2)
            else if j = 2 then UINT32 ((itd.offset 5 <<< 16) ||| itd.offset 4)
            else UINT32 ((itd.offset 7 <<< 16) ||| itd.offset 6))) := by
  unfold usb_ohci_writeback_isochronous_transfer_descriptor
    usb_ohci_read_isochronous_transfer_descriptor
  rw [write_eight_words, if_pos h]
  show (do
      let w0 ← read_dword _ address
      let w1 ← read_dword _ (address + 4)
      let w2 ← read_dword _ (address + 8)
      let w3 ← read_dword _ (address + 12)
      let w4 ← read_dword _ (address + 16)
      let w5 ← read_dword _ (address + 20)
      let w6 ← read_dword _ (address + 24)
      let w7 ← read_dword _ (address + 28)
      pure (isochronous_transfer_descriptor_of_words w0 w1 w2 w3
        fun j => if j = 0 then w4 else if j = 1 then w5 else if j = 2 then w6 else w7)
        : Except BusFault _) = _
  rw [read_eight_words, if_pos ((maps_with_bytes _ _ _ _).mpr h)]
  obtain ⟨r0, r1, r2, r3, r4, r5, r6, r7⟩ := load_eight_words space.bytes address
    (isochronous_transfer_descriptor_word0 itd) (isochronous_transfer_descriptor_word1 itd)
    (UINT32 itd.nexttd) (UINT32 itd.be)
    (UINT32 ((itd.offset 1 <<< 16) ||| itd.offset 0))
    (UINT32 ((itd.offset 3 <<< 16) ||| itd.offset 2))
    (UINT32 ((itd.offset 5 <<< 16) ||| itd.offset 4))
    (UINT32 ((itd.offset 7 <<< 16) ||| itd.offset 6))
  simp only [r0, r1, r2, r3, r4, r5, r6, r7, UINT32_idem]
  have i0 : UINT32 (isochronous_transfer_descriptor_word0 itd)
      = isochronous_transfer_descriptor_word0 itd := UINT32_idem _
  have i1 : UINT32 (isochronous_transfer_descriptor_word1 itd)
      = isochronous_transfer_descriptor_word1 itd := UINT32_idem _
  rw [i0, i1]

/-- Round trip of an Isochronous Transfer Descriptor through the codec. -/
theorem itd_roundtrip (space : Bus) (address : Nat) (itd : OHCIIsochronousTransferDescriptor)
    (h : space.maps address 32) :
    (itd.fits →
      (usb_ohci_writeback_isochronous_transfer_descriptor space address itd >>= fun s =>
          usb_ohci_read_isochronous_transfer_descriptor s address)
        = Except.ok { itd with word0 := isochronous_transfer_descriptor_word0 itd
                               word1 := isochronous_transfer_descriptor_word1 itd })
    ∧ ((usb_ohci_writeback_isochronous_transfer_descriptor space address itd >>= fun s =>
          usb_ohci_read_isochronous_transfer_descriptor s address) = Except.ok itd
        ↔ itd.wf) := by
  rw [itd_write_read space address itd h]
  constructor
  · intro hf
    rw [itd_of_words_fits itd hf]
  · constructor
    · intro e
      have e2 := Except.ok.inj e
      rw [← e2]
      exact itd_of_words_wf _ _ _ _ _ (UINT32_lt _) (UINT32_lt _) (UINT32_lt _) (UINT32_lt _)
    · intro hw
      rw [itd_of_words_fits itd (itd_wf_fits itd hw), (itd_wf_word0 itd hw).1,
        (itd_wf_word0 itd hw).2]

theorem itd_write_fault (space : Bus) (address : Nat) (itd : OHCIIsochronousTransferDescriptor)
    (h : ¬ space.maps address 32) :
    usb_ohci_writeback_isochronous_transfer_descriptor space address itd
      = Except.error BusFault.fault := by
  unfold usb_ohci_writeback_isochronous_transfer_descriptor
  rw [write_eight_words, if_neg h]

/-! ## The codec on concrete records -/

/-- A retired TD, whose `cc` was changed after it was read, is not a record as
the reader returns it, but its fields fit: it is read back with `cc = 4` and
with the word that was written in `word0`. -/
theorem retiredTD_roundtrip :
    retiredTD.fits ∧ ¬ retiredTD.wf
    ∧ (usb_ohci_writeback_transfer_descriptor zeroBus 0x1000 retiredTD >>= fun s =>
          usb_ohci_read_transfer_descriptor s 0x1000)
        = Except.ok { retiredTD with word0 := 0x42F40000 } :=
  ⟨by decide, by decide, (td_roundtrip zeroBus 0x1000 retiredTD (by decide)).1 (by decide)⟩

/-- The sample records are records as the reader returns them, and they come
back unchanged, also where the descriptor wraps around the end of the 32-bit
address space. -/
theorem sample_roundtrip :
    (usb_ohci_writeback_endpoint_descriptor zeroBus 0xfffffff8 sampleED >>= fun s =>
        usb_ohci_read_endpoint_descriptor s 0xfffffff8) = Except.ok sampleED
    ∧ (usb_ohci_writeback_transfer_descriptor zeroBus 0xfffffff8 sampleTD >>= fun s =>
        usb_ohci_read_transfer_descriptor s 0xfffffff8) = Except.ok sampleTD
    ∧ (usb_ohci_writeback_isochronous_transfer_descriptor zeroBus 0xfffffff8 sampleITD
        >>= fun s => usb_ohci_read_isochronous_transfer_descriptor s 0xfffffff8)
      = Except.ok sampleITD :=
  ⟨(ed_roundtrip zeroBus 0xfffffff8 sampleED (by decide)).2.mpr (by decide),
    (td_roundtrip zeroBus 0xfffffff8 sampleTD (by decide)).2.mpr (by decide),
    (itd_roundtrip zeroBus 0xfffffff8 sampleITD (by decide)).2.mpr (by decide)⟩

theorem and_not32_HCR (x : Nat) (hx : x < 2 ^ 32) (h0 : x &&& HCR = 0) : x &&& not32 HCR = x := by
  have e1 : HCR = 1 := by decide
  have e2 : not32 HCR = 0xfffffffe := by decide
  rw [e1, Nat.and_one_is_mod] at h0
  rw [e2]
  refine testBit32_ext (and_lt_32 _ _ (by decide)) hx ?_
  intro i hi
  rw [Nat.testBit_and]
  interval_cases i <;> simp [Nat.testBit, h0]

/-! ## Lemmas on the register file -/

theorem and_PRSC (x : Nat) : x &&& PRSC = (x.testBit 20).toNat * 2 ^ 20 := by
  have : PRSC = 2 ^ 20 := by decide
  rw [this, Nat.and_two_pow]

theorem and_PRSC_ne_zero (x : Nat) : x &&& PRSC ≠ 0 ↔ x.testBit 20 = true := by
  rw [and_PRSC]; cases x.testBit 20 <;> simp

theorem and_PRSC_eq_zero (x : Nat) : x &&& PRSC = 0 ↔ x.testBit 20 = false := by
  rw [and_PRSC]; cases x.testBit 20 <;> simp

theorem UINT32_testBit_20 (x : Nat) : (UINT32 x).testBit 20 = x.testBit 20 := by
  unfold UINT32
  rw [Nat.testBit_mod_two_pow]
  simp

/-- Bit 20 of the value a write leaves in a port status register. -/
theorem port_write_bit20 (old data : Nat) :
    ((old &&& not32 (data &&& changeBits) &&& not32 PPS) ||| (data &&& PPS)).testBit 20
      = (old.testBit 20 && !data.testBit 20)
    ∧ ((old &&& not32 (data &&& changeBits) &&& not32 PPS) ||| (data &&& PPS) ||| PRS).testBit 20
      = (old.testBit 20 && !data.testBit 20) := by
  have c1 : changeBits = 2031616 := by decide
  have c2 : PPS = 256 := by decide
  have c3 : PRS = 16 := by decide
  have t1 : Nat.testBit 4294967295 20 = true := by decide
  have t2 : Nat.testBit 2031616 20 = true := by decide
  have t3 : Nat.testBit 256 20 = false := by decide
  have t4 : Nat.testBit 16 20 = false := by decide
  simp only [not32, c1, c2, c3, Nat.testBit_or, Nat.testBit_and, Nat.testBit_xor, t1, t2, t3, t4]
  cases old.testBit 20 <;> cases data.testBit 20 <;> simp

theorem portStatusIndex_range (n : Nat) (h1 : 1 ≤ n) (h4 : n ≤ 4) :
    portStatusIndex n ≠ HcCommandStatus ∧ portStatusIndex n ≠ HcInterruptStatus
      ∧ portStatusIndex n ≠ HcRhStatus
      ∧ (HcRhPortStatus1 ≤ portStatusIndex n ∧ portStatusIndex n < HcRhPortStatus1 + 4) := by
  have e1 : HcRhPortStatus1 = 21 := by decide
  have e2 : HcCommandStatus = 2 := by decide
  have e3 : HcInterruptStatus = 3 := by decide
  have e4 : HcRhStatus = 20 := by decide
  unfold portStatusIndex
  rw [e1, e2, e3, e4]
  omega

/-- The value a write leaves in the status register of port `n`. -/
theorem read_write_port (cfg : ohci_config) (st : ohcist_t) (n data : Nat) (h1 : 1 ≤ n)
    (h4 : n ≤ 4) :
    read (write cfg st (portStatusIndex n) data) (portStatusIndex n)
      = (if UINT32 data &&& PRS ≠ 0 then
          (read st (portStatusIndex n) &&& not32 (UINT32 data &&& changeBits) &&& not32 PPS)
            ||| (UINT32 data &&& PPS) ||| PRS
        else
          (read st (portStatusIndex n) &&& not32 (UINT32 data &&& changeBits) &&& not32 PPS)
            ||| (UINT32 data &&& PPS)) := by
  obtain ⟨a1, a2, a3, a4, a5⟩ := portStatusIndex_range n h1 h4
  unfold write read
  simp only [a1, a2, a3, a4, a5, and_self, if_false, if_true]
  by_cases hp : UINT32 data &&& PRS ≠ 0 <;> simp [hp, set_reg]

theorem UINT32_and_HCR (data : Nat) : UINT32 data &&& HCR = data &&& HCR := by
  have : HCR = 1 := by decide
  rw [this, Nat.and_one_is_mod, Nat.and_one_is_mod]
  unfold UINT32
  omega

theorem HCFS_bits (i : Nat) : HCFS.testBit i = true ↔ (i = 6 ∨ i = 7) := by
  have e : HCFS = 192 := by decide
  rw [e]
  by_cases hi : i < 8
  · interval_cases i <;> simp [Nat.testBit]
  · have h8 : (192 : Nat) < 2 ^ i :=
      lt_of_lt_of_le (by decide : (192 : Nat) < 2 ^ 8) (Nat.pow_le_pow_right (by decide) (by omega))
    rw [Nat.testBit_lt_two_pow h8]
    constructor
    · intro h; cases h
    · intro h; omega

theorem HCFS_value (v : Nat) : (v &&& HCFS) >>> 6 < 4 := by
  have e : HCFS = 192 := by decide
  have := @Nat.and_le_right v 192
  rw [e, Nat.shiftRight_eq_div_pow]
  omega

/-! ## Properties of the specification -/

/-- C1, as stated, fails, in three ways.  An ED whose `mps` does not fit the
eleven bits of the MPS field is read back with `mps = 0` after a writeback
(the twelfth bit lands in bit 27 of word 0).
An ED whose raw copy `word0` disagrees with its decoded fields is read back
with the rebuilt word in `word0`.  And at an address whose bytes are not all
inside the mapped range (here the 16 bytes from 0xfff8 on a bus mapped up to
0xffff) the writeback of `sampleED`, a record as the reader returns it, ends
in a `BusFault`. -/
theorem descriptor_roundtrip_fails :
    ((usb_ohci_writeback_endpoint_descriptor zeroBus 0 oversizedED >>= fun s =>
          usb_ohci_read_endpoint_descriptor s 0)
        = Except.ok { oversizedED with mps := 0, word0 := 0x08000000 }
      ∧ ({ oversizedED with mps := 0, word0 := 0x08000000 } : OHCIEndpointDescriptor)
          ≠ oversizedED)
    ∧ ((usb_ohci_writeback_endpoint_descriptor zeroBus 0 staleED >>= fun s =>
          usb_ohci_read_endpoint_descriptor s 0) = Except.ok { staleED with word0 := 1 }
      ∧ ({ staleED with word0 := 1 } : OHCIEndpointDescriptor) ≠ staleED)
    ∧ (sampleED.wf
      ∧ usb_ohci_writeback_endpoint_descriptor smallBus 0xfff8 sampleED
          = Except.error BusFault.fault) := by
  refine ⟨⟨?_, by decide⟩, ⟨?_, by decide⟩, by decide, ?_⟩
  · rw [ed_write_read zeroBus 0 oversizedED (by decide)]
    exact congrArg Except.ok (by decide)
  · rw [ed_write_read zeroBus 0 staleED (by decide)]
    exact congrArg Except.ok (by decide)
  · exact ed_write_fault smallBus 0xfff8 sampleED (by decide)

/-- C1 (amended): for every bus, every address and every ED, TD and ITD
record.  When the bytes of the descriptor (16 for an ED or TD, 32 for an ITD)
are inside the mapped range, writing the record back and reading it from the
same address yields, for a record whose fields fit their bit fields (`fits`),
a record equal in all fields, the halted and toggleCarry bits of `HeadP`
included, except that the raw copies `word0` (and `word1` of an ITD) hold the
words that were written; and it yields the record itself if and only if the
fields of the record agree with its raw copies (`wf`).  When not all of these
bytes are inside the mapped range the writeback ends in a `BusFault`. -/
theorem descriptor_roundtrip (space : Bus) (address : Nat)
    (ed : OHCIEndpointDescriptor) (td : OHCITransferDescriptor)
    (itd : OHCIIsochronousTransferDescriptor) :
    (space.maps address 16 →
      (ed.fits →
        (usb_ohci_writeback_endpoint_descriptor space address ed >>= fun s =>
            usb_ohci_read_endpoint_descriptor s address)
          = Except.ok { ed with word0 := endpoint_descriptor_word0 ed })
      ∧ ((usb_ohci_writeback_endpoint_descriptor space address ed >>= fun s =>
            usb_ohci_read_endpoint_descriptor s address) = Except.ok ed ↔ ed.wf)
      ∧ (td.fits →
        (usb_ohci_writeback_transfer_descriptor space address td >>= fun s =>
            usb_ohci_read_transfer_descriptor s address)
          = Except.ok { td with word0 := transfer_descriptor_word0 td })
      ∧ ((usb_ohci_writeback_transfer_descriptor space address td >>= fun s =>
            usb_ohci_read_transfer_descriptor s address) = Except.ok td ↔ td.wf))
    ∧ (space.maps address 32 →
      (itd.fits →
        (usb_ohci_writeback_isochronous_transfer_descriptor space address itd >>= fun s =>
            usb_ohci_read_isochronous_transfer_descriptor s address)
          = Except.ok { itd with word0 := isochronous_transfer_descriptor_word0 itd
                                 word1 := isochronous_transfer_descriptor_word1 itd })
      ∧ ((usb_ohci_writeback_isochronous_transfer_descriptor space address itd >>= fun s =>
            usb_ohci_read_isochronous_transfer_descriptor s address) = Except.ok itd
          ↔ itd.wf))
    ∧ (¬ space.maps address 16 →
      usb_ohci_writeback_endpoint_descriptor space address ed = Except.error BusFault.fault
      ∧ usb_ohci_writeback_transfer_descriptor space address td
          = Except.error BusFault.fault)
    ∧ (¬ space.maps address 32 →
      usb_ohci_writeback_isochronous_transfer_descriptor space address itd
        = Except.error BusFault.fault) :=
  ⟨fun h => ⟨(ed_roundtrip space address ed h).1, (ed_roundtrip space address ed h).2,
      (td_roundtrip space address td h).1, (td_roundtrip space address td h).2⟩,
    fun h => itd_roundtrip space address itd h,
    fun h => ⟨ed_write_fault space address ed h, td_write_fault space address td h⟩,
    fun h => itd_write_fault space address itd h⟩

/-- C2: for every register file, a write to `HcCommandStatus` with `HCR` set
leaves every register at its power-on value with `HCR` cleared (so exactly the
power-on image when that image is 32 bits wide with `HCR` clear), and the same
write done a second time changes nothing. -/
theorem HCR_reset_idempotent (cfg : ohci_config) (st : ohcist_t) (data : Nat)
    (h : data &&& HCR ≠ 0) :
    (∀ i, i ≠ HcCommandStatus → read (write cfg st HcCommandStatus data) i = cfg.poweron i)
    ∧ read (write cfg st HcCommandStatus data) HcCommandStatus
        = cfg.poweron HcCommandStatus &&& not32 HCR
    ∧ read (write cfg st HcCommandStatus data) HcCommandStatus &&& HCR = 0
    ∧ (cfg.poweron HcCommandStatus < 2 ^ 32 → cfg.poweron HcCommandStatus &&& HCR = 0 →
        ∀ i, read (write cfg st HcCommandStatus data) i = cfg.poweron i)
    ∧ write cfg (write cfg st HcCommandStatus data) HcCommandStatus data
        = write cfg st HcCommandStatus data := by
  have hd : UINT32 data &&& HCR ≠ 0 := by rw [UINT32_and_HCR]; exact h
  have hw : ∀ s : ohcist_t, write cfg s HcCommandStatus data
      = { hc_regs := set_reg cfg.poweron HcCommandStatus
            (cfg.poweron HcCommandStatus &&& not32 HCR)
          ports_delay := s.ports_delay } := by
    intro s
    unfold write
    simp only [hd, if_true, ne_eq, not_false_eq_true, device_reset]
  have hother : ∀ i, i ≠ HcCommandStatus →
      read (write cfg st HcCommandStatus data) i = cfg.poweron i := by
    intro i hi
    rw [hw]
    simp only [read, set_reg, hi, if_false]
  have hself : read (write cfg st HcCommandStatus data) HcCommandStatus
      = cfg.poweron HcCommandStatus &&& not32 HCR := by
    rw [hw]
    simp only [read, set_reg, if_true]
  refine ⟨hother, hself, ?_, ?_, ?_⟩
  · rw [hself]
    have e : not32 HCR &&& HCR = 0 := by decide
    rw [Nat.and_assoc, e, Nat.and_zero]
  · intro h32 h0 i
    by_cases hi : i = HcCommandStatus
    · rw [hi, hself, and_not32_HCR _ h32 h0]
    · exact hother i hi
  · rw [hw, hw]

/-- C2 at a concrete register file: after the write of `HCR` to a file with
all bits set, `HcFmInterval` and `HcControl` read their power-on values,
`HcCommandStatus` reads 0 and the second write changes nothing. -/
theorem HCR_reset_idempotent_witness :
    (1 &&& HCR ≠ 0)
    ∧ read (write sampleConfig allOnes HcCommandStatus 1) HcFmInterval = 0x2edf
    ∧ read (write sampleConfig allOnes HcCommandStatus 1) HcControl = 0
    ∧ read (write sampleConfig allOnes HcCommandStatus 1) HcCommandStatus = 0
    ∧ write sampleConfig (write sampleConfig allOnes HcCommandStatus 1) HcCommandStatus 1
        = write sampleConfig allOnes HcCommandStatus 1 :=
  ⟨by decide,
    (HCR_reset_idempotent sampleConfig allOnes 1 (by decide)).1 HcFmInterval (by decide),
    (HCR_reset_idempotent sampleConfig allOnes 1 (by decide)).1 HcControl (by decide),
    (HCR_reset_idempotent sampleConfig allOnes 1 (by decide)).2.1,
    (HCR_reset_idempotent sampleConfig allOnes 1 (by decide)).2.2.2.2⟩

/-- C3: for every port `n` of the four and every register file in which
`PRSC` of `HcRhPortStatus[n]` is set, a write to that register with bit 20 set
clears `PRSC` and a write with bit 20 clear leaves `PRSC` set. -/
theorem PRSC_write_one_to_clear (cfg : ohci_config) (st : ohcist_t) (n data : Nat)
    (h1 : 1 ≤ n) (h4 : n ≤ 4) (hset : read st (portStatusIndex n) &&& PRSC ≠ 0) :
    (data &&& PRSC ≠ 0 →
        read (write cfg st (portStatusIndex n) data) (portStatusIndex n) &&& PRSC = 0)
    ∧ (data &&& PRSC = 0 →
        read (write cfg st (portStatusIndex n) data) (portStatusIndex n) &&& PRSC ≠ 0) := by
  rw [and_PRSC_ne_zero] at hset
  obtain ⟨b1, b2⟩ := port_write_bit20 (read st (portStatusIndex n)) (UINT32 data)
  rw [UINT32_testBit_20] at b1 b2
  rw [read_write_port cfg st n data h1 h4]
  constructor
  · intro hd
    rw [and_PRSC_ne_zero] at hd
    rw [and_PRSC_eq_zero]
    split
    · rw [b2, hset, hd]; rfl
    · rw [b1, hset, hd]; rfl
  · intro hd
    rw [and_PRSC_eq_zero] at hd
    rw [and_PRSC_ne_zero]
    split
    · rw [b2, hset, hd]; rfl
    · rw [b1, hset, hd]; rfl

/-- C3 at port 2 of a register file with all bits set: writing `PRSC` clears
the bit, writing 0 leaves it set. -/
theorem PRSC_write_one_to_clear_witness :
    (1 ≤ 2 ∧ 2 ≤ 4 ∧ read allOnes (portStatusIndex 2) &&& PRSC ≠ 0)
    ∧ read (write sampleConfig allOnes (portStatusIndex 2) PRSC) (portStatusIndex 2)
        &&& PRSC = 0
    ∧ read (write sampleConfig allOnes (portStatusIndex 2) 0) (portStatusIndex 2)
        &&& PRSC ≠ 0 :=
  ⟨by decide,
    (PRSC_write_one_to_clear sampleConfig allOnes 2 PRSC (by decide) (by decide)
      (by decide)).1 (by decide),
    (PRSC_write_one_to_clear sampleConfig allOnes 2 0 (by decide) (by decide)
      (by decide)).2 (by decide)⟩

/-- C4: for each of the 21 registers from `HcRevision` to `HcRhStatus`, four
times the word index is the byte offset the register map of the spec gives for
the register of that name, and the 21 indices are 0..20 in the order listed. -/
theorem register_map_offsets :
    (OHCIRegisters.take 21).map (fun e => (byteOffset e.2, e.1))
      = specRegisterMap.map (fun e => (e.1, "Hc" ++ e.2))
    ∧ (OHCIRegisters.take 21).map Prod.snd = List.range 21
    ∧ OHCIRegisters.length = 22 := by
  decide

/-- C5, as stated, fails: the status register of port 1 lies at byte offset
0x54, not at 0x54 + 4, and for each of the four ports the offset differs from
0x54 + 4n. -/
theorem port_status_offset_fails :
    byteOffset (portStatusIndex 1) = 0x54
    ∧ byteOffset (portStatusIndex 1) ≠ specPortStatusOffset 1
    ∧ ∀ n ∈ [1, 2, 3, 4], byteOffset (portStatusIndex n) ≠ specPortStatusOffset n := by
  decide

/-- C5 (amended): for every port number `n` in 1..4, the status register of
port `n`, whose word index is `HcRhPortStatus1 + (n - 1)`, lies at byte offset
0x54 + 4(n - 1), which is 0x50 + 4n. -/
theorem port_status_offset (n : Nat) (h1 : 1 ≤ n) (h4 : n ≤ 4) :
    byteOffset (portStatusIndex n) = 0x54 + 4 * (n - 1)
    ∧ byteOffset (portStatusIndex n) = 0x50 + 4 * n := by
  have e : HcRhPortStatus1 = 21 := by decide
  unfold byteOffset portStatusIndex
  rw [e]
  omega

/-- C5 (amended) at port 4, the last one: byte offset 0x60. -/
theorem port_status_offset_witness :
    (1 ≤ 4 ∧ 4 ≤ 4) ∧ byteOffset (portStatusIndex 4) = 0x54 + 4 * (4 - 1)
    ∧ byteOffset (portStatusIndex 4) = 0x50 + 4 * 4 :=
  ⟨by decide, port_status_offset 4 (by decide) (by decide)⟩

/-- C6: `OHCICompletionCode` has exactly the thirteen codes the spec names,
with the values 0..9, 12, 13, 14; the values are pairwise distinct, each is
below 16, and each is read back from the 4-bit CC field (bits 28-31) of word 0
of a TD or ITD. -/
theorem completion_codes :
    OHCICompletionCode =
      [("NoError", 0), ("CRC", 1), ("BitStuffing", 2), ("DataToggleMismatch", 3), ("Stall", 4),
       ("DeviceNotResponding", 5), ("PIDCheckFailure", 6), ("UnexpectedPID", 7),
       ("DataOverrun", 8), ("DataUnderrun", 9), ("BufferOverrun", 12), ("BufferUnderrun", 13),
       ("NotAccessed", 14)]
    ∧ OHCICompletionCode.map Prod.fst = specErrorTaxonomy
    ∧ OHCICompletionCode.length = 13
    ∧ (OHCICompletionCode.map Prod.snd).Nodup
    ∧ (∀ c ∈ OHCICompletionCode, c.2 < 16)
    ∧ (∀ c ∈ OHCICompletionCode, (UINT32 (c.2 <<< 28) >>> 28) &&& 15 = c.2) := by
  decide

/-- C7: the `HCFS` mask covers exactly bits 6 and 7 of `HcControl`, overlaps
none of `CBSR`, `PLE`, `IE`, `CLE`, `BLE`, `IR`, `RWC`, `RWE`, and for every
value `v` the field `(v & HCFS) >> 6` is one of `UsbReset = 0`,
`UsbResume = 1`, `UsbOperational = 2`, `UsbSuspend = 3` (four distinct values,
each of which is taken). -/
theorem HCFS_functional_state :
    (∀ i, HCFS.testBit i = true ↔ (i = 6 ∨ i = 7))
    ∧ (HCFS &&& CBSR = 0 ∧ HCFS &&& PLE = 0 ∧ HCFS &&& IE = 0 ∧ HCFS &&& CLE = 0
        ∧ HCFS &&& BLE = 0 ∧ HCFS &&& IR = 0 ∧ HCFS &&& RWC = 0 ∧ HCFS &&& RWE = 0)
    ∧ [UsbReset, UsbResume, UsbOperational, UsbSuspend] = [0, 1, 2, 3]
    ∧ (∀ v, (v &&& HCFS) >>> 6 ∈ [UsbReset, UsbResume, UsbOperational, UsbSuspend])
    ∧ (∀ s ∈ [UsbReset, UsbResume, UsbOperational, UsbSuspend],
        ((s <<< 6) &&& HCFS) >>> 6 = s) := by
  refine ⟨HCFS_bits, by decide, by decide, ?_, by decide⟩
  intro v
  have h := HCFS_value v
  have e : [UsbReset, UsbResume, UsbOperational, UsbSuspend] = [0, 1, 2, 3] := by decide
  rw [e]
  generalize (v &&& HCFS) >>> 6 = x at h
  interval_cases x <;> simp

/-- C8: each of the five port change bits is its status bit shifted left by
16 (`CSC = CCS << 16`, ..., `PRSC = PRS << 16`), and no change bit coincides
with, or shares a bit with, any of `CCS`, `PES`, `PSS`, `POCI`, `PRS`, `PPS`,
`LSDA`. -/
theorem change_bits_above_status :
    (CSC = CCS <<< 16 ∧ PESC = PES <<< 16 ∧ PSSC = PSS <<< 16 ∧ POCIC = POCI <<< 16
      ∧ PRSC = PRS <<< 16)
    ∧ (∀ c ∈ [CSC, PESC, PSSC, POCIC, PRSC], ∀ s ∈ [CCS, PES, PSS, POCI, PRS, PPS, LSDA],
        c ≠ s ∧ c &&& s = 0) := by
  decide

/-- C9: the declared field widths total 18 bytes for the device descriptor, 9
for the configuration descriptor, 9 for the interface descriptor and 7 for the
endpoint descriptor, and each of the four records begins with the one-byte
fields `bLength` and `bDescriptorType`. -/
theorem standard_descriptor_widths :
    fieldWidthTotal USBStandardDeviceDescriptor = 18
    ∧ fieldWidthTotal USBStandardConfigurationDescriptor = 9
    ∧ fieldWidthTotal USBStandardInterfaceDescriptor = 9
    ∧ fieldWidthTotal USBStandardEndpointDescriptor = 7
    ∧ (∀ s ∈ [USBStandardDeviceDescriptor, USBStandardConfigurationDescriptor,
          USBStandardInterfaceDescriptor, USBStandardEndpointDescriptor],
        s.take 2 = [("bLength", CType.UINT8), ("bDescriptorType", CType.UINT8)]) := by
  decide

/-- C10: `USBSetupPacket` is 8 bytes: `bmRequestType` (1 byte at 0),
`bRequest` (1 at 1), `wValue` (2 at 2), `wIndex` (2 at 4), `wLength` (2 at 6),
in that order; no field overlaps another, and the natural alignment of the
fields adds no padding. -/
theorem setup_packet_layout :
    fieldRanges USBSetupPacket 0
      = [("bmRequestType", 0, 1), ("bRequest", 1, 1), ("wValue", 2, 2), ("wIndex", 4, 2),
         ("wLength", 6, 2)]
    ∧ fieldWidthTotal USBSetupPacket = 8
    ∧ (fieldRanges USBSetupPacket 0).Pairwise rangeBefore
    ∧ alignedRanges USBSetupPacket 0 = fieldRanges USBSetupPacket 0 := by
  decide


/-- C11: for every endpoint number and every setup packet the base-class
`handle_nonstandard_request` returns a negative result (-1) and leaves the
device as it is, so a request forwarded to it ends in a stall. -/
theorem handle_nonstandard_request_negative (dev : ohci_function_device) (endpoint : Int)
    (setup : USBSetupPacket_value) :
    (handle_nonstandard_request dev endpoint setup).1 = -1
    ∧ (handle_nonstandard_request dev endpoint setup).1 < 0
    ∧ (handle_nonstandard_request dev endpoint setup).2 = dev
    ∧ forwarded_request_completion (handle_nonstandard_request dev endpoint setup).1
        = some Stall := by
  refine ⟨rfl, ?_, rfl, rfl⟩
  show (-1 : Int) < 0
  decide

/-- C12: for every endpoint, pid, buffer and size the base-class
`handle_bulk_pid`, `handle_interrupt_pid` and `handle_isochronous_pid` return 0
and leave the buffer contents and the device state unchanged. -/
theorem default_pid_handlers_noop (dev : ohci_function_device) (endpoint pid : Int)
    (buffer : List Nat) (size : Int) :
    handle_bulk_pid dev endpoint pid buffer size
        = { result := 0, buffer := buffer, device := dev }
    ∧ handle_interrupt_pid dev endpoint pid buffer size
        = { result := 0, buffer := buffer, device := dev }
    ∧ handle_isochronous_pid dev endpoint pid buffer size
        = { result := 0, buffer := buffer, device := dev } :=
  ⟨rfl, rfl, rfl⟩

end xbox_usb


namespace vgmplay

/-! ## The control flow of `execute_step` -/

theorem UINT8_lt (x : Nat) : UINT8 x < 256 := Nat.mod_lt _ (by decide)

theorem file_r_lt (f : List Nat) (offset : Nat) : file_r f offset < 256 := by
  unfold file_r
  split
  · exact UINT8_lt _
  · decide

theorem read_byte_lt (f : List Nat) (a : Nat) : read_byte f a < 256 := file_r_lt f _

theorem handle_data_block_length (f : List Nat) (d : vgmplay_device) :
    (handle_data_block f d).2 = 7 + (read_dword f (d.m_pc + 3) &&& 0x7fffffff) := rfl

theorem handle_data_block_control (f : List Nat) (d : vgmplay_device) :
    (handle_data_block f d).1.m_state = d.m_state
      ∧ (handle_data_block f d).1.m_icount = d.m_icount := by
  unfold handle_data_block
  simp only
  split_ifs <;> exact ⟨rfl, rfl⟩

theorem execute_command_control (f : List Nat) (d : vgmplay_device) (code : Nat)
    (hs : d.m_state = .RUN) (hcode : code < 256) :
    control (execute_command f d code) = control_command f d.m_pc d.m_icount code := by
  obtain ⟨h1, h2⟩ := handle_data_block_control f d
  have h3 := handle_data_block_length f d
  interval_cases code <;>
    simp [execute_command, control_command, command_info, control, io_write_byte,
      io16_write_word, hs, h1, h2, h3, loop_target] <;>
    split_ifs <;> simp_all

/-- State, program counter and cycle count after a pass of the loop are the
ones `control_step` gives. -/
theorem execute_step_control (f : List Nat) (d : vgmplay_device) :
    control (execute_step f d) = control_step f (control d) := by
  cases hs : d.m_state
  · simp only [execute_step, control, control_step, hs]
    split_ifs <;> rfl
  · have h := execute_command_control f d (read_byte f d.m_pc) hs (read_byte_lt f _)
    simp only [execute_step, hs, control, control_step] at h ⊢
    exact h
  · simp only [execute_step, control, control_step, hs]

theorem control_iterate (f : List Nat) (n : Nat) (d : vgmplay_device) :
    control ((execute_step f)^[n] d) = (control_step f)^[n] (control d) := by
  induction n generalizing d with
  | zero => rfl
  | succ n ih => rw [Function.iterate_succ_apply, Function.iterate_succ_apply, ih,
      execute_step_control]

end vgmplay

namespace vgmplay

/-! ## Termination of `execute_run` -/

theorem vgm_UINT32_of_lt {x : Nat} (h : x < 2 ^ 32) : UINT32 x = x := Nat.mod_eq_of_lt h

end vgmplay

namespace vgmplay

/-! ## Start address, ROM blocks and command lengths -/

theorem vgm_read_dword_lt (f : List Nat) (a : Nat) : read_dword f a < 2 ^ 32 := by
  unfold read_dword
  have h0 := read_byte_lt f a
  have h1 := read_byte_lt f (a + 1)
  have h2 := read_byte_lt f (a + 2)
  have h3 := read_byte_lt f (a + 3)
  refine Nat.or_lt_two_pow (Nat.or_lt_two_pow (Nat.or_lt_two_pow ?_ ?_) ?_) ?_
  · omega
  · rw [Nat.shiftLeft_eq]; omega
  · rw [Nat.shiftLeft_eq]; omega
  · rw [Nat.shiftLeft_eq]; omega

/-- Inside the file `r32` and `m_file->read_dword` read the same dword. -/
theorem r32_eq_read_dword (f : List Nat) (off : Nat) (h : off + 3 < f.length)
    (h32 : off + 3 < 2 ^ 32) : r32 f off = read_dword f off := by
  have e := vgm_read_dword_lt f off
  have e0 : UINT32 off = off := vgm_UINT32_of_lt (by omega)
  have e1 : UINT32 (off + 1) = off + 1 := vgm_UINT32_of_lt (by omega)
  have e2 : UINT32 (off + 2) = off + 2 := vgm_UINT32_of_lt (by omega)
  have e3 : UINT32 (off + 3) = off + 3 := vgm_UINT32_of_lt (by omega)
  unfold read_dword read_byte at e ⊢
  rw [e0, e1, e2, e3] at e ⊢
  unfold r32
  rw [if_pos h, vgm_UINT32_of_lt e]

/-- The start address of `execute_run` and the `data_start` of
`machine_start` agree when the version is below 1.50 or the data offset field
is not 0. -/
theorem start_agrees_unless_zero_offset (f : List Nat) (d : vgmplay_device)
    (hlen : 0x40 ≤ f.length) (hlen32 : f.length < 2 ^ 32) (hmagic : r32 f 0 = 0x206d6756)
    (hs : d.m_state = .RESET) (h : read_dword f 8 < 0x150 ∨ read_dword f 0x34 ≠ 0) :
    machine_start_data_start f = some (execute_step f d).m_pc := by
  have e8 : r32 f 8 = read_dword f 8 := r32_eq_read_dword f 8 (by omega) (by omega)
  have e34 : r32 f 0x34 = read_dword f 0x34 := r32_eq_read_dword f 0x34 (by omega) (by omega)
  have hsz : read_REG_SIZE f ≠ 0 := by
    unfold read_REG_SIZE file_size_r UINT8
    rw [vgm_UINT32_of_lt hlen32]
    intro h0
    have h1 : ∀ i, i < 32 → (f.length).testBit i = false := by
      intro i hi
      have := congrArg (fun x => Nat.testBit x i) h0
      simp only [Nat.testBit_or, Nat.testBit_shiftLeft, Nat.testBit_mod_two_pow,
        Nat.testBit_shiftRight, Nat.zero_testBit] at this
      interval_cases i <;> simp_all
    have h2 : f.length = 0 := by
      apply Nat.eq_of_testBit_eq
      intro i
      rw [Nat.zero_testBit]
      by_cases hi : i < 32
      · exact h1 i hi
      · exact Nat.testBit_lt_two_pow
          (lt_of_lt_of_le hlen32 (Nat.pow_le_pow_right (by decide) (by omega)))
    omega
  unfold machine_start_data_start
  rw [if_neg (by simp [hmagic]; omega)]
  simp only [execute_step, hs, hsz, if_false, e8, e34, Nat.add_comm 0x34]
  by_cases hv : read_dword f 8 < 0x150
  · have hv1 : read_dword f 8 < 0x151 := by omega
    have hv2 : ¬ read_dword f 8 ≥ 0x150 := by omega
    simp [hv, hv1, hv2]
  · have hv2 : read_dword f 8 ≥ 0x150 := by omega
    have h0 : read_dword f 0x34 ≠ 0 := by
      rcases h with h | h
      · exact absurd h hv
      · exact h
    simp [hv, hv2, h0]

/-- For a ROM block recorded with a size field of 9 or more, or with a start
address other than 0, every offset `rom_r` accepts indexes a byte inside the
`size - 8` bytes allocated for the block. -/
theorem rom_block_index_in_bounds (start size offset : Nat) (hstart : start < 2 ^ 32)
    (hsize : 8 ≤ size) (hsz : size ≤ 0x7fffffff) (hne : size ≠ 8 ∨ start ≠ 0)
    (hacc : offset ≥ start ∧ offset ≤ UINT32 (start + size + 2 ^ 32 - 9)) :
    offset - start < UINT32 (size + 2 ^ 32 - 8) := by
  unfold UINT32 at *
  omega

/-- For an offset that no block of the list covers `rom_r` returns 0. -/
theorem rom_r_blocks_uncovered (blocks : List rom_block) (offset : Nat)
    (h : ∀ b ∈ blocks, ¬(offset ≥ b.start_address ∧ offset ≤ b.end_address)) :
    rom_r_blocks blocks offset = some 0 := by
  induction blocks with
  | nil => rfl
  | cons b rest ih =>
    unfold rom_r_blocks
    rw [if_neg (h b (List.mem_cons_self _ _))]
    exact ih fun b' hb' => h b' (List.mem_cons_of_mem _ hb')

/-- C16: the code departs from the claim at `zeroOffsetFile` (version 1.50,
data offset field 0): `machine_start` computes `data_start = 0x40`, while the
`RESET` state of `execute_run` sets `m_pc = 0x34`. -/
theorem start_address_zero_offset :
    machine_start_data_start zeroOffsetFile = some 0x40
    ∧ (execute_step zeroOffsetFile (device_reset 1)).m_state = .RUN
    ∧ (execute_step zeroOffsetFile (device_reset 1)).m_pc = 0x34 := by
  decide

/-- C17: the code departs from the claim at `emptyRomFile`: the data block
with size field 8 and start address 0 is recorded with `end_address =
0xffffffff` and 0 bytes of data, and `rom_r(0, 0x80, 0)` accepts offset 0 for
it and reads `data[0]`, outside the allocation. -/
theorem rom_r_reads_outside_empty_block :
    ((execute_step emptyRomFile (execute_step emptyRomFile (device_reset 1))).m_rom_blocks 0 0).map
        (fun b => (b.start_address, b.end_address, b.data_size)) = [(0, 0xffffffff, 0)]
    ∧ rom_r (execute_step emptyRomFile (execute_step emptyRomFile (device_reset 1))) 0 0x80 0
        = none := by
  decide

end vgmplay

namespace vgmplay

/-! ## Command lengths of `execute_run` and of the disassembler -/

end vgmplay

namespace vgmplay

/-! ## The MultiPCM bank registers -/

/-- The high byte stored at bits 16-23 does not survive the mask `0xff00`
of the low-byte handler. -/
theorem bank_hi_then_lo (bank aa bb : Nat) :
    UINT32 ((UINT32 ((bank &&& 0xff) ||| (UINT8 aa <<< 16)) &&& 0xff00) ||| UINT8 bb)
      = UINT8 bb := by
  have hb : UINT8 bb < 2 ^ 8 := Nat.mod_lt _ (by decide)
  have hz : UINT32 ((bank &&& 0xff) ||| (UINT8 aa <<< 16)) &&& 0xff00 = 0 := by
    apply Nat.eq_of_testBit_eq
    intro i
    have e1 : (0xff00 : Nat) = (2 ^ 8 - 1) <<< 8 := by decide
    have e2 : (0xff : Nat) = 2 ^ 8 - 1 := by decide
    rw [e1, e2]
    simp only [UINT32, Nat.testBit_and, Nat.testBit_or, Nat.testBit_shiftLeft,
      Nat.testBit_mod_two_pow, Nat.testBit_two_pow_sub_one, Nat.zero_testBit]
    by_cases h8 : i < 8
    · have : ¬ i ≥ 8 := by omega
      simp [this]
    · by_cases h16 : i < 16
      · have : ¬ i ≥ 16 := by omega
        simp [this, h8]
      · have : ¬ i - 8 < 8 := by omega
        simp [this]
  rw [hz, Nat.zero_or]
  exact Nat.mod_eq_of_lt (lt_of_lt_of_le hb (by decide))

/-- After `multipcm_bank_hi_a_w` and `multipcm_bank_lo_a_w` with an offset
that selects the left channel, the left bank register of chip A holds the low
byte only, whatever the high byte and the bank before. -/
theorem multipcma_bank_l_after (st : vgmplay_state) (offset aa bb : Nat)
    (h : offset &&& 1 ≠ 0) :
    (multipcm_bank_lo_a_w (multipcm_bank_hi_a_w st offset aa) offset bb).m_multipcma_bank_l
      = UINT8 bb := by
  unfold multipcm_bank_lo_a_w multipcm_bank_hi_a_w
  simp only [h, ne_eq, not_false_eq_true, if_true]
  split_ifs <;> exact bank_hi_then_lo _ _ _

/-- C19: the code departs from the claim at the command `0xc3 0x01 0x34 0x12`
(left channel of chip A, bank 0x1234 as the disassembler prints it): the
writes the command makes are routed to `multipcm_bank_hi_a_w(1, 0x12)` and
`multipcm_bank_lo_a_w(1, 0x34)`, after which `m_multipcma_bank_l` is 0x34; the
same happens for the right channel and for chip B. -/
theorem multipcm_bank_high_byte_lost :
    (execute_step bankFile atCommand).io = [(A_MULTIPCMA + 5, 0x12), (A_MULTIPCMA + 9, 0x34)]
    ∧ disasm_multipcm_bank (oprom_at bankFile 0x40) = ((0x12 <<< 8) ||| 0x34)
    ∧ ((execute_step bankFile atCommand).io.foldl
        (fun st w => soundchips_map_bank_write st w.1 w.2) zeroBanks).m_multipcma_bank_l = 0x34
    ∧ (multipcm_bank_lo_a_w (multipcm_bank_hi_a_w zeroBanks 1 0x12) 1 0x34).m_multipcma_bank_l
        = 0x34
    ∧ (multipcm_bank_lo_a_w (multipcm_bank_hi_a_w zeroBanks 2 0x12) 2 0x34).m_multipcma_bank_r
        = 0x34
    ∧ (multipcm_bank_lo_b_w (multipcm_bank_hi_b_w zeroBanks 1 0x12) 1 0x34).m_multipcmb_bank_l
        = 0x34
    ∧ (multipcm_bank_lo_b_w (multipcm_bank_hi_b_w zeroBanks 2 0x12) 2 0x34).m_multipcmb_bank_r
        = 0x34
    ∧ ((0x12 <<< 8) ||| 0x34) ≠ 0x34 := by
  decide

end vgmplay

namespace config

/-! ## `load_xml`: which system nodes a controller file contributes -/

theorem strrchr_eq_none (l : List Char) (c : Char) : strrchr l c = none ↔ c ∉ l := by
  induction l with
  | nil => simp [strrchr]
  | cons x xs ih =>
    unfold strrchr
    cases h : strrchr xs c with
    | some r =>
      have hmem : c ∈ xs := by
        by_contra hc
        rw [ih.mpr hc] at h
        cases h
      simp [hmem]
    | none =>
      have hxs : c ∉ xs := ih.mp h
      by_cases hx : x = c
      · simp [hx]
      · have hx2 : ¬ c = x := fun e => hx e.symm
        simp [hx, hx2, hxs]

/-- The function `strrchr` finds the last occurrence: the result starts with
the character, ends the string and has no further occurrence. -/
theorem strrchr_eq_some (l : List Char) (c : Char) (b : List Char) :
    strrchr l c = some (c :: b) ↔ (c ∉ b ∧ (c :: b) <:+ l) := by
  induction l with
  | nil => simp [strrchr]
  | cons x xs ih =>
    unfold strrchr
    cases h : strrchr xs c with
    | some r =>
      have hmem : c ∈ xs := by
        by_contra hc
        rw [(strrchr_eq_none xs c).mpr hc] at h
        cases h
      simp only [Option.some.injEq]
      constructor
      · intro hr
        subst hr
        have h2 := ih.mp h
        exact ⟨h2.1, h2.2.trans (List.suffix_cons x xs)⟩
      · rintro ⟨hb, hsuf⟩
        rcases List.suffix_cons_iff.mp hsuf with heq | hsuf2
        · exfalso
          injection heq with h1 h2
          exact hb (h2 ▸ hmem)
        · have h3 := ih.mpr ⟨hb, hsuf2⟩
          rw [h] at h3
          exact Option.some.inj h3
    | none =>
      have hxs : c ∉ xs := (strrchr_eq_none xs c).mp h
      simp only
      constructor
      · intro hr
        split_ifs at hr with hx
        · injection hr with hr
          injection hr with h1 h2
          subst h2
          exact ⟨hxs, by rw [h1]⟩
      · rintro ⟨hb, hsuf⟩
        rcases List.suffix_cons_iff.mp hsuf with heq | hsuf2
        · injection heq with h1 h2
          subst h2
          simp [h1]
        · exfalso
          exact hxs (hsuf2.subset (List.mem_cons_self c b))

theorem strrchr_head (l : List Char) (c : Char) (r : List Char) (h : strrchr l c = some r) :
    r = c :: r.tail := by
  induction l with
  | nil => simp [strrchr] at h
  | cons x xs ih =>
    unfold strrchr at h
    cases h2 : strrchr xs c with
    | some r2 =>
      rw [h2] at h
      simp only [Option.some.injEq] at h
      subst h
      exact ih h2
    | none =>
      rw [h2] at h
      simp only at h
      split_ifs at h with hx
      injection h with h
      subst h
      simp [hx]

/-- The file name behind the last `/` of a path. -/
theorem srcfile_after_slash (dir file : List Char) (h : '/' ∉ file) :
    srcfile (String.mk (dir ++ '/' :: file)) = String.mk file := by
  have hdir : strrchr (dir ++ '/' :: file) '/' = some ('/' :: file) :=
    (strrchr_eq_some _ _ _).mpr ⟨h, List.suffix_append dir _⟩
  unfold srcfile
  simp [hdir]

/-- What follows the last occurrence of the separator `c`, when the path has
one. -/
theorem basename_after (path base : String) (c : Char) (hc : c ∈ path.data) :
    (c ∉ base.data ∧ (c :: base.data) <:+ path.data)
      ↔ base = (match strrchr path.data c with
                | some r => String.mk r.tail
                | none => path) := by
  cases h : strrchr path.data c with
  | none => exact absurd hc ((strrchr_eq_none _ _).mp h)
  | some r =>
    have hr := strrchr_head _ _ _ h
    simp only
    rw [← strrchr_eq_some, h]
    constructor
    · intro e
      have e2 : r = c :: base.data := Option.some.inj e
      rw [e2]
      rfl
    · intro e
      rw [hr, e]

/-- The local `srcfile` of `load_xml` is the basename of the source file. -/
theorem is_basename_iff_srcfile (path base : String) :
    is_basename path base ↔ base = srcfile path := by
  unfold is_basename path_separator srcfile
  have hl : path.toList = path.data := rfl
  rw [hl]
  by_cases h1 : '/' ∈ path.data
  · have := basename_after path base '/' h1
    cases h : strrchr path.data '/' with
    | none => exact absurd h1 ((strrchr_eq_none _ _).mp h)
    | some r =>
      rw [h] at this
      simpa [h1] using this
  · have e1 := (strrchr_eq_none _ _).mpr h1
    by_cases h2 : '\\' ∈ path.data
    · have := basename_after path base '\\' h2
      cases h : strrchr path.data '\\' with
      | none => exact absurd h2 ((strrchr_eq_none _ _).mp h)
      | some r =>
        rw [h] at this
        simpa [h1, h2, e1, h] using this
    · have e2 := (strrchr_eq_none _ _).mpr h2
      by_cases h3 : ':' ∈ path.data
      · have := basename_after path base ':' h3
        cases h : strrchr path.data ':' with
        | none => exact absurd h3 ((strrchr_eq_none _ _).mp h)
        | some r =>
          rw [h] at this
          simpa [h1, h2, h3, e1, e2, h] using this
      · have e3 := (strrchr_eq_none _ _).mpr h3
        simp [h1, h2, h3, e1, e2, e3]

/-- The `CONFIG_TYPE_CONTROLLER` case processes a node exactly when its name
is one of: default, game name, basename of the source file, parent name,
grandparent name. -/
theorem system_matches_controller (m : machine_info) (name : String) :
    system_matches .CONFIG_TYPE_CONTROLLER m name = true ↔ controller_match m name := by
  unfold system_matches controller_match
  rw [is_basename_iff_srcfile]
  simp only [Bool.not_eq_true', Bool.and_eq_false_imp, Bool.and_eq_true, Bool.or_eq_true,
    decide_eq_true_eq, Bool.or_eq_false_iff, decide_eq_false_iff_not, ne_eq, not_not]
  tauto

/-- The loop over the system nodes, for a controller file: the calls are
those for the nodes of the claim and the count is their number. -/
theorem load_xml_systems_controller (m : machine_info) (typelist : List String)
    (children : List xml_data_node) :
    load_xml_systems .CONFIG_TYPE_CONTROLLER m typelist children
      = (load_calls typelist (controller_nodes m children),
          (controller_nodes m children).length) := by
  induction children with
  | nil => rfl
  | cons n rest ih =>
    unfold load_xml_systems
    rw [ih]
    by_cases htag : n.name = "system"
    · by_cases hm : controller_match m (n.attr_name.getD "")
      · have hs := (system_matches_controller m (n.attr_name.getD "")).mpr hm
        simp [htag, hm, hs, controller_nodes, load_calls]
      · have hs : system_matches .CONFIG_TYPE_CONTROLLER m (n.attr_name.getD "") = false := by
          cases h : system_matches .CONFIG_TYPE_CONTROLLER m (n.attr_name.getD "")
          · rfl
          · exact absurd ((system_matches_controller m _).mp h) hm
        simp [htag, hm, hs, controller_nodes, load_calls]
    · simp [htag, controller_nodes, load_calls]

/-- C13, as stated, fails: a controller file whose `<mameconfig>` node carries
version 9 where `CONFIG_VERSION` is 10 has a system node named "default" and
one named after the source file, yet `load_xml` makes no load call and returns
0; the same file with version 10 has both nodes processed. -/
theorem load_xml_version_guard :
    controller_nodes sampleMachine sampleNodes
        = [{ name := "system", attr_name := some "pacman.cpp",
              child := [{ name := "input", id := 1 }] },
            { name := "system", attr_name := some "default",
              child := [{ name := "video", id := 3 }] }]
    ∧ load_xml 10 sampleMachine ["input", "video"] (some (9, sampleNodes))
        .CONFIG_TYPE_CONTROLLER = ([], 0)
    ∧ (load_xml 10 sampleMachine ["input", "video"] (some (10, sampleNodes))
        .CONFIG_TYPE_CONTROLLER).1.map (fun c => (c.registrant, c.systemnode.attr_name, c.node))
      = [("input", some "pacman.cpp", some { name := "input", id := 1 }),
          ("video", some "pacman.cpp", none),
          ("input", some "default", none),
          ("video", some "default", some { name := "video", id := 3 })] := by
  decide

/-- C13 (amended): in `load_xml` with `CONFIG_TYPE_CONTROLLER`, when the file
is read, has a `<mameconfig>` node and that node carries the version
`CONFIG_VERSION`, a `<system>` node is processed (the load callback of every
registrant is called for it, in the order of the registrants, and it is
counted: the loop's `count` is the number of these nodes) if and only if its
name is "default", the game's name, the basename of the game's source file,
the name of the game's parent when it has one, or the name of that parent's
parent when it has one; every other node is skipped, and the function returns
1 when a node was processed and 0 otherwise.  When
the file cannot be read, has no `<mameconfig>` node or carries another
version, no node is processed and the function returns 0. -/
theorem load_xml_controller_nodes (CONFIG_VERSION : Int) (m : machine_info)
    (typelist : List String) (version : Int) (children : List xml_data_node) :
    (∀ name, system_matches .CONFIG_TYPE_CONTROLLER m name = true ↔ controller_match m name)
    ∧ load_xml_systems .CONFIG_TYPE_CONTROLLER m typelist children
        = (load_calls typelist (controller_nodes m children),
            (controller_nodes m children).length)
    ∧ (version = CONFIG_VERSION →
        load_xml CONFIG_VERSION m typelist (some (version, children)) .CONFIG_TYPE_CONTROLLER
          = (load_calls typelist (controller_nodes m children),
              if (controller_nodes m children).length = 0 then 0 else 1))
    ∧ (version ≠ CONFIG_VERSION →
        load_xml CONFIG_VERSION m typelist (some (version, children)) .CONFIG_TYPE_CONTROLLER
          = ([], 0))
    ∧ load_xml CONFIG_VERSION m typelist none .CONFIG_TYPE_CONTROLLER = ([], 0) := by
  refine ⟨system_matches_controller m, load_xml_systems_controller m typelist children, ?_, ?_,
    rfl⟩
  · intro hv
    unfold load_xml
    simp only [hv, ne_eq, not_true_eq_false, if_false, load_xml_systems_controller]
    split_ifs <;> rfl
  · intro hv
    unfold load_xml
    simp [hv]

/-! ## `set_difficulty` -/

theorem search_names_no_match (names : List String) (settings : List ioport_setting)
    (h : ∀ nm ∈ names, ∀ iop ∈ settings, iop.name ≠ nm) : search_names names settings = -1 := by
  induction names with
  | nil => rfl
  | cons nm rest ih =>
    have hnone : settings.find? (fun iop => iop.name = nm) = none := by
      rw [List.find?_eq_none]
      intro iop hiop
      simpa using h nm (List.mem_cons_self _ _) iop hiop
    unfold search_names
    rw [hnone]
    exact ih fun nm' hnm' => h nm' (List.mem_cons_of_mem _ hnm')

theorem pick_setting_in_range (settings : List ioport_setting) (k : Nat)
    (hk : k < settings.length) :
    ∃ iop ∈ settings, pick_setting settings k = to_int iop.value := by
  induction settings generalizing k with
  | nil => exact absurd hk (by simp)
  | cons iop rest ih =>
    cases k with
    | zero => exact ⟨iop, List.mem_cons_self _ _, by simp [pick_setting]⟩
    | succ k =>
      obtain ⟨iop', hmem, hp⟩ := ih k (by simpa using hk)
      refine ⟨iop', List.mem_cons_of_mem _ hmem, ?_⟩
      unfold pick_setting
      rw [if_neg (by omega)]
      have e : ((k + 1 : Nat) : Int) - 1 = (k : Int) := by omega
      rw [e]
      exact hp

theorem to_uint32_to_int (v : Nat) : to_uint32 (to_int v) = v % 2 ^ 32 := by
  unfold to_uint32 to_int
  split <;> omega

/-- For the levels easiest, easy and hard, a field with at least one setting
and no setting that bears a name of the name lists gets the value of one of
its own settings. -/
theorem interpolated_value_is_setting (misc : Int) (found : ioport_field)
    (hmisc : misc = DIFFICULTY_EASIEST ∨ misc = DIFFICULTY_EASY ∨ misc = DIFFICULTY_HARD)
    (hne : found.settings ≠ [])
    (hno : ∀ nm ∈ NAME_EASIEST ++ NAME_EASY ++ NAME_HARD, ∀ iop ∈ found.settings,
      iop.name ≠ nm) :
    ∃ iop ∈ found.settings,
      set_difficulty misc found ((found.settings.length : Int) - 1)
        = some { found with user_value := iop.value % 2 ^ 32 } := by
  have hlen : 0 < found.settings.length := List.length_pos.mpr hne
  have h1 : search_names NAME_EASIEST found.settings = -1 :=
    search_names_no_match _ _ fun nm h => hno nm (by simp [h])
  have h2 : search_names NAME_EASY found.settings = -1 :=
    search_names_no_match _ _ fun nm h => hno nm (by simp [h])
  have h3 : search_names NAME_HARD found.settings = -1 :=
    search_names_no_match _ _ fun nm h => hno nm (by simp [h])
  have key : ∀ k : Nat, k < found.settings.length → ∃ iop ∈ found.settings,
      to_uint32 (pick_setting found.settings k) = iop.value % 2 ^ 32 := by
    intro k hk
    obtain ⟨iop, hmem, hp⟩ := pick_setting_in_range found.settings k hk
    exact ⟨iop, hmem, by rw [hp, to_uint32_to_int]⟩
  rcases hmisc with rfl | rfl | rfl
  · obtain ⟨iop, hmem, hp⟩ := key 0 hlen
    refine ⟨iop, hmem, ?_⟩
    simp only [Nat.cast_zero] at hp
    simp [set_difficulty, DIFFICULTY_EASIEST, DIFFICULTY_NONE, h1, h2, hp]
  · have hpos : (0 : Int) ≤ ((found.settings.length : Int) - 1) * 1 := by omega
    have e : Int.tdiv ((found.settings.length : Int) - 1) 4
        = (((found.settings.length - 1) / 4 : Nat) : Int) := by
      rw [Int.tdiv_eq_ediv (by omega) (by decide)]
      omega
    obtain ⟨iop, hmem, hp⟩ := key ((found.settings.length - 1) / 4) (by omega)
    refine ⟨iop, hmem, ?_⟩
    push_cast at hp
    simp [set_difficulty, DIFFICULTY_EASY, DIFFICULTY_NONE, DIFFICULTY_EASIEST, h2, hp, e]
  · have hpos : (0 : Int) ≤ ((found.settings.length : Int) - 1) * 3 := by omega
    have e : Int.tdiv (((found.settings.length : Int) - 1) * 3) 4
        = (((found.settings.length - 1) * 3 / 4 : Nat) : Int) := by
      rw [Int.tdiv_eq_ediv hpos (by decide)]
      omega
    obtain ⟨iop, hmem, hp⟩ := key ((found.settings.length - 1) * 3 / 4) (by omega)
    refine ⟨iop, hmem, ?_⟩
    push_cast at hp
    simp [set_difficulty, DIFFICULTY_HARD, DIFFICULTY_NONE, DIFFICULTY_EASIEST, DIFFICULTY_EASY,
      DIFFICULTY_MEDIUM, h3, hp, e]

/-- C20: the code departs from the claim for the level hardest (and for
medium): for `sampleDifficulty`, whose two settings match no name,
`config_customize_difficulty("hardest")` stores 253 (the counter 0xff
decremented once per setting), which is the value of none of the settings; for
`maskedDifficulty` the level medium stores 44 (the default value 48 taken as a
position, decremented four times). -/
theorem difficulty_stores_no_setting_value :
    search_names NAME_HARDEST sampleDifficulty.settings = -1
    ∧ search_names NAME_HARD sampleDifficulty.settings = -1
    ∧ config_customize_difficulty "hardest" [sampleDifficulty]
        = some [{ sampleDifficulty with user_value := 253 }]
    ∧ 253 ∉ sampleDifficulty.settings.map (fun iop => iop.value)
    ∧ search_names NAME_MEDIUM maskedDifficulty.settings = -1
    ∧ search_names NAME_EASY maskedDifficulty.settings = -1
    ∧ config_customize_difficulty "medium" [maskedDifficulty]
        = some [{ maskedDifficulty with user_value := 44 }]
    ∧ 44 ∉ maskedDifficulty.settings.map (fun iop => iop.value) := by
  decide

end config

namespace osd

/-! ## `get_symbol_address` -/


/-- The loop finds the first library in list order that loads and exports
the symbol. -/
theorem search_libraries_some (os : win32) (symbol : String) (libraries : List String)
    (module function : Nat) :
    search_libraries os symbol libraries = some (module, function) ↔
      ∃ before library after, libraries = before ++ library :: after
        ∧ provides os library symbol module function
        ∧ none_provides os before symbol := by
  induction libraries with
  | nil =>
    simp [search_libraries]
  | cons l rest ih =>
    unfold search_libraries
    cases hl : os.load_library l with
    | none =>
      simp only
      rw [ih]
      constructor
      · rintro ⟨before, library, after, h1, h2, h3⟩
        refine ⟨l :: before, library, after, by rw [h1]; rfl, h2, ?_⟩
        intro lib hlib m fn hp
        rcases List.mem_cons.mp hlib with rfl | hmem
        · rw [hp.1] at hl; cases hl
        · exact h3 lib hmem m fn hp
      · rintro ⟨before, library, after, h1, h2, h3⟩
        cases before with
        | nil =>
          simp only [List.nil_append, List.cons.injEq] at h1
          obtain ⟨rfl, -⟩ := h1
          rw [h2.1] at hl; cases hl
        | cons b bs =>
          simp only [List.cons_append, List.cons.injEq] at h1
          obtain ⟨rfl, rfl⟩ := h1
          exact ⟨bs, library, after, rfl, h2, fun lib hlib m fn hp =>
            h3 lib (List.mem_cons_of_mem _ hlib) m fn hp⟩
    | some m0 =>
      simp only
      cases hg : os.GetProcAddress m0 symbol with
      | none =>
        simp only
        rw [ih]
        constructor
        · rintro ⟨before, library, after, h1, h2, h3⟩
          refine ⟨l :: before, library, after, by rw [h1]; rfl, h2, ?_⟩
          intro lib hlib m fn hp
          rcases List.mem_cons.mp hlib with rfl | hmem
          · obtain ⟨hp1, hp2⟩ := hp
            rw [hl] at hp1
            cases hp1
            rw [hg] at hp2
            cases hp2
          · exact h3 lib hmem m fn hp
        · rintro ⟨before, library, after, h1, h2, h3⟩
          cases before with
          | nil =>
            simp only [List.nil_append, List.cons.injEq] at h1
            obtain ⟨rfl, -⟩ := h1
            obtain ⟨hp1, hp2⟩ := h2
            rw [hl] at hp1
            cases hp1
            rw [hg] at hp2
            cases hp2
          | cons b bs =>
            simp only [List.cons_append, List.cons.injEq] at h1
            obtain ⟨rfl, rfl⟩ := h1
            exact ⟨bs, library, after, rfl, h2, fun lib hlib m fn hp =>
              h3 lib (List.mem_cons_of_mem _ hlib) m fn hp⟩
      | some f0 =>
        simp only [Option.some.injEq, Prod.mk.injEq]
        constructor
        · rintro ⟨rfl, rfl⟩
          exact ⟨[], l, rest, rfl, ⟨hl, hg⟩, fun lib hlib => absurd hlib (List.not_mem_nil _)⟩
        · rintro ⟨before, library, after, h1, h2, h3⟩
          cases before with
          | nil =>
            simp only [List.nil_append, List.cons.injEq] at h1
            obtain ⟨rfl, -⟩ := h1
            obtain ⟨hp1, hp2⟩ := h2
            rw [hl] at hp1
            cases hp1
            rw [hg] at hp2
            cases hp2
            exact ⟨rfl, rfl⟩
          | cons b bs =>
            simp only [List.cons_append, List.cons.injEq] at h1
            obtain ⟨rfl, rfl⟩ := h1
            exact absurd ⟨hl, hg⟩ (h3 l (List.mem_cons_self _ _) m0 f0)

/-- The loop returns nothing exactly when no library loads and exports the
symbol. -/
theorem search_libraries_none (os : win32) (symbol : String) (libraries : List String) :
    search_libraries os symbol libraries = none ↔ none_provides os libraries symbol := by
  constructor
  · intro h
    induction libraries with
    | nil => exact fun lib hlib => absurd hlib (List.not_mem_nil _)
    | cons l rest ih =>
      unfold search_libraries at h
      intro lib hlib m fn hp
      cases hl : os.load_library l with
      | none =>
        simp only [hl] at h
        rcases List.mem_cons.mp hlib with rfl | hmem
        · rw [hp.1] at hl; cases hl
        · exact ih h lib hmem m fn hp
      | some m0 =>
        simp only [hl] at h
        cases hg : os.GetProcAddress m0 symbol with
        | none =>
          simp only [hg] at h
          rcases List.mem_cons.mp hlib with rfl | hmem
          · obtain ⟨hp1, hp2⟩ := hp
            rw [hl] at hp1
            cases hp1
            rw [hg] at hp2
            cases hp2
          · exact ih h lib hmem m fn hp
        | some f0 =>
          simp [hg] at h
  · intro h
    cases hs : search_libraries os symbol libraries with
    | none => rfl
    | some p =>
      obtain ⟨m, fn⟩ := p
      obtain ⟨before, library, after, h1, h2, -⟩ :=
        (search_libraries_some os symbol libraries m fn).mp hs
      exact absurd h2 (h library (by rw [h1]; simp) m fn)

theorem get_symbol_addresses_append (os : win32) (self : dynamic_module_win32_impl)
    (xs ys : List String) :
    get_symbol_addresses os self (xs ++ ys)
      = ((get_symbol_addresses os self xs).1
          ++ (get_symbol_addresses os (get_symbol_addresses os self xs).2 ys).1,
        (get_symbol_addresses os (get_symbol_addresses os self xs).2 ys).2) := by
  induction xs generalizing self with
  | nil => rfl
  | cons x xs ih =>
    show get_symbol_addresses os self (x :: (xs ++ ys)) = _
    simp only [get_symbol_addresses, ih, List.cons_append]

/-- As long as every call returns null the object stays as constructed. -/
theorem unbound_while_null (os : win32) (libraries : List String) (symbols : List String)
    (h : ∀ r ∈ (get_symbol_addresses os (.open libraries) symbols).1, r = none) :
    (get_symbol_addresses os (.open libraries) symbols).2 = .open libraries := by
  suffices hs : ∀ self : dynamic_module_win32_impl, self.m_module = none →
      (∀ r ∈ (get_symbol_addresses os self symbols).1, r = none) →
      (get_symbol_addresses os self symbols).2 = self from hs _ rfl h
  clear h
  induction symbols with
  | nil => intro self _ _; rfl
  | cons x xs ih =>
    intro self hm hr
    simp only [get_symbol_addresses] at hr ⊢
    have h1 := hr _ (List.mem_cons_self _ _)
    have hself : (get_symbol_address os self x).2 = self := by
      unfold get_symbol_address at h1 ⊢
      rw [hm] at h1 ⊢
      simp only at h1 ⊢
      cases hsr : search_libraries os x self.m_libraries with
      | none => rfl
      | some p => rw [hsr] at h1; simp at h1
    rw [hself] at hr ⊢
    exact ih self hm fun r hmem => hr r (List.mem_cons_of_mem _ hmem)

/-- Once a module is bound it stays bound. -/
theorem bound_stays (os : win32) (self : dynamic_module_win32_impl) (module : Nat)
    (hm : self.m_module = some module) (symbols : List String) :
    (get_symbol_addresses os self symbols).2 = self := by
  induction symbols with
  | nil => rfl
  | cons x xs ih =>
    have hself : (get_symbol_address os self x).2 = self := by
      unfold get_symbol_address
      rw [hm]
    simp only [get_symbol_addresses, hself, ih]

/-- C14: for every list of libraries and every sequence of
`get_symbol_address` calls: while every earlier call has returned null, a call
returns the symbol from the first library in list order that loads and exports
it, or null if none does; and once a call has returned a non-null address,
taken from the library with module `L`, every later call returns what `L`
exports for the requested symbol (null if `L` does not export it). -/
theorem get_symbol_address_same_library (os : win32) (libraries earlier later : List String)
    (first symbol : String)
    (hnull : ∀ r ∈ (get_symbol_addresses os (.open libraries) earlier).1, r = none) :
    (∀ function,
        (get_symbol_address os (get_symbol_addresses os (.open libraries) earlier).2 symbol).1
            = some function ↔
          ∃ module before library after, libraries = before ++ library :: after
            ∧ provides os library symbol module function ∧ none_provides os before symbol)
    ∧ ((get_symbol_address os (get_symbol_addresses os (.open libraries) earlier).2 symbol).1
          = none ↔ none_provides os libraries symbol)
    ∧ (∀ function,
        (get_symbol_address os (get_symbol_addresses os (.open libraries) earlier).2 first).1
            = some function →
          ∃ L, (∃ before library after, libraries = before ++ library :: after
              ∧ provides os library first L function ∧ none_provides os before first)
            ∧ (get_symbol_address os
                (get_symbol_addresses os (.open libraries) (earlier ++ first :: later)).2
                symbol).1 = os.GetProcAddress L symbol) := by
  have hst := unbound_while_null os libraries earlier hnull
  rw [hst]
  have hcall : ∀ s, (get_symbol_address os (.open libraries) s).1
      = (search_libraries os s libraries).map Prod.snd := by
    intro s
    unfold get_symbol_address dynamic_module_win32_impl.open
    simp only
    cases search_libraries os s libraries with
    | none => rfl
    | some p => rfl
  refine ⟨?_, ?_, ?_⟩
  · intro function
    rw [hcall]
    constructor
    · intro h
      cases hs : search_libraries os symbol libraries with
      | none => rw [hs] at h; cases h
      | some p =>
        obtain ⟨m, fn⟩ := p
        rw [hs] at h
        simp only [Option.map_some', Option.some.injEq] at h
        subst h
        exact ⟨m, (search_libraries_some os symbol libraries m fn).mp hs⟩
    · rintro ⟨m, h⟩
      rw [(search_libraries_some os symbol libraries m function).mpr h]
      rfl
  · rw [hcall, ← search_libraries_none]
    cases search_libraries os symbol libraries <;> simp
  · intro function h
    rw [hcall] at h
    cases hs : search_libraries os first libraries with
    | none => rw [hs] at h; cases h
    | some p =>
      obtain ⟨L, fn⟩ := p
      rw [hs] at h
      simp only [Option.map_some', Option.some.injEq] at h
      subst h
      refine ⟨L, (search_libraries_some os first libraries L fn).mp hs, ?_⟩
      have hbound : (get_symbol_address os (.open libraries) first).2
          = { m_libraries := libraries, m_module := some L } := by
        unfold get_symbol_address dynamic_module_win32_impl.open
        simp only [hs]
      rw [get_symbol_addresses_append, hst]
      simp only [get_symbol_addresses, hbound]
      rw [bound_stays os _ L rfl later]
      rfl

/-- C14 at `sampleWin32` with the libraries `c.dll`, `a.dll`, `b.dll`: the
call for `h` returns null, the call for `g` then binds `b.dll` (the first
library that exports `g`), and `f` is afterwards taken from `b.dll` (20)
although `a.dll`, earlier in the list, exports it too. -/
theorem get_symbol_address_same_library_witness :
    (∀ r ∈ (get_symbol_addresses sampleWin32 (.open ["c.dll", "a.dll", "b.dll"]) ["h"]).1,
        r = none)
    ∧ (get_symbol_addresses sampleWin32 (.open ["c.dll", "a.dll", "b.dll"])
        ["h", "g", "f", "h", "f"]).1 = [none, some 21, some 20, none, some 20]
    ∧ ∃ L, (∃ before library after, ["c.dll", "a.dll", "b.dll"] = before ++ library :: after
          ∧ provides sampleWin32 library "g" L 21 ∧ none_provides sampleWin32 before "g")
        ∧ (get_symbol_address sampleWin32
            (get_symbol_addresses sampleWin32 (.open ["c.dll", "a.dll", "b.dll"])
              (["h"] ++ "g" :: ["f", "h"])).2 "f").1 = sampleWin32.GetProcAddress L "f" :=
  ⟨by decide, by decide,
    (get_symbol_address_same_library sampleWin32 ["c.dll", "a.dll", "b.dll"] ["h"] ["f", "h"]
      "g" "f" (by decide)).2.2 21 (by decide)⟩

end osd


/-!
# SwitchRes on SDL: properties
-/

namespace switchres_sdl

theorem states_set_append (xs ys : List call) (id : option_ID) :
    states_set (xs ++ ys) id = states_set xs id ++ states_set ys id := by
  simp [states_set, List.filterMap_append]

/-- The block that makes the mode available calls no `set_option_osd`. -/
theorem make_mode_available_states_set (h : switchres_h) (machine : switchres_state)
    (id : option_ID) :
    states_set (make_mode_available h machine).calls id = states_set machine.calls id := by
  unfold make_mode_available
  simp only [set_custom_video_mode, add_custom_video_mode]
  split_ifs <;> simp [states_set_append, states_set]

/-- The block that makes the mode available changes only the type of the
mode. -/
theorem make_mode_available_best_mode (h : switchres_h) (machine : switchres_state) :
    (make_mode_available h machine).best_mode
      = { machine.best_mode with type := machine.best_mode.type ||| h.MODE_DISABLED } := by
  unfold make_mode_available
  simp only [set_custom_video_mode, add_custom_video_mode]
  split_ifs <;> rfl

/-- The values `switchres_modeline_setup` passes for the two synchronization
options when a mode is found: one call each, after the calls made before. -/
theorem setup_sync_states (h : switchres_h) (fd : Int) (options : sdl_options)
    (found : Bool × modeline) (machine : switchres_state) (hmode : found.1 = true) :
    states_set (switchres_modeline_setup h fd options found machine).2.calls .OPTION_SYNCREFRESH
        = states_set machine.calls .OPTION_SYNCREFRESH
          ++ [if options.autosync
              then sync_refresh_effective h fd (black_frame_insertion options found.2) found.2
              else options.sync_refresh]
    ∧ states_set (switchres_modeline_setup h fd options found machine).2.calls
          .OSDOPTION_WAITVSYNC
        = states_set machine.calls .OSDOPTION_WAITVSYNC
          ++ [if options.autosync
              then sync_refresh_effective h fd (black_frame_insertion options found.2) found.2
              else options.wait_vsync] := by
  have hb : ∀ m : modeline, ∀ t : Nat,
      black_frame_insertion options { m with type := t } = black_frame_insertion options m :=
    fun _ _ => rfl
  have hs : ∀ (b : Bool) (m : modeline) (t : Nat),
      sync_refresh_effective h fd b { m with type := t } = sync_refresh_effective h fd b m :=
    fun _ _ _ => rfl
  unfold switchres_modeline_setup
  simp only [hmode, Bool.not_true, Bool.false_eq_true, if_false]
  cases options.modeline_generation
  · simp [set_option_osd, states_set_append, states_set]
  · simp only [if_true, set_option_osd, states_set_append, make_mode_available_states_set,
      make_mode_available_best_mode, hb, hs]
    simp [states_set]

/-- With black frame insertion in effect the state passed for the two
synchronization options is true, whatever the constants of the headers, `fd`
and the weight of the mode are. -/
theorem sync_refresh_effective_of_black_frame_insertion (h : switchres_h) (fd : Int)
    (options : sdl_options) (best_mode : modeline)
    (hbfi : black_frame_insertion options best_mode = true) :
    sync_refresh_effective h fd (black_frame_insertion options best_mode) best_mode = true := by
  rw [hbfi]
  rfl

/-- C21, as stated, fails: with autosync and black frame insertion on, for a
mode of 120 Hz whose vertical frequency is scaled by 2 (`v_scale = 2 > 1`) and
without DRI access (`fd == 0`), `switchres_modeline_setup` sets both
syncrefresh and waitvsync to true.  The mode has no weight flag, so the value
given to `R_V_FREQ_OFF` plays no part. -/
theorem syncrefresh_on_with_scaled_vfreq :
    bfiOptions.autosync = true ∧ doubledMode.result.v_scale > 1
    ∧ (switchres_modeline_setup sampleConstants 0 bfiOptions (true, doubledMode)
          (freshState doubledMode)).1 = true
    ∧ states_set (switchres_modeline_setup sampleConstants 0 bfiOptions (true, doubledMode)
          (freshState doubledMode)).2.calls .OPTION_SYNCREFRESH = [true]
    ∧ states_set (switchres_modeline_setup sampleConstants 0 bfiOptions (true, doubledMode)
          (freshState doubledMode)).2.calls .OSDOPTION_WAITVSYNC = [true] := by
  decide

/-- C21 (amended): in `switchres_modeline_setup` with autosync enabled.  When
a video mode is found the function returns true and calls `set_option_osd`
once for syncrefresh and once for waitvsync, with the same state: false
whenever the vertical frequency is scaled (`v_scale > 1`), or out of tolerance
(`weight & R_V_FREQ_OFF`), or there is no DRI access (`fd == 0`), unless black
frame insertion is in effect (the black_frame_insertion option is on,
`v_scale > 1` and `vfreq > 100`); true when black frame insertion is in
effect, and when none of the three conditions holds.  When no video mode is
found the function returns false and its only call is
`set_option_osd(OSDOPTION_SWITCHRES, false)`, so neither option is set. -/
theorem autosync_sets_syncrefresh (h : switchres_h) (fd : Int) (options : sdl_options)
    (found : Bool × modeline) (machine : switchres_state)
    (hauto : options.autosync = true) :
    (found.1 = true →
      (switchres_modeline_setup h fd options found machine).1 = true
      ∧ (((found.2.result.v_scale > 1 ∨ found.2.result.weight &&& h.R_V_FREQ_OFF ≠ 0 ∨ fd = 0)
          ∧ ¬ (options.black_frame_insertion = true ∧ found.2.result.v_scale > 1
                ∧ found.2.vfreq > 100)) →
        states_set (switchres_modeline_setup h fd options found machine).2.calls
            .OPTION_SYNCREFRESH = states_set machine.calls .OPTION_SYNCREFRESH ++ [false]
        ∧ states_set (switchres_modeline_setup h fd options found machine).2.calls
            .OSDOPTION_WAITVSYNC = states_set machine.calls .OSDOPTION_WAITVSYNC ++ [false])
      ∧ (((options.black_frame_insertion = true ∧ found.2.result.v_scale > 1
            ∧ found.2.vfreq > 100)
          ∨ ¬ (found.2.result.v_scale > 1 ∨ found.2.result.weight &&& h.R_V_FREQ_OFF ≠ 0
                ∨ fd = 0)) →
        states_set (switchres_modeline_setup h fd options found machine).2.calls
            .OPTION_SYNCREFRESH = states_set machine.calls .OPTION_SYNCREFRESH ++ [true]
        ∧ states_set (switchres_modeline_setup h fd options found machine).2.calls
            .OSDOPTION_WAITVSYNC = states_set machine.calls .OSDOPTION_WAITVSYNC ++ [true]))
    ∧ (found.1 = false →
      (switchres_modeline_setup h fd options found machine).1 = false
      ∧ (switchres_modeline_setup h fd options found machine).2.calls
          = machine.calls ++ [call.set_option_osd .OSDOPTION_SWITCHRES false]
      ∧ states_set (switchres_modeline_setup h fd options found machine).2.calls
          .OPTION_SYNCREFRESH = states_set machine.calls .OPTION_SYNCREFRESH
      ∧ states_set (switchres_modeline_setup h fd options found machine).2.calls
          .OSDOPTION_WAITVSYNC = states_set machine.calls .OSDOPTION_WAITVSYNC) := by
  constructor
  · intro hmode
    obtain ⟨h1, h2⟩ := setup_sync_states h fd options found machine hmode
    rw [h1, h2]
    simp only [hauto, if_true]
    refine ⟨?_, ?_, ?_⟩
    · unfold switchres_modeline_setup
      simp [hmode]
    · rintro ⟨hoff, hbfi⟩
      have hv : sync_refresh_effective h fd (black_frame_insertion options found.2) found.2
          = false := by
        have hb : black_frame_insertion options found.2 = false := by
          cases hbv : black_frame_insertion options found.2
          · rfl
          · exfalso
            apply hbfi
            simpa [black_frame_insertion, Bool.and_eq_true, decide_eq_true_eq, and_assoc]
              using hbv
        rw [hb]
        simp only [sync_refresh_effective, Bool.false_or, Bool.not_eq_false_eq_eq_true,
          Bool.or_eq_true, decide_eq_true_eq, Bool.not_eq_eq_eq_not, Bool.not_false]
        tauto
      rw [hv]
      exact ⟨rfl, rfl⟩
    · intro hon
      have hv : sync_refresh_effective h fd (black_frame_insertion options found.2) found.2
          = true := by
        rcases hon with hbfi | hnone
        · exact sync_refresh_effective_of_black_frame_insertion h fd options found.2
            (by simpa [black_frame_insertion, Bool.and_eq_true, decide_eq_true_eq, and_assoc]
              using hbfi)
        · simp only [sync_refresh_effective, Bool.or_eq_true, Bool.not_eq_true_eq_eq_false,
            Bool.or_eq_false_iff, decide_eq_true_eq, decide_eq_false_iff_not,
            Bool.not_eq_eq_eq_not, Bool.not_true]
          right
          tauto
      rw [hv]
      exact ⟨rfl, rfl⟩
  · intro hmode
    unfold switchres_modeline_setup
    simp [hmode, set_option_osd, states_set_append, states_set]

/-- C21 (amended) at a 60 Hz mode whose vertical frequency is scaled by 2,
with autosync and the black_frame_insertion option on and DRI access: black
frame insertion is not in effect (60 is not above 100), and both options are
set to false. -/
theorem autosync_sets_syncrefresh_witness :
    bfiOptions.autosync = true
    ∧ states_set (switchres_modeline_setup sampleConstants 3 bfiOptions
          (true, scaledMode) (freshState scaledMode)).2.calls .OPTION_SYNCREFRESH = [false]
    ∧ states_set (switchres_modeline_setup sampleConstants 3 bfiOptions
          (true, scaledMode) (freshState scaledMode)).2.calls .OSDOPTION_WAITVSYNC = [false] :=
  ⟨rfl,
    ((autosync_sets_syncrefresh sampleConstants 3 bfiOptions
      (true, scaledMode) (freshState scaledMode) rfl).1 rfl).2.1 (by decide)⟩

end switchres_sdl

